import Mathlib

/-!
# LSLiDAR C32 decoder: packet validation, packet decoding, sweep assembly and
# the publications made from a sweep

A shallow embedding of `lslidar_c32_decoder.cpp`.  The C++ `double` values are
read in an arbitrary linear ordered field `F` with a floor function (exact
arithmetic), so every statement holds in particular over the reals and can be
evaluated over the rationals.  C arrays reached through a pointer are total
functions on the index (`blocks`, `data`, `firings`, `scans`): an index past the
declared length reads whatever the memory holds there.  `RawPacket.ofBytes`
builds a packet from the bytes of a message, with the overlaps that the packed
layout implies.  A loop whose end is not evident takes a bound on the number of
steps and returns `none` when it has not ended by then; an unsigned counter
wraps at its width.  `packetCallback` calls the publication functions after it
has handed a sweep to `sweep_pub.publish`; its outcome records whether the call
returns, and a run of packets stops at a call that does not.  The header with
the layout constants is not part of the sources: the constants are set as the
specification gives them, and the functions of `decodePacket` are also given
with the constants as parameters (`Layout`).
-/

namespace LslidarC32

/-! ## Constants of the missing header `lslidar_c32_decoder.h` -/

/-- Modelled from the spec: the header that declares `BLOCKS_PER_PACKET` is not
part of the sources; the spec fixes a packet at 12 blocks. -/
def BLOCKS_PER_PACKET : Nat := 12

/-- Modelled from the spec: the header that declares `FIRINGS_PER_BLOCK` is not
part of the sources; the spec fixes 2 firings per block. -/
def FIRINGS_PER_BLOCK : Nat := 2

/-- Modelled from the spec: the header that declares `FIRINGS_PER_PACKET` is not
part of the sources; the spec gives `BLOCKS_PER_PACKET × FIRINGS_PER_BLOCK = 24`. -/
def FIRINGS_PER_PACKET : Nat := FIRINGS_PER_BLOCK * BLOCKS_PER_PACKET

/-- Modelled from the spec: the header that declares `SCANS_PER_FIRING` is not
part of the sources; the spec gives 32 channel samples per firing. -/
def SCANS_PER_FIRING : Nat := 32

/-- Modelled from the spec: the header that declares `RAW_SCAN_SIZE` is not part
of the sources; the spec gives channel slots of 3 bytes each. -/
def RAW_SCAN_SIZE : Nat := 3

/-! ## Data model -/

/-- One block of the wire packet (`RawBlock`): the 16-bit header marker, the
16-bit azimuth in hundredths of a degree as the little-endian host reads it,
and the data bytes, indexed from the start of the block's data area. -/
structure RawBlock where
  header : Nat
  rotation : Nat
  data : Nat → Nat

/-- The packet as seen through the `RawPacket*` cast of the message bytes. -/
structure RawPacket where
  blocks : Nat → RawBlock

/-- The incoming message (`LslidarC32Packet`): a time stamp in seconds and the
raw bytes. -/
structure LslidarC32Packet (F : Type) where
  stamp : F
  data : RawPacket

/-- A decoded firing (`Firing`). -/
structure Firing (F : Type) where
  firing_azimuth : F
  azimuth : Nat → F
  distance : Nat → F
  intensity : Nat → F

/-- A point of a scan (`LslidarC32Point`). -/
structure LslidarC32Point (F : Type) where
  time : F
  x : F
  y : F
  z : F
  azimuth : F
  distance : F
  intensity : F

/-- The scan of one beam (`LslidarC32Scan`). -/
structure LslidarC32Scan (F : Type) where
  altitude : F
  points : List (LslidarC32Point F)

/-- The message header of a sweep. -/
structure Header (F : Type) where
  stamp : F
  frame_id : String

/-- A sweep (`LslidarC32Sweep`): a header and the per-beam scans. -/
structure LslidarC32Sweep (F : Type) where
  header : Header F
  scans : Nat → LslidarC32Scan F

/-- The loaded parameters and the tables of the missing header that only the
publication functions read, and the two loaded flags that select the
publications made from a completed sweep. -/
structure PublishParams (F : Type) where
  point_num : Int
  angle_disable_min : F
  angle_disable_max : F
  child_frame_id : String
  layer_altitude : Nat → F
  layer_id : Nat → Int
  publish_point_cloud : Bool
  publish_channels : Bool

/-- The members of the decoder that no callback writes: the constants of the
missing header whose value the spec leaves open, the loaded parameters, the
calibration and the trigonometric tables; `publish` holds the ones that only
the publication functions read. -/
structure Params (F : Type) where
  UPPER_BANK : Nat
  DISTANCE_RESOLUTION : F
  FIRING_TOFFSET : F
  DSR_TOFFSET : F
  M_PI : F
  min_range : F
  max_range : F
  scan_altitude : Nat → F
  cos_scan_altitude : Nat → F
  sin_scan_altitude : Nat → F
  cos_azimuth_table : Nat → F
  sin_azimuth_table : Nat → F
  publish : PublishParams F

/-- The members of the decoder that the callbacks write. -/
structure Decoder (F : Type) where
  is_first_sweep : Bool
  last_azimuth : F
  sweep_start_time : F
  packet_start_time : F
  point_time : F
  layer_num : Int
  sweep_data : LslidarC32Sweep F
  firings : Nat → Firing F

/-- Modelled from the spec: the declarations of `RawPacket` and `RawBlock` are in
the missing header; the spec lays a packet out as 12 blocks of a 2-byte header,
a 2-byte azimuth and 32 slots of 3 bytes, multi-byte integers little-endian.
This is the cast `(const RawPacket*) (&(msg->data[0]))` of the message bytes:
block `k` starts at byte `100 * k`, and its data area at byte `100 * k + 4`. -/
def RawPacket.ofBytes (bytes : Nat → Nat) : RawPacket :=
  { blocks := fun k =>
      { header := bytes (100 * k) + 256 * bytes (100 * k + 1),
        rotation := bytes (100 * k + 2) + 256 * bytes (100 * k + 3),
        data := fun j => bytes (100 * k + 4 + j) } }

/-- Writing one element of an array. -/
def arrSet {α : Type} (a : Nat → α) (i : Nat) (v : α) : Nat → α :=
  fun j => if j = i then v else a j

section Code

variable {F : Type} [LinearOrderedField F] [FloorRing F]

/-- A default-constructed sweep message: `new LslidarC32Sweep()`. -/
def LslidarC32Sweep.fresh : LslidarC32Sweep F :=
  { header := { stamp := 0, frame_id := "" },
    scans := fun _ => { altitude := 0, points := [] } }

/-- The beam remap, written inline three times in the source:
`scan_idx%2 == 0 ? scan_idx/2 : scan_idx/2+16`. -/
def remap (scan_idx : Nat) : Nat :=
  if scan_idx % 2 = 0 then scan_idx / 2 else scan_idx / 2 + 16

/-- The channel that is remapped to a given beam. -/
def remapInv (beam : Nat) : Nat :=
  if beam < 16 then 2 * beam else 2 * (beam - 16) + 1

/-- Modelled from the spec: `DEG_TO_RAD` is declared in the missing header; the
spec converts degrees with `π/180`. -/
def DEG_TO_RAD (P : Params F) : F := P.M_PI / 180

/-- Modelled from the spec: `rawAzimuthToDouble` is declared in the missing
header; the spec gives `firing_azimuth = raw/100 * π/180`. -/
def rawAzimuthToDouble (P : Params F) (raw_azimuth : Nat) : F :=
  (raw_azimuth : F) / 100 * DEG_TO_RAD P

/-- Modelled from the spec: `isPointInRange` is declared in the missing header;
the spec drops samples with `d ∉ [min_range, max_range]`. -/
def isPointInRange (P : Params F) (distance : F) : Bool :=
  decide (P.min_range ≤ distance) && decide (distance ≤ P.max_range)

/-- The constructor's initial values. -/
def Decoder.new (layer_num : Int) (firings : Nat → Firing F) : Decoder F :=
  { is_first_sweep := true, last_azimuth := 0, sweep_start_time := 0,
    packet_start_time := 0, point_time := 0, layer_num := layer_num,
    sweep_data := LslidarC32Sweep.fresh, firings := firings }

/-- The altitude loop of the source's initialisation function: for `scan_idx < n`, write
`scans[remap scan_idx].altitude = scan_altitude[scan_idx]`. -/
def fillAltitude (P : Params F) (sw : LslidarC32Sweep F) (n : Nat) : LslidarC32Sweep F :=
  (List.range n).foldl
    (fun s scan_idx =>
      let scan : LslidarC32Scan F :=
        { s.scans (remap scan_idx) with altitude := P.scan_altitude scan_idx }
      { s with scans := arrSet s.scans (remap scan_idx) scan })
    sw

/-- The decoder after construction and the altitude loop of the source's
initialisation function. -/
def Decoder.init (P : Params F) (layer_num : Int) (firings : Nat → Firing F) : Decoder F :=
  let d : Decoder F := Decoder.new layer_num firings
  { d with sweep_data := fillAltitude P d.sweep_data 32 }

/-- The loop of `checkPacketValidity` over the blocks `blk_idx, blk_idx+1, …`
with `n` blocks left. -/
def checkBlocks (P : Params F) (packet : RawPacket) : Nat → Nat → Bool
  | _, 0 => true
  | blk_idx, n + 1 =>
    if (packet.blocks blk_idx).header ≠ P.UPPER_BANK then false
    else checkBlocks P packet (blk_idx + 1) n

/-- The function `checkPacketValidity`. -/
def checkPacketValidity (P : Params F) (packet : RawPacket) : Bool :=
  checkBlocks P packet 0 BLOCKS_PER_PACKET

/-- The first loop of `decodePacket`:
`firings[fir_idx].firing_azimuth = rawAzimuthToDouble(packet->blocks[fir_idx].rotation)`. -/
def decodeAzimuths (P : Params F) (packet : RawPacket) (firings : Nat → Firing F) :
    Nat → Firing F :=
  (List.range FIRINGS_PER_PACKET).foldl
    (fun fs fir_idx =>
      let fir : Firing F :=
        { fs fir_idx with
          firing_azimuth := rawAzimuthToDouble P (packet.blocks fir_idx).rotation }
      arrSet fs fir_idx fir)
    firings

/-- The body of the innermost loop of `decodePacket` for one channel. -/
def decodeScan (P : Params F) (raw_block : RawBlock) (blk_fir_idx : Nat)
    (fir : Firing F) (scan_fir_idx : Nat) : Firing F :=
  let byte_idx := RAW_SCAN_SIZE * (SCANS_PER_FIRING * blk_fir_idx + scan_fir_idx)
  let az : F :=
    if scan_fir_idx % 2 = 0 then fir.firing_azimuth + 4 * DEG_TO_RAD P
    else fir.firing_azimuth
  let raw_distance : Nat := raw_block.data byte_idx + 256 * raw_block.data (byte_idx + 1)
  { fir with
    azimuth := arrSet fir.azimuth scan_fir_idx az
    distance := arrSet fir.distance scan_fir_idx ((raw_distance : F) * P.DISTANCE_RESOLUTION)
    intensity := arrSet fir.intensity scan_fir_idx ((raw_block.data (byte_idx + 2) : Nat) : F) }

/-- The loop over the channels of one firing of a block. -/
def decodeFiring (P : Params F) (raw_block : RawBlock) (blk_fir_idx : Nat)
    (fir : Firing F) : Firing F :=
  (List.range SCANS_PER_FIRING).foldl (decodeScan P raw_block blk_fir_idx) fir

/-- The loop over the firings of one block. -/
def decodeBlock (P : Params F) (packet : RawPacket) (firings : Nat → Firing F)
    (blk_idx : Nat) : Nat → Firing F :=
  (List.range FIRINGS_PER_BLOCK).foldl
    (fun fs blk_fir_idx =>
      arrSet fs (blk_idx * FIRINGS_PER_BLOCK + blk_fir_idx)
        (decodeFiring P (packet.blocks blk_idx) blk_fir_idx
          (fs (blk_idx * FIRINGS_PER_BLOCK + blk_fir_idx))))
    firings

/-- The function `decodePacket`: the azimuth loop, then the loop over the blocks. -/
def decodePacket (P : Params F) (packet : RawPacket) (firings : Nat → Firing F) :
    Nat → Firing F :=
  (List.range BLOCKS_PER_PACKET).foldl (decodeBlock P packet)
    (decodeAzimuths P packet firings)

/-! ## Packet decoding with the layout constants left open -/

/-- The layout constants of the missing header that `decodePacket` uses, as
parameters. -/
structure Layout where
  BLOCKS_PER_PACKET : Nat
  FIRINGS_PER_BLOCK : Nat
  FIRINGS_PER_PACKET : Nat
  SCANS_PER_FIRING : Nat
  RAW_SCAN_SIZE : Nat

/-- Modelled from the spec: the layout constants as the spec gives them. -/
def specLayout : Layout :=
  { BLOCKS_PER_PACKET := BLOCKS_PER_PACKET, FIRINGS_PER_BLOCK := FIRINGS_PER_BLOCK,
    FIRINGS_PER_PACKET := FIRINGS_PER_PACKET, SCANS_PER_FIRING := SCANS_PER_FIRING,
    RAW_SCAN_SIZE := RAW_SCAN_SIZE }

/-- The first loop of `decodePacket`, for the layout `L`. -/
def decodeAzimuthsWith (L : Layout) (P : Params F) (packet : RawPacket)
    (firings : Nat → Firing F) : Nat → Firing F :=
  (List.range L.FIRINGS_PER_PACKET).foldl
    (fun fs fir_idx =>
      let fir : Firing F :=
        { fs fir_idx with
          firing_azimuth := rawAzimuthToDouble P (packet.blocks fir_idx).rotation }
      arrSet fs fir_idx fir)
    firings

/-- The body of the innermost loop of `decodePacket`, for the layout `L`. -/
def decodeScanWith (L : Layout) (P : Params F) (raw_block : RawBlock) (blk_fir_idx : Nat)
    (fir : Firing F) (scan_fir_idx : Nat) : Firing F :=
  let byte_idx := L.RAW_SCAN_SIZE * (L.SCANS_PER_FIRING * blk_fir_idx + scan_fir_idx)
  let az : F :=
    if scan_fir_idx % 2 = 0 then fir.firing_azimuth + 4 * DEG_TO_RAD P
    else fir.firing_azimuth
  let raw_distance : Nat := raw_block.data byte_idx + 256 * raw_block.data (byte_idx + 1)
  { fir with
    azimuth := arrSet fir.azimuth scan_fir_idx az
    distance := arrSet fir.distance scan_fir_idx ((raw_distance : F) * P.DISTANCE_RESOLUTION)
    intensity := arrSet fir.intensity scan_fir_idx ((raw_block.data (byte_idx + 2) : Nat) : F) }

/-- The loop over the channels of one firing of a block, for the layout `L`. -/
def decodeFiringWith (L : Layout) (P : Params F) (raw_block : RawBlock) (blk_fir_idx : Nat)
    (fir : Firing F) : Firing F :=
  (List.range L.SCANS_PER_FIRING).foldl (decodeScanWith L P raw_block blk_fir_idx) fir

/-- The loop over the firings of one block, for the layout `L`. -/
def decodeBlockWith (L : Layout) (P : Params F) (packet : RawPacket)
    (firings : Nat → Firing F) (blk_idx : Nat) : Nat → Firing F :=
  (List.range L.FIRINGS_PER_BLOCK).foldl
    (fun fs blk_fir_idx =>
      arrSet fs (blk_idx * L.FIRINGS_PER_BLOCK + blk_fir_idx)
        (decodeFiringWith L P (packet.blocks blk_idx) blk_fir_idx
          (fs (blk_idx * L.FIRINGS_PER_BLOCK + blk_fir_idx))))
    firings

/-- The function `decodePacket` for the layout `L`; `decodePacket` is the case
`specLayout` (`decodePacket_eq_with`). -/
def decodePacketWith (L : Layout) (P : Params F) (packet : RawPacket)
    (firings : Nat → Firing F) : Nat → Firing F :=
  (List.range L.BLOCKS_PER_PACKET).foldl (decodeBlockWith L P packet)
    (decodeAzimuthsWith L P packet firings)

/-- The function `layerCallback`; `data` is the `int8` of the message. -/
def layerCallback (st : Decoder F) (data : Int) : Decoder F :=
  let num : Int := data
  let num : Int := if num < 0 then 0 else if num > 31 then 31 else num
  { st with layer_num := num }

/-- The lookup index into the azimuth tables:
`table_idx = floor(azimuth*1000.0+0.5); if(table_idx>6280) table_idx-=6280`. -/
def tableIdx (azimuth : F) : Nat :=
  let table_idx : Nat := Nat.floor (azimuth * 1000 + 1 / 2)
  if table_idx > 6280 then table_idx - 6280 else table_idx

/-- The point that the append loops build for channel `scan_idx` of a firing;
`k` is the firing count that multiplies `FIRING_TOFFSET` in the point's time. -/
def makePoint (P : Params F) (fir : Firing F) (packet_start_time : F) (k : Nat)
    (scan_idx : Nat) : LslidarC32Point F :=
  let table_idx := tableIdx (fir.azimuth scan_idx)
  let cos_azimuth := P.cos_azimuth_table table_idx
  let sin_azimuth := P.sin_azimuth_table table_idx
  let x := fir.distance scan_idx * P.cos_scan_altitude scan_idx * sin_azimuth
  let y := fir.distance scan_idx * P.cos_scan_altitude scan_idx * cos_azimuth
  let z := fir.distance scan_idx * P.sin_scan_altitude scan_idx
  let time := packet_start_time + P.FIRING_TOFFSET * (k : F) + P.DSR_TOFFSET * (scan_idx : F)
  { time := time, x := y, y := -x, z := z,
    azimuth := fir.azimuth scan_idx,
    distance := fir.distance scan_idx,
    intensity := fir.intensity scan_idx }

/-- The statement `scans[remapped_scan_idx].points.push_back(point)`. -/
def pushPoint (sw : LslidarC32Sweep F) (remapped_scan_idx : Nat)
    (pt : LslidarC32Point F) : LslidarC32Sweep F :=
  let scan : LslidarC32Scan F :=
    { sw.scans remapped_scan_idx with
      points := (sw.scans remapped_scan_idx).points ++ [pt] }
  { sw with scans := arrSet sw.scans remapped_scan_idx scan }

/-- The body of the inner append loop for one channel: skip the sample when it is
out of range, otherwise push its point onto the remapped beam's scan. -/
def appendScan (P : Params F) (fir : Firing F) (packet_start_time : F) (k : Nat)
    (sw : LslidarC32Sweep F) (scan_idx : Nat) : LslidarC32Sweep F :=
  if isPointInRange P (fir.distance scan_idx) = false then sw
  else pushPoint sw (remap scan_idx) (makePoint P fir packet_start_time k scan_idx)

/-- The inner append loop over the channels of one firing. -/
def appendFiring (P : Params F) (fir : Firing F) (packet_start_time : F) (k : Nat)
    (sw : LslidarC32Sweep F) : LslidarC32Sweep F :=
  (List.range SCANS_PER_FIRING).foldl (appendScan P fir packet_start_time k) sw

/-- The append loop `for (fir_idx = start_fir_idx; fir_idx < end_fir_idx; ++fir_idx)`.
The source writes it twice: the first copy computes the time with
`FIRING_TOFFSET*fir_idx` (`sub = 0`), the second with
`FIRING_TOFFSET*(fir_idx-start_fir_idx)` (`sub = start_fir_idx`). -/
def appendFirings (P : Params F) (firings : Nat → Firing F) (packet_start_time : F)
    (sub start_fir_idx end_fir_idx : Nat) (sw : LslidarC32Sweep F) : LslidarC32Sweep F :=
  (List.range' start_fir_idx (end_fir_idx - start_fir_idx)).foldl
    (fun s fir_idx => appendFiring P (firings fir_idx) packet_start_time (fir_idx - sub) s)
    sw

/-- The do-while loop of `packetCallback` that looks for the start of a new
revolution, from the state `(new_sweep_start, last_azimuth)`; `fuel` bounds the
number of times the body runs.  The result is the final
`(new_sweep_start, last_azimuth)`. -/
def sweepScan (P : Params F) (firings : Nat → Firing F) : Nat → Nat → F → Nat × F
  | 0, new_sweep_start, last_azimuth => (new_sweep_start, last_azimuth)
  | fuel + 1, new_sweep_start, last_azimuth =>
    if |(firings new_sweep_start).firing_azimuth - last_azimuth| > P.M_PI then
      (new_sweep_start, last_azimuth)
    else if new_sweep_start + 1 < FIRINGS_PER_PACKET then
      sweepScan P firings fuel (new_sweep_start + 1) (firings new_sweep_start).firing_azimuth
    else (new_sweep_start + 1, (firings new_sweep_start).firing_azimuth)

/-- The new-sweep index that `packetCallback` finds in a valid packet: the value
of `new_sweep_start` when its do-while loop stops. -/
def newSweepStart (P : Params F) (st : Decoder F) (msg : LslidarC32Packet F) : Nat :=
  (sweepScan P (decodePacket P msg.data st.firings) FIRINGS_PER_PACKET 0 st.last_azimuth).1

/-! ## The specification's view of the appended points -/

/-- The points a firing gives to beam `beam`, in the words of the spec: the
in-range samples among the channels remapped to that beam, in channel order. -/
def firingPoints (P : Params F) (fir : Firing F) (packet_start_time : F) (k : Nat)
    (beam : Nat) : List (LslidarC32Point F) :=
  ((List.range SCANS_PER_FIRING).filter
      (fun c => decide (remap c = beam) && isPointInRange P (fir.distance c))).map
    (makePoint P fir packet_start_time k)

/-- The points the firings `[lo, hi)` give to beam `beam`, in firing order; the
time of a point of firing `f` counts `f - sub` firings. -/
def sweepPoints (P : Params F) (firings : Nat → Firing F) (packet_start_time : F)
    (sub lo hi : Nat) (beam : Nat) : List (LslidarC32Point F) :=
  (List.range' lo (hi - lo)).flatMap
    (fun f => firingPoints P (firings f) packet_start_time (f - sub) beam)

/-- The firing azimuths that `decodePacket` stores for a packet, in firing order
(see `decodePacket_firing_azimuth`). -/
def firingAzimuths (P : Params F) (packet : RawPacket) : List F :=
  (List.range FIRINGS_PER_PACKET).map
    (fun f => rawAzimuthToDouble P (packet.blocks f).rotation)

/-- The azimuth that the boundary test of `packetCallback` compares firing `j`
with: the entry value of `last_azimuth` for `j = 0`, the azimuth of firing
`j - 1` otherwise. -/
def prevAzimuth (firings : Nat → Firing F) (last_azimuth : F) (j : Nat) : F :=
  if j = 0 then last_azimuth else (firings (j - 1)).firing_azimuth

/-! ## The specification's view of the azimuths inside a sweep -/

/-- A point of the published cloud (`VPoint`). -/
structure VPoint (F : Type) where
  timestamp : F
  x : F
  y : F
  z : F
  intensity : F
  range : F
  h_angle : F
  v_angle : F
  laserid : Int

/-- The published cloud (`VPointCloud`): the header stamp in microseconds, the
frame, `height`, the counter `width` and the points. -/
structure VPointCloud (F : Type) where
  stamp : Nat
  frame_id : String
  height : Nat
  width : Nat
  points : List (VPoint F)

/-- The body of the inner loop of `publishPointCloud`: the cloud point made from
`scan.points[j]` of beam `i`, whose scan holds `size` points. -/
def cloudPoint (C : PublishParams F) (timestamp : F) (i size j : Nat)
    (p : LslidarC32Point F) : VPoint F :=
  { timestamp := timestamp - ((size - 1 - j : Nat) : F) * (5 / 100000),
    x := p.x, y := p.y, z := p.z, intensity := p.intensity, range := p.distance,
    h_angle := p.azimuth, v_angle := C.layer_altitude i, laserid := C.layer_id i }

/-- The inner loop of `publishPointCloud`,
`for (j = 1; j < scan.points.size()-1; ++j)`, run on a scan that is not empty:
each step pushes one point and increments `width`. -/
def cloudScan (C : PublishParams F) (timestamp : F) (i : Nat)
    (points : List (LslidarC32Point F)) (cloud : VPointCloud F) : VPointCloud F :=
  (List.range' 1 (points.length - 1 - 1)).foldl
    (fun cl j =>
      match points[j]? with
      | some p =>
        { cl with points := cl.points ++ [cloudPoint C timestamp i points.length j p],
                  width := cl.width + 1 }
      | none => cl)
    cloud

/-- The function `publishPointCloud`: the cloud handed to
`point_cloud_pub.publish`. -/
def publishPointCloud (C : PublishParams F) (st : Decoder F) : VPointCloud F :=
  (List.range 32).foldl
    (fun cl i =>
      let scan := st.sweep_data.scans i
      let timestamp := st.point_time
      let cl1 : VPointCloud F := { cl with stamp := Nat.floor (timestamp * 1000000) }
      if scan.points.length = 0 then cl1
      else cloudScan C timestamp i scan.points cl1)
    { stamp := 0, frame_id := C.child_frame_id, height := 1, width := 0, points := [] }

/-- The points of beam `i` in the cloud, in the words of the spec: the scan
without its first and its last point, in scan order; position `j` of the scan
keeps its index in the time stamp. -/
def beamCloud (C : PublishParams F) (timestamp : F) (i : Nat)
    (points : List (LslidarC32Point F)) : List (VPoint F) :=
  (((points.drop 1).dropLast).enumFrom 1).map
    (fun jp => cloudPoint C timestamp i points.length jp.1 jp.2)

/-- The published 2-D scan (`sensor_msgs::LaserScan`); `⊤` stands for the float
`+∞`. -/
structure LaserScan (F : Type) where
  stamp : F
  frame_id : String
  angle_min : F
  angle_max : F
  angle_increment : F
  range_min : F
  range_max : F
  ranges : List (WithTop F)
  intensities : List (WithTop F)

/-- The conversion of a `double` to `int`, which drops the fraction; the exact
integer is taken, also where it would not fit an `int`. -/
def truncToInt (x : F) : Int := if 0 ≤ x then Int.floor x else Int.ceil x

/-- The member `angle_base` set by `loadParameters`: `M_PI*2 / point_num`. -/
def angle_base (P : Params F) (C : PublishParams F) : F :=
  P.M_PI * 2 / (C.point_num : F)

/-- The clamped bin of a point in the binning loop:
`point_idx = azimuth / angle_base`, then 0 when `point_idx >= point_num`, then
`point_num - 1` when `point_idx < 0`. -/
def pointIdx (P : Params F) (C : PublishParams F) (p : LslidarC32Point F) : Int :=
  let point_idx : Int := truncToInt (p.azimuth / angle_base P C)
  let point_idx : Int := if point_idx ≥ C.point_num then 0 else point_idx
  if point_idx < 0 then C.point_num - 1 else point_idx

/-- The array index `point_num - 1 - point_idx` written for a point. -/
def scanSlot (P : Params F) (C : PublishParams F) (p : LslidarC32Point F) : Nat :=
  (C.point_num - 1 - pointIdx P C p).toNat

/-- The body of the binning loop for one point. -/
def binPoint (P : Params F) (C : PublishParams F) (scan : LaserScan F)
    (p : LslidarC32Point F) : LaserScan F :=
  { scan with
    ranges := scan.ranges.set (scanSlot P C p) (p.distance : WithTop F)
    intensities := scan.intensities.set (scanSlot P C p) (p.intensity : WithTop F) }

/-- The binning loop `for(uint16_t i = 0; i < points.size(); i++)` from the
counter value `i`; the counter is a 16-bit unsigned integer, so its increment
wraps at 65536.  `fuel` bounds the number of times the body runs; the result is
`none` when the loop has not ended by then. -/
def binLoop (P : Params F) (C : PublishParams F) (points : List (LslidarC32Point F)) :
    Nat → Nat → LaserScan F → Option (LaserScan F)
  | 0, _, _ => none
  | fuel + 1, i, scan =>
    if h : i < points.length then
      binLoop P C points fuel ((i + 1) % 65536) (binPoint P C scan points[i])
    else some scan

/-- The masking loop `for (int i = point_num - 1; i >= 0; i--)`, the same in
`publishScan` and `publishChannelScan`: the bins `i` with
`i >= angle_disable_min*point_num/360 && i < angle_disable_max*point_num/360`
are set to `+∞`. -/
def maskPass (C : PublishParams F) (ranges : List (WithTop F)) : List (WithTop F) :=
  ((List.range C.point_num.toNat).reverse).foldl
    (fun (r : List (WithTop F)) (i : Nat) =>
      if C.angle_disable_min * (C.point_num : F) / 360 ≤ ((i : Nat) : F) ∧
          ((i : Nat) : F) < C.angle_disable_max * (C.point_num : F) / 360 then
        r.set i ⊤
      else r)
    ranges

/-- The scan before the binning loop: header, angles, ranges, and `point_num`
entries `+∞` in `ranges` and `intensities`. -/
def emptyScan (P : Params F) (C : PublishParams F) (st : Decoder F) : LaserScan F :=
  { stamp := st.sweep_data.header.stamp,
    frame_id := C.child_frame_id,
    angle_min := 0,
    angle_max := 2 * P.M_PI,
    angle_increment := (2 * P.M_PI - 0) / (C.point_num : F),
    range_min := P.min_range,
    range_max := P.max_range,
    ranges := List.replicate C.point_num.toNat ⊤,
    intensities := List.replicate C.point_num.toNat ⊤ }

/-- The construction of the scan of one beam, written once in `publishScan` and
once in the loop body of `publishChannelScan`: fill, bin the beam's points, mask.
The result is `none` when the binning loop has not ended within `fuel` steps. -/
def buildScan (P : Params F) (C : PublishParams F) (st : Decoder F) (beam : Nat)
    (fuel : Nat) : Option (LaserScan F) :=
  (binLoop P C (st.sweep_data.scans beam).points fuel 0 (emptyScan P C st)).map
    (fun scan => { scan with ranges := maskPass C scan.ranges })

/-- The function `publishScan`, run on the decoder members at the time of the
call: the scans handed to `scan_pub.publish`, or `none` when the function has
not returned within `fuel` steps of its binning loop. -/
def publishScan (P : Params F) (C : PublishParams F) (st : Decoder F) (fuel : Nat) :
    Option (List (LaserScan F)) :=
  let layer_num_local : Int := st.layer_num
  if (st.sweep_data.scans layer_num_local.toNat).points.length ≤ 1 then some []
  else (buildScan P C st layer_num_local.toNat fuel).map (fun scan => [scan])

/-- The loop `for (uint16_t j=0; j<32; j++)` of `publishChannelScan` over the
beams `js`: the scans stored in `scan_channel` and the scans handed to
`scan_pub.publish` (the one of the selected beam). -/
def channelLoop (P : Params F) (C : PublishParams F) (st : Decoder F) (fuel : Nat) :
    List Nat → Option (List (LaserScan F) × List (LaserScan F))
  | [] => some ([], [])
  | j :: js =>
    match buildScan P C st j fuel with
    | none => none
    | some scan =>
      (channelLoop P C st fuel js).map
        (fun r => (scan :: r.1, if (j : Int) = st.layer_num then scan :: r.2 else r.2))

/-- The function `publishChannelScan`: the 32 scans of the published layer
message and the scans handed to `scan_pub.publish`, or `none` when a binning
loop has not ended within `fuel` steps. -/
def publishChannelScan (P : Params F) (C : PublishParams F) (st : Decoder F)
    (fuel : Nat) : Option (List (LaserScan F) × List (LaserScan F)) :=
  let layer_num_local : Int := st.layer_num
  if (st.sweep_data.scans layer_num_local.toNat).points.length ≤ 1 then some ([], [])
  else channelLoop P C st fuel (List.range 32)

/-- The last point of a scan, in insertion order, that the binning loop writes
to the array index `i`. -/
def lastHit (P : Params F) (C : PublishParams F) (points : List (LslidarC32Point F))
    (i : Nat) : Option (LslidarC32Point F) :=
  (points.filter (fun p => decide (scanSlot P C p = i))).getLast?

/-- Whether the masking loop resets the bin `i`. -/
def masked (C : PublishParams F) (i : Nat) : Bool :=
  decide (C.angle_disable_min * (C.point_num : F) / 360 ≤ ((i : Nat) : F)) &&
    decide (((i : Nat) : F) < C.angle_disable_max * (C.point_num : F) / 360)

/-! ## The packet callback -/

/-- What a call of `packetCallback` leaves behind: the decoder members, the sweeps
handed to `sweep_pub.publish` during the call, and whether the call returns.
When it does not return, `state` holds the members at the point where the call
is stuck.  The messages handed to the other publishers are those of
`publishCalls` at the members of the publication. -/
structure Outcome (F : Type) where
  state : Decoder F
  sweeps : List (LslidarC32Sweep F)
  returns : Bool

/-- The statements of `packetCallback` between `sweep_pub.publish(sweep_data)`
and the allocation of the next sweep,
`if (publish_point_cloud) publishPointCloud(); if (publish_channels)
publishChannelScan(); else publishScan();`, run on the decoder members at that
time: the clouds handed to `point_cloud_pub.publish` and the scans handed to
`scan_pub.publish`, or `none` when one of the calls does not return.
`publishPointCloud` counts with `size_t` and returns.  The binning loops of the
other two count with a 16-bit counter, so one that ends does so within 65536
runs of its body, the bound given here (`publishCallsReturn_iff`).  None of the
three functions writes a member of the decoder. -/
def publishCalls (P : Params F) (st : Decoder F) :
    Option (List (VPointCloud F) × List (LaserScan F)) :=
  let clouds : List (VPointCloud F) :=
    if P.publish.publish_point_cloud = true then [publishPointCloud P.publish st] else []
  if P.publish.publish_channels = true then
    (publishChannelScan P P.publish st 65536).map (fun r => (clouds, r.2))
  else (publishScan P P.publish st 65536).map (fun r => (clouds, r))

/-- Whether the calls that follow `sweep_pub.publish(sweep_data)` return. -/
def publishCallsReturn (P : Params F) (st : Decoder F) : Bool :=
  (publishCalls P st).isSome

/-- The function `packetCallback`: the decoder members it leaves, the sweeps
handed to `sweep_pub.publish` during the call, and whether it returns. -/
def packetCallback (P : Params F) (st : Decoder F) (msg : LslidarC32Packet F) :
    Outcome F :=
  if checkPacketValidity P msg.data = false then ⟨st, [], true⟩
  else
    let firings := decodePacket P msg.data st.firings
    let point_time := msg.stamp
    let found := sweepScan P firings FIRINGS_PER_PACKET 0 st.last_azimuth
    let new_sweep_start := found.1
    let last_azimuth := found.2
    if st.is_first_sweep = true ∧ new_sweep_start = FIRINGS_PER_PACKET then
      ⟨{ st with firings := firings, point_time := point_time,
                 last_azimuth := last_azimuth }, [], true⟩
    else
      let start_fir_idx : Nat := if st.is_first_sweep = true then new_sweep_start else 0
      let end_fir_idx : Nat :=
        if st.is_first_sweep = true then FIRINGS_PER_PACKET else new_sweep_start
      let sweep_start_time : F :=
        if st.is_first_sweep = true then
          msg.stamp + P.FIRING_TOFFSET * ((end_fir_idx - start_fir_idx : Nat) : F) * (1 / 1000000)
        else st.sweep_start_time
      let sweep_data :=
        appendFirings P firings st.packet_start_time 0 start_fir_idx end_fir_idx st.sweep_data
      let packet_start_time : F :=
        st.packet_start_time + P.FIRING_TOFFSET * ((end_fir_idx - start_fir_idx : Nat) : F)
      if end_fir_idx ≠ FIRINGS_PER_PACKET then
        let published : LslidarC32Sweep F :=
          { sweep_data with header := { frame_id := "sweep", stamp := sweep_start_time } }
        let at_publish : Decoder F :=
          { is_first_sweep := false,
            last_azimuth := last_azimuth,
            sweep_start_time := sweep_start_time,
            packet_start_time := packet_start_time,
            point_time := point_time,
            layer_num := st.layer_num,
            sweep_data := published,
            firings := firings }
        if publishCallsReturn P at_publish = false then ⟨at_publish, [published], false⟩
        else
          let sweep_start_time2 : F :=
            msg.stamp +
              P.FIRING_TOFFSET * ((end_fir_idx - start_fir_idx : Nat) : F) * (1 / 1000000)
          let start_fir_idx2 : Nat := end_fir_idx
          let end_fir_idx2 : Nat := FIRINGS_PER_PACKET
          let sweep_data2 :=
            appendFirings P firings 0 start_fir_idx2 start_fir_idx2 end_fir_idx2
              LslidarC32Sweep.fresh
          let packet_start_time2 : F :=
            0 + P.FIRING_TOFFSET * ((end_fir_idx2 - start_fir_idx2 : Nat) : F)
          ⟨{ is_first_sweep := false,
             last_azimuth := (firings (FIRINGS_PER_PACKET - 1)).firing_azimuth,
             sweep_start_time := sweep_start_time2,
             packet_start_time := packet_start_time2,
             point_time := point_time,
             layer_num := st.layer_num,
             sweep_data := sweep_data2,
             firings := firings }, [published], true⟩
      else
        ⟨{ is_first_sweep := false,
           last_azimuth := last_azimuth,
           sweep_start_time := sweep_start_time,
           packet_start_time := packet_start_time,
           point_time := point_time,
           layer_num := st.layer_num,
           sweep_data := sweep_data,
           firings := firings }, [], true⟩

/-- Feeding a sequence of messages to `packetCallback`, collecting the published
sweeps in order.  A call that does not return ends the run: no later message is
handled. -/
def run (P : Params F) : Decoder F → List (LslidarC32Packet F) → Outcome F
  | st, [] => ⟨st, [], true⟩
  | st, msg :: rest =>
    let r := packetCallback P st msg
    if r.returns = true then
      let r2 := run P r.state rest
      ⟨r2.state, r.sweeps ++ r2.sweeps, r2.returns⟩
    else r

/-- The decoder members at the time `packetCallback`, in steady state and with a
boundary in the packet, hands the completed sweep to the publishers: the
firings `[0, new_sweep_start)` are appended, the header is filled in, and
`last_azimuth` is where the boundary test left it. -/
def atPublish (P : Params F) (st : Decoder F) (msg : LslidarC32Packet F) : Decoder F :=
  let firings := decodePacket P msg.data st.firings
  let found := sweepScan P firings FIRINGS_PER_PACKET 0 st.last_azimuth
  { is_first_sweep := false,
    last_azimuth := found.2,
    sweep_start_time := st.sweep_start_time,
    packet_start_time :=
      st.packet_start_time + P.FIRING_TOFFSET * ((found.1 - 0 : Nat) : F),
    point_time := msg.stamp,
    layer_num := st.layer_num,
    sweep_data :=
      { appendFirings P firings st.packet_start_time 0 0 found.1 st.sweep_data with
        header := { frame_id := "sweep", stamp := st.sweep_start_time } },
    firings := firings }

/-! ## The reads of `decodePacket` -/

/-- The block indices at which the first loop of `decodePacket` reads a
`rotation`: `packet->blocks[fir_idx]` for `fir_idx < FIRINGS_PER_PACKET`. -/
def rotationReads (L : Layout) : List Nat := List.range L.FIRINGS_PER_PACKET

/-- The block index and the data byte offsets read by the second loop of
`decodePacket`: for every `blk_idx`, `blk_fir_idx` and `scan_fir_idx` of the
three nested loops, the bytes `byte_idx`, `byte_idx+1` and `byte_idx+2` of
`packet->blocks[blk_idx].data`. -/
def dataReads (L : Layout) : List (Nat × Nat) :=
  (List.range L.BLOCKS_PER_PACKET).flatMap (fun blk_idx =>
    (List.range L.FIRINGS_PER_BLOCK).flatMap (fun blk_fir_idx =>
      (List.range L.SCANS_PER_FIRING).flatMap (fun scan_fir_idx =>
        let byte_idx := L.RAW_SCAN_SIZE * (L.SCANS_PER_FIRING * blk_fir_idx + scan_fir_idx)
        [(blk_idx, byte_idx), (blk_idx, byte_idx + 1), (blk_idx, byte_idx + 2)])))

end Code

end LslidarC32

/-! ## Concrete inputs used to evaluate the definitions -/

namespace LslidarC32

/-- Publication parameters with 4 bins and the angle mask
`angle_disable_min = -1`, `angle_disable_max = 180`; the point cloud and the scan
of the selected beam are published, the per-channel scans are not. -/
def maskParams : PublishParams ℚ :=
  { point_num := 4, angle_disable_min := -1, angle_disable_max := 180,
    child_frame_id := "lslidar", layer_altitude := fun _ => 0,
    layer_id := fun i => (i : Int), publish_point_cloud := true,
    publish_channels := false }

/-- Parameters over the rationals: `UPPER_BANK = 0xeeff`, a rational stand-in for
`M_PI`, ranges `[1/2, 100]`, constant tables, and the publication parameters
`maskParams`. -/
def demoParams : Params ℚ :=
  { UPPER_BANK := 61183, DISTANCE_RESOLUTION := 1 / 100, FIRING_TOFFSET := 16,
    DSR_TOFFSET := 1, M_PI := 355 / 113, min_range := 1 / 2, max_range := 100,
    scan_altitude := fun _ => 0, cos_scan_altitude := fun _ => 1,
    sin_scan_altitude := fun _ => 0, cos_azimuth_table := fun _ => 1,
    sin_azimuth_table := fun _ => 0, publish := maskParams }

/-- The bytes of a well-formed message: twelve blocks of 100 bytes, each with the
header bytes `ff ee` (`0xeeff` little-endian), the azimuth `rot k` of block `k`
in hundredths of a degree, low byte first, and 96 data bytes equal to 1; every
byte after the twelve blocks is 0. -/
def demoBytes (rot : Nat → Nat) (i : Nat) : Nat :=
  if i / 100 < 12 then
    if i % 100 = 0 then 255
    else if i % 100 = 1 then 238
    else if i % 100 = 2 then rot (i / 100) % 256
    else if i % 100 = 3 then rot (i / 100) / 256
    else 1
  else 0

/-- A valid packet: block `i` reports the azimuth `100 * i` (`i` degrees). -/
def demoPacket : RawPacket := RawPacket.ofBytes (demoBytes (fun k => 100 * k))

/-- The packet `demoPacket` with the header of block 3 set to `0x0000`. -/
def badPacket : RawPacket :=
  RawPacket.ofBytes
    (fun i => if i = 300 ∨ i = 301 then 0 else demoBytes (fun k => 100 * k) i)

/-- A firing with every field zero. -/
def zeroFiring : Firing ℚ :=
  { firing_azimuth := 0, azimuth := fun _ => 0, distance := fun _ => 0,
    intensity := fun _ => 0 }

/-- A decoder right after start-up. -/
def demoDecoder : Decoder ℚ := Decoder.init demoParams 8 (fun _ => zeroFiring)

/-- A decoder in steady state whose last firing was seen at azimuth 4 rad. -/
def steadyDecoder : Decoder ℚ :=
  { demoDecoder with is_first_sweep := false, last_azimuth := 4 }

/-- The packet `demoPacket` received at time 0. -/
def demoMsg : LslidarC32Packet ℚ := { stamp := 0, data := demoPacket }

/-- A valid packet in which every block reports the azimuth 300.00°. -/
def wrapMsg : LslidarC32Packet ℚ :=
  { stamp := 0, data := RawPacket.ofBytes (demoBytes (fun _ => 30000)) }

/-- A valid packet whose blocks 0 and 1 report 10.00° and whose other blocks
report 300.00°. -/
def lateWrapMsg : LslidarC32Packet ℚ :=
  { stamp := 0,
    data := RawPacket.ofBytes (demoBytes (fun k => if k < 2 then 1000 else 30000)) }

/-- A point at azimuth `azimuth` and distance `distance`, every other field 0. -/
def demoPoint (azimuth distance : ℚ) : LslidarC32Point ℚ :=
  { time := 0, x := 0, y := 0, z := 0, azimuth := azimuth, distance := distance,
    intensity := 0 }

/-- Publication parameters with 4 bins and both mask bounds at their default
`-1`. -/
def noMaskParams : PublishParams ℚ :=
  { maskParams with angle_disable_max := -1 }

/-- A decoder at the time of a publication: the selected beam 8 holds a point at
5 rad with distance 5 and a point at 0 rad with distance 6; beam 0 holds three
points; the other beams are empty. -/
def scanDecoder : Decoder ℚ :=
  { steadyDecoder with
    sweep_data :=
      { header := { stamp := 0, frame_id := "sweep" },
        scans := fun i =>
          { altitude := 0,
            points :=
              if i = 8 then [demoPoint 5 5, demoPoint 0 6]
              else if i = 0 then [demoPoint 1 1, demoPoint 2 2, demoPoint 3 3]
              else [] } } }

/-- A decoder at the time of a publication whose beams hold 65536 points each. -/
def bigDecoder : Decoder ℚ :=
  { steadyDecoder with
    sweep_data :=
      { header := { stamp := 0, frame_id := "sweep" },
        scans := fun _ => { altitude := 0, points := List.replicate 65536 (demoPoint 1 5) } } }

/-- The packet `lateWrapMsg` received at time 7 s. -/
def stampedLateWrapMsg : LslidarC32Packet ℚ := { lateWrapMsg with stamp := 7 }

/-- A layout with one firing per block: 12 blocks, 12 firings, 32 channels of 3
bytes, which fill the 96 data bytes of a block. -/
def oneFiringLayout : Layout :=
  { BLOCKS_PER_PACKET := 12, FIRINGS_PER_BLOCK := 1, FIRINGS_PER_PACKET := 12,
    SCANS_PER_FIRING := 32, RAW_SCAN_SIZE := 3 }

/-- A decoder in steady state, last seen at 0 rad, whose in-flight sweep holds two
points on beam 8 and three on beam 0. -/
def busyDecoder : Decoder ℚ := { scanDecoder with last_azimuth := 0 }

/-- The bytes of `demoPacket` followed by other memory: byte 1293 is 5 and byte
2302 is 80 instead of 0. -/
def tailBytes (i : Nat) : Nat :=
  if i = 2302 then 80 else if i = 1293 then 5 else demoBytes (fun k => 100 * k) i

/-- The packet read from `tailBytes`. -/
def tailPacket : RawPacket := RawPacket.ofBytes tailBytes

end LslidarC32

/-! ## Theorems -/

namespace LslidarC32

section Plain

variable {F : Type}

/-! ### Packet validity -/

theorem checkBlocks_eq_true_iff (P : Params F) (packet : RawPacket) (n : Nat) :
    ∀ blk_idx, checkBlocks P packet blk_idx n = true ↔
      ∀ j, blk_idx ≤ j → j < blk_idx + n → (packet.blocks j).header = P.UPPER_BANK := by
  induction n with
  | zero =>
    intro blk_idx
    simp only [checkBlocks, true_iff]
    intro j h1 h2
    omega
  | succ n ih =>
    intro blk_idx
    by_cases h : (packet.blocks blk_idx).header = P.UPPER_BANK
    · simp only [checkBlocks, ne_eq, h, not_true_eq_false, if_false, ih]
      constructor
      · intro hk j h1 h2
        by_cases hj : j = blk_idx
        · rw [hj]; exact h
        · exact hk j (by omega) (by omega)
      · intro hk j h1 h2
        exact hk j (by omega) (by omega)
    · simp only [checkBlocks, ne_eq, h, not_false_eq_true, if_true, Bool.false_eq_true,
        false_iff]
      intro hk
      exact h (hk blk_idx (le_refl _) (by omega))

theorem checkPacketValidity_eq_true_iff (P : Params F) (packet : RawPacket) :
    checkPacketValidity P packet = true ↔
      ∀ blk_idx, blk_idx < BLOCKS_PER_PACKET →
        (packet.blocks blk_idx).header = P.UPPER_BANK := by
  unfold checkPacketValidity
  rw [checkBlocks_eq_true_iff]
  constructor
  · intro h j hj
    exact h j (Nat.zero_le _) (by omega)
  · intro h j _ hj
    exact h j (by omega)

/-- C1: `checkPacketValidity` returns true exactly when each of the
`BLOCKS_PER_PACKET` block headers equals `UPPER_BANK`, and one differing header
at any block position makes it return false. -/
theorem checkPacketValidity_all_or_nothing (P : Params F) (packet : RawPacket) :
    (checkPacketValidity P packet = true ↔
      ∀ blk_idx, blk_idx < BLOCKS_PER_PACKET →
        (packet.blocks blk_idx).header = P.UPPER_BANK) ∧
    (∀ blk_idx, blk_idx < BLOCKS_PER_PACKET →
      (packet.blocks blk_idx).header ≠ P.UPPER_BANK →
        checkPacketValidity P packet = false) := by
  refine ⟨checkPacketValidity_eq_true_iff P packet, ?_⟩
  intro blk_idx hlt hne
  cases hv : checkPacketValidity P packet with
  | false => rfl
  | true => exact absurd ((checkPacketValidity_eq_true_iff P packet).1 hv blk_idx hlt) hne

/-- C1 at concrete packets: the packet with twelve good headers is accepted, and
the same packet with the header of block 3 zeroed is rejected. -/
theorem checkPacketValidity_all_or_nothing_witness :
    BLOCKS_PER_PACKET = 12 ∧
    checkPacketValidity demoParams demoPacket = true ∧
    (badPacket.blocks 3).header ≠ demoParams.UPPER_BANK ∧
    checkPacketValidity demoParams badPacket = false :=
  ⟨rfl,
   (checkPacketValidity_all_or_nothing demoParams demoPacket).1.2 (by decide),
   by decide,
   (checkPacketValidity_all_or_nothing demoParams badPacket).2 3 (by decide) (by decide)⟩

/-! ### Beam remap -/

theorem remap_inj (c d : Nat) (hc : c < 32) (hd : d < 32) (h : remap c = remap d) :
    c = d := by
  unfold remap at h
  split_ifs at h <;> omega

theorem remap_lt (c : Nat) (hc : c < 32) : remap c < 32 := by
  unfold remap
  split_ifs <;> omega

/-- C7: the beam remap is a bijection of `[0,31]` onto itself: its values stay
in range, it is injective on the channels, every beam is the image of a
channel, and `remapInv` is a two-sided inverse on `[0,31]`. -/
theorem remap_bijective_on_channels :
    (∀ c, c < 32 → remap c < 32) ∧
    (∀ c d, c < 32 → d < 32 → remap c = remap d → c = d) ∧
    (∀ i, i < 32 → ∃ c, c < 32 ∧ remap c = i) ∧
    (∀ i, i < 32 → remapInv i < 32 ∧ remap (remapInv i) = i) ∧
    (∀ c, c < 32 → remapInv (remap c) = c) := by
  have hinv : ∀ i, i < 32 → remapInv i < 32 ∧ remap (remapInv i) = i := by
    intro i hi
    unfold remap remapInv
    split_ifs <;> omega
  refine ⟨?_, ?_, ?_, hinv, ?_⟩
  · intro c hc
    unfold remap
    split_ifs <;> omega
  · intro c d hc hd h
    unfold remap at h
    split_ifs at h <;> omega
  · intro i hi
    exact ⟨remapInv i, (hinv i hi).1, (hinv i hi).2⟩
  · intro c hc
    unfold remap remapInv
    split_ifs <;> omega

/-- C7 at concrete channels: channel 5 goes to beam 18, which is in range and
comes back to channel 5. -/
theorem remap_bijective_on_channels_witness :
    remap 5 = 18 ∧ remap 5 < 32 ∧ remapInv 18 = 5 ∧ remap (remapInv 18) = 18 :=
  ⟨by decide, remap_bijective_on_channels.1 5 (by decide), by decide,
   (remap_bijective_on_channels.2.2.2.1 18 (by decide)).2⟩

/-! ### Beam selection -/

/-- C10: after `layerCallback` with value `v` the selected beam is
`max 0 (min 31 v)`: `v` itself when `0 ≤ v ≤ 31`, `0` when `v < 0`, `31` when
`v > 31`; it lies in `[0,31]` and no other member of the decoder changes. -/
theorem layerCallback_clamps (st : Decoder F) (v : Int) :
    (layerCallback st v).layer_num = max 0 (min 31 v) ∧
    (0 ≤ v → v ≤ 31 → (layerCallback st v).layer_num = v) ∧
    (v < 0 → (layerCallback st v).layer_num = 0) ∧
    (31 < v → (layerCallback st v).layer_num = 31) ∧
    0 ≤ (layerCallback st v).layer_num ∧ (layerCallback st v).layer_num ≤ 31 ∧
    layerCallback st v = { st with layer_num := (layerCallback st v).layer_num } := by
  have h : (layerCallback st v).layer_num =
      if v < 0 then 0 else if v > 31 then 31 else v := rfl
  refine ⟨?_, ?_, ?_, ?_, ?_, ?_, rfl⟩
  · rw [h]; split_ifs <;> omega
  · intro h0 h1; rw [h]; split_ifs
    all_goals omega
  · intro h0; rw [h]; split_ifs
    all_goals omega
  · intro h1; rw [h]; split_ifs <;> omega
  · rw [h]; split_ifs <;> omega
  · rw [h]; split_ifs <;> omega

/-- C10 at the spec's scenario: `-5` selects beam 0, `42` selects beam 31, and
`7` selects beam 7. -/
theorem layerCallback_clamps_witness :
    (layerCallback demoDecoder (-5)).layer_num = 0 ∧
    (layerCallback demoDecoder 42).layer_num = 31 ∧
    (layerCallback demoDecoder 7).layer_num = 7 :=
  ⟨(layerCallback_clamps demoDecoder (-5)).2.2.1 (by decide),
   (layerCallback_clamps demoDecoder 42).2.2.2.1 (by decide),
   (layerCallback_clamps demoDecoder 7).2.1 (by decide) (by decide)⟩

/-! ### Arrays, lists and chains -/

theorem arrSet_same {α : Type} (a : Nat → α) (i : Nat) (v : α) : arrSet a i v i = v := by
  simp [arrSet]

theorem arrSet_other {α : Type} (a : Nat → α) (i j : Nat) (v : α) (h : j ≠ i) :
    arrSet a i v j = a j := by
  simp [arrSet, h]

theorem filter_eq_single (r : Nat → Bool) (c n : Nat) :
    (List.range n).filter (fun d => decide (d = c) && r d) =
      if c < n ∧ r c = true then [c] else [] := by
  induction n with
  | zero => simp
  | succ n ih =>
    rw [List.range_succ, List.filter_append, ih]
    by_cases hn : n = c
    · subst hn
      by_cases hr : r n = true
      · simp [hr]
      · simp [hr]
    · have h1 : (c < n + 1) = (c < n) := by
        apply propext
        constructor <;> intro h <;> omega
      simp [hn, h1]

theorem chain_append_left {α : Type} (R : α → α → Prop) (l l2 : List α) :
    ∀ a, List.Chain R a (l ++ l2) → List.Chain R a l := by
  induction l with
  | nil => intro a _; exact List.Chain.nil
  | cons x l ih =>
    intro a h
    rw [List.cons_append, List.chain_cons] at h
    exact List.Chain.cons h.1 (ih x h.2)

theorem chain_append_right {α : Type} (R : α → α → Prop) (l l2 : List α) (b : α) :
    ∀ a, List.Chain R a (l ++ [b] ++ l2) → List.Chain R b l2 := by
  induction l with
  | nil =>
    intro a h
    simp only [List.nil_append, List.singleton_append, List.chain_cons] at h
    exact h.2
  | cons x l ih =>
    intro a h
    rw [List.cons_append, List.cons_append, List.chain_cons] at h
    exact ih x h.2

theorem pushPoint_points (sw : LslidarC32Sweep F) (r : Nat) (pt : LslidarC32Point F)
    (b : Nat) :
    ((pushPoint sw r pt).scans b).points =
      (sw.scans b).points ++ (if b = r then [pt] else []) := by
  unfold pushPoint
  by_cases h : b = r
  · subst h
    simp [arrSet_same]
  · simp [arrSet_other _ _ _ _ h, h]

theorem fillAltitude_points (P : Params F) (sw : LslidarC32Sweep F) (n b : Nat) :
    ((fillAltitude P sw n).scans b).points = (sw.scans b).points := by
  unfold fillAltitude
  induction n with
  | zero => rfl
  | succ n ih =>
    rw [List.range_succ, List.foldl_append]
    simp only [List.foldl_cons, List.foldl_nil]
    by_cases h : b = remap n
    · subst h
      rw [arrSet_same]
      exact ih
    · rw [arrSet_other _ _ _ _ h]
      exact ih

theorem filterMap_index_eq_enum {α β : Type} (g : Nat → α → β) (l : List α) (m : Nat) :
    ∀ a, (m = 0 ∨ a + m ≤ l.length) →
      (List.range' a m).filterMap (fun j => (l[j]?).map (g j)) =
        (((l.drop a).take m).enumFrom a).map (fun jp => g jp.1 jp.2) := by
  induction m with
  | zero => intro a _; simp
  | succ m ih =>
    intro a h
    have ha : a < l.length := by omega
    rw [List.range'_succ, List.filterMap_cons, List.getElem?_eq_getElem ha,
      List.drop_eq_getElem_cons ha]
    simp only [Option.map_some', List.take_succ_cons, List.enumFrom_cons, List.map_cons]
    rw [ih (a + 1) (Or.inr (by omega))]

theorem foldl_set_getElem? {α β : Type} (slot : β → Nat) (val : β → α) (pts : List β) :
    ∀ (r : List α) (i : Nat),
      (pts.foldl (fun r p => r.set (slot p) (val p)) r)[i]? =
        match (pts.filter (fun p => decide (slot p = i))).getLast? with
        | some p => if i < r.length then some (val p) else none
        | none => r[i]? := by
  induction pts with
  | nil => intro r i; simp
  | cons p ps ih =>
    intro r i
    rw [List.foldl_cons, ih, List.length_set, List.filter_cons]
    by_cases hp : slot p = i
    · subst hp
      simp only [decide_True, if_true, List.getLast?_cons, List.getElem?_set]
      cases h : (ps.filter (fun q => decide (slot q = slot p))).getLast? with
      | none => simp
      | some q => simp
    · simp only [hp, decide_False, Bool.false_eq_true, if_false, List.getElem?_set]

theorem foldl_set_length {α β : Type} (slot : β → Nat) (val : β → α) (pts : List β) :
    ∀ r : List α, (pts.foldl (fun r p => r.set (slot p) (val p)) r).length = r.length := by
  induction pts with
  | nil => intro r; rfl
  | cons p ps ih =>
    intro r
    rw [List.foldl_cons, ih, List.length_set]

theorem foldl_mask_getElem? {α : Type} (c : Nat → Prop) [DecidablePred c] (top : α)
    (js : List Nat) :
    ∀ (r : List α) (k : Nat),
      (js.foldl (fun r i => if c i then r.set i top else r) r)[k]? =
        if k ∈ js ∧ c k then (r[k]?).map (fun _ => top) else r[k]? := by
  induction js with
  | nil => intro r k; simp
  | cons j js ih =>
    intro r k
    rw [List.foldl_cons, ih]
    by_cases hc : c j
    · simp only [hc, if_true, List.getElem?_set, List.mem_cons]
      by_cases hjk : j = k
      · subst hjk
        by_cases hlen : j < r.length
        · simp [hc, hlen, List.getElem?_eq_getElem hlen]
        · have hnone : r[j]? = none := List.getElem?_eq_none (by omega)
          simp [hc, hlen, hnone]
      · have hkj : ¬ k = j := fun e => hjk e.symm
        simp [hjk, hkj]
    · simp only [hc, if_false, List.mem_cons]
      by_cases hjk : k = j
      · subst hjk
        simp [hc]
      · simp [hjk]

theorem foldl_mask_length {α : Type} (c : Nat → Prop) [DecidablePred c] (top : α)
    (js : List Nat) :
    ∀ r : List α, (js.foldl (fun r i => if c i then r.set i top else r) r).length =
      r.length := by
  induction js with
  | nil => intro r; rfl
  | cons j js ih =>
    intro r
    rw [List.foldl_cons, ih]
    split_ifs
    · exact List.length_set _ _ _
    · rfl

theorem isSome_map {α β : Type} (f : α → β) (o : Option α) :
    (o.map f).isSome = o.isSome := by
  cases o with
  | none => rfl
  | some a => rfl

theorem foldl_firing_azimuth {β : Type}
    (g : (Nat → Firing F) → β → (Nat → Firing F))
    (h : ∀ fs x i, (g fs x i).firing_azimuth = (fs i).firing_azimuth) (l : List β) :
    ∀ (fs : Nat → Firing F) (i : Nat),
      (l.foldl g fs i).firing_azimuth = (fs i).firing_azimuth := by
  induction l with
  | nil => intro fs i; rfl
  | cons x l ih =>
    intro fs i
    rw [List.foldl_cons, ih, h]

theorem foldl_congr_mem {α β : Type} (f g : α → β → α) (l : List β)
    (h : ∀ a x, x ∈ l → f a x = g a x) : ∀ a, l.foldl f a = l.foldl g a := by
  induction l with
  | nil => intro a; rfl
  | cons x l ih =>
    intro a
    rw [List.foldl_cons, List.foldl_cons, h a x (List.mem_cons_self _ _)]
    exact ih (fun a y hy => h a y (List.mem_cons_of_mem _ hy)) _

end Plain

section Field

variable {F : Type} [LinearOrderedField F]

/-! ### Packet decoding -/

/-- The azimuth loop run over the first `n` firings. -/
theorem decodeAzimuths_fold (P : Params F) (packet : RawPacket) (firings : Nat → Firing F)
    (n i : Nat) :
    ((List.range n).foldl
      (fun fs fir_idx =>
        let fir : Firing F :=
          { fs fir_idx with
            firing_azimuth := rawAzimuthToDouble P (packet.blocks fir_idx).rotation }
        arrSet fs fir_idx fir)
      firings) i =
    if i < n then
      { firings i with firing_azimuth := rawAzimuthToDouble P (packet.blocks i).rotation }
    else firings i := by
  induction n with
  | zero => simp
  | succ n ih =>
    rw [List.range_succ, List.foldl_append]
    simp only [List.foldl_cons, List.foldl_nil]
    by_cases h : i = n
    · subst h
      rw [arrSet_same, ih]
      simp
    · rw [arrSet_other _ _ _ _ h, ih]
      by_cases h2 : i < n
      · simp [h2, Nat.lt_succ_of_lt h2]
      · have h3 : ¬ i < n + 1 := by omega
        simp [h2, h3]

theorem decodeScan_firing_azimuth (P : Params F) (b : RawBlock) (k : Nat) (fir : Firing F)
    (c : Nat) : (decodeScan P b k fir c).firing_azimuth = fir.firing_azimuth := rfl

theorem decodeFiring_fold_firing_azimuth (P : Params F) (b : RawBlock) (k : Nat)
    (fir : Firing F) (n : Nat) :
    ((List.range n).foldl (decodeScan P b k) fir).firing_azimuth = fir.firing_azimuth := by
  induction n with
  | zero => rfl
  | succ n ih =>
    rw [List.range_succ, List.foldl_append]
    simp only [List.foldl_cons, List.foldl_nil]
    rw [decodeScan_firing_azimuth, ih]

theorem decodeFiring_fold_samples (P : Params F) (b : RawBlock) (k : Nat)
    (fir : Firing F) (n c : Nat) (hc : c < n) :
    ((List.range n).foldl (decodeScan P b k) fir).azimuth c =
      (if c % 2 = 0 then fir.firing_azimuth + 4 * DEG_TO_RAD P else fir.firing_azimuth) ∧
    ((List.range n).foldl (decodeScan P b k) fir).distance c =
      ((b.data (RAW_SCAN_SIZE * (SCANS_PER_FIRING * k + c)) +
        256 * b.data (RAW_SCAN_SIZE * (SCANS_PER_FIRING * k + c) + 1) : Nat) : F) *
        P.DISTANCE_RESOLUTION ∧
    ((List.range n).foldl (decodeScan P b k) fir).intensity c =
      ((b.data (RAW_SCAN_SIZE * (SCANS_PER_FIRING * k + c) + 2) : Nat) : F) := by
  induction n with
  | zero => omega
  | succ n ih =>
    rw [List.range_succ, List.foldl_append]
    simp only [List.foldl_cons, List.foldl_nil]
    by_cases h : c = n
    · subst h
      refine ⟨?_, ?_, ?_⟩ <;>
        simp only [decodeScan, arrSet_same, decodeFiring_fold_firing_azimuth]
    · have hlt : c < n := by omega
      simp only [decodeScan, arrSet_other _ _ _ _ h]
      exact ih hlt

theorem decodeBlock_apply (P : Params F) (packet : RawPacket) (firings : Nat → Firing F)
    (blk_idx i : Nat) :
    decodeBlock P packet firings blk_idx i =
      if i / FIRINGS_PER_BLOCK = blk_idx then
        decodeFiring P (packet.blocks blk_idx) (i % FIRINGS_PER_BLOCK) (firings i)
      else firings i := by
  unfold decodeBlock FIRINGS_PER_BLOCK
  simp only [List.range_succ, List.range_zero, List.nil_append, List.cons_append,
    List.foldl_cons, List.foldl_nil]
  by_cases h1 : i = blk_idx * 2 + 1
  · subst h1
    have e1 : (blk_idx * 2 + 1) / 2 = blk_idx := by omega
    have e2 : (blk_idx * 2 + 1) % 2 = 1 := by omega
    have e3 : blk_idx * 2 + 1 ≠ blk_idx * 2 + 0 := by omega
    rw [arrSet_same, arrSet_other _ _ _ _ e3, e1, e2]
    simp
  · rw [arrSet_other _ _ _ _ h1]
    by_cases h0 : i = blk_idx * 2 + 0
    · subst h0
      have e1 : (blk_idx * 2 + 0) / 2 = blk_idx := by omega
      have e2 : (blk_idx * 2 + 0) % 2 = 0 := by omega
      rw [arrSet_same, e1, e2]
      simp
    · have e1 : i / 2 ≠ blk_idx := by omega
      rw [arrSet_other _ _ _ _ h0]
      simp [e1]

theorem decodeBlocks_fold (P : Params F) (packet : RawPacket) (firings : Nat → Firing F)
    (n i : Nat) :
    ((List.range n).foldl (decodeBlock P packet) firings) i =
      if i / FIRINGS_PER_BLOCK < n then
        decodeFiring P (packet.blocks (i / FIRINGS_PER_BLOCK)) (i % FIRINGS_PER_BLOCK)
          (firings i)
      else firings i := by
  induction n with
  | zero => simp
  | succ n ih =>
    rw [List.range_succ, List.foldl_append]
    simp only [List.foldl_cons, List.foldl_nil]
    rw [decodeBlock_apply, ih]
    by_cases h : i / FIRINGS_PER_BLOCK = n
    · have h2 : ¬ i / FIRINGS_PER_BLOCK < n := by omega
      have h3 : i / FIRINGS_PER_BLOCK < n + 1 := by omega
      simp only [h, if_true, h3]
      simp
    · by_cases h2 : i / FIRINGS_PER_BLOCK < n
      · have h3 : i / FIRINGS_PER_BLOCK < n + 1 := by omega
        simp [h, h2, h3]
      · have h3 : ¬ i / FIRINGS_PER_BLOCK < n + 1 := by omega
        simp [h, h2, h3]

/-- What `decodePacket` leaves in `firings[f]` for a firing index of the packet. -/
theorem decodePacket_apply (P : Params F) (packet : RawPacket) (firings : Nat → Firing F)
    (f : Nat) (hf : f < FIRINGS_PER_PACKET) :
    decodePacket P packet firings f =
      decodeFiring P (packet.blocks (f / FIRINGS_PER_BLOCK)) (f % FIRINGS_PER_BLOCK)
        { firings f with
          firing_azimuth := rawAzimuthToDouble P (packet.blocks f).rotation } := by
  unfold decodePacket decodeAzimuths
  rw [decodeBlocks_fold, decodeAzimuths_fold]
  have h1 : f / FIRINGS_PER_BLOCK < BLOCKS_PER_PACKET := by
    unfold FIRINGS_PER_PACKET FIRINGS_PER_BLOCK BLOCKS_PER_PACKET at *
    omega
  simp [h1, hf]

theorem decodePacket_firing_azimuth (P : Params F) (packet : RawPacket)
    (firings : Nat → Firing F) (f : Nat) (hf : f < FIRINGS_PER_PACKET) :
    (decodePacket P packet firings f).firing_azimuth =
      rawAzimuthToDouble P (packet.blocks f).rotation := by
  rw [decodePacket_apply P packet firings f hf]
  unfold decodeFiring
  rw [decodeFiring_fold_firing_azimuth]

theorem decodePacket_beyond (P : Params F) (packet : RawPacket)
    (firings : Nat → Firing F) (f : Nat) (hf : FIRINGS_PER_PACKET ≤ f) :
    decodePacket P packet firings f = firings f := by
  unfold decodePacket decodeAzimuths
  rw [decodeBlocks_fold, decodeAzimuths_fold]
  have h1 : ¬ f / FIRINGS_PER_BLOCK < BLOCKS_PER_PACKET := by
    unfold FIRINGS_PER_PACKET FIRINGS_PER_BLOCK BLOCKS_PER_PACKET at *
    omega
  have h2 : ¬ f < FIRINGS_PER_PACKET := by omega
  simp [h1, h2]

/-! ### Packet decoding for any layout -/

theorem decodePacket_eq_with (P : Params F) (packet : RawPacket) (firings : Nat → Firing F) :
    decodePacket P packet firings = decodePacketWith specLayout P packet firings := rfl

theorem decodeFiringWith_firing_azimuth (L : Layout) (P : Params F) (b : RawBlock) (k : Nat)
    (fir : Firing F) : (decodeFiringWith L P b k fir).firing_azimuth = fir.firing_azimuth := by
  unfold decodeFiringWith
  generalize List.range L.SCANS_PER_FIRING = l
  induction l generalizing fir with
  | nil => rfl
  | cons c l ih =>
    rw [List.foldl_cons, ih]
    rfl

theorem decodeBlockWith_firing_azimuth (L : Layout) (P : Params F) (packet : RawPacket)
    (firings : Nat → Firing F) (blk_idx i : Nat) :
    (decodeBlockWith L P packet firings blk_idx i).firing_azimuth =
      (firings i).firing_azimuth := by
  unfold decodeBlockWith
  apply foldl_firing_azimuth
  intro fs k j
  by_cases hj : j = blk_idx * L.FIRINGS_PER_BLOCK + k
  · rw [hj, arrSet_same, decodeFiringWith_firing_azimuth]
  · rw [arrSet_other _ _ _ _ hj]

/-- The azimuth that `decodePacket` leaves in `firings[f]`, whatever the layout
constants: the one read at block index `f` for a firing index of the packet,
the entry value for any other index. -/
theorem decodePacketWith_firing_azimuth (L : Layout) (P : Params F) (packet : RawPacket)
    (firings : Nat → Firing F) (f : Nat) :
    (decodePacketWith L P packet firings f).firing_azimuth =
      if f < L.FIRINGS_PER_PACKET then rawAzimuthToDouble P (packet.blocks f).rotation
      else (firings f).firing_azimuth := by
  unfold decodePacketWith
  rw [foldl_firing_azimuth (decodeBlockWith L P packet)
    (fun fs x i => decodeBlockWith_firing_azimuth L P packet fs x i)]
  unfold decodeAzimuthsWith
  rw [decodeAzimuths_fold]
  by_cases h : f < L.FIRINGS_PER_PACKET
  · rw [if_pos h, if_pos h]
  · rw [if_neg h, if_neg h]

/-! ### The reads of `decodePacket` -/

theorem mem_dataReads (L : Layout) (r : Nat × Nat) :
    r ∈ dataReads L ↔ ∃ blk_idx, blk_idx < L.BLOCKS_PER_PACKET ∧
      ∃ blk_fir_idx, blk_fir_idx < L.FIRINGS_PER_BLOCK ∧
      ∃ scan_fir_idx, scan_fir_idx < L.SCANS_PER_FIRING ∧
        (r = (blk_idx,
            L.RAW_SCAN_SIZE * (L.SCANS_PER_FIRING * blk_fir_idx + scan_fir_idx)) ∨
         r = (blk_idx,
            L.RAW_SCAN_SIZE * (L.SCANS_PER_FIRING * blk_fir_idx + scan_fir_idx) + 1) ∨
         r = (blk_idx,
            L.RAW_SCAN_SIZE * (L.SCANS_PER_FIRING * blk_fir_idx + scan_fir_idx) + 2)) := by
  unfold dataReads
  simp only [List.mem_flatMap, List.mem_range, List.mem_cons, List.mem_singleton,
    List.not_mem_nil, or_false]

theorem decodeScanWith_congr (L : Layout) (P : Params F) (b1 b2 : RawBlock) (k : Nat)
    (fir : Firing F) (c : Nat)
    (h0 : b1.data (L.RAW_SCAN_SIZE * (L.SCANS_PER_FIRING * k + c)) =
      b2.data (L.RAW_SCAN_SIZE * (L.SCANS_PER_FIRING * k + c)))
    (h1 : b1.data (L.RAW_SCAN_SIZE * (L.SCANS_PER_FIRING * k + c) + 1) =
      b2.data (L.RAW_SCAN_SIZE * (L.SCANS_PER_FIRING * k + c) + 1))
    (h2 : b1.data (L.RAW_SCAN_SIZE * (L.SCANS_PER_FIRING * k + c) + 2) =
      b2.data (L.RAW_SCAN_SIZE * (L.SCANS_PER_FIRING * k + c) + 2)) :
    decodeScanWith L P b1 k fir c = decodeScanWith L P b2 k fir c := by
  unfold decodeScanWith
  simp only []
  rw [h0, h1, h2]

/-- The result of `decodePacket` depends on the packet only through the reads
listed in `rotationReads` and `dataReads`. -/
theorem decodePacketWith_reads (L : Layout) (P : Params F) (p1 p2 : RawPacket)
    (firings : Nat → Firing F)
    (hrot : ∀ b, b ∈ rotationReads L → (p1.blocks b).rotation = (p2.blocks b).rotation)
    (hdata : ∀ r, r ∈ dataReads L → (p1.blocks r.1).data r.2 = (p2.blocks r.1).data r.2) :
    decodePacketWith L P p1 firings = decodePacketWith L P p2 firings := by
  have haz : decodeAzimuthsWith L P p1 firings = decodeAzimuthsWith L P p2 firings := by
    unfold decodeAzimuthsWith
    apply foldl_congr_mem
    intro fs x hx
    simp only []
    rw [hrot x hx]
  unfold decodePacketWith
  rw [haz]
  apply foldl_congr_mem
  intro fs blk hblk
  unfold decodeBlockWith
  apply foldl_congr_mem
  intro gs k hk
  have hfir : ∀ x, decodeFiringWith L P (p1.blocks blk) k x =
      decodeFiringWith L P (p2.blocks blk) k x := by
    intro x
    unfold decodeFiringWith
    apply foldl_congr_mem
    intro fir c hc
    rw [List.mem_range] at hblk hk hc
    exact decodeScanWith_congr L P (p1.blocks blk) (p2.blocks blk) k fir c
      (hdata (blk, L.RAW_SCAN_SIZE * (L.SCANS_PER_FIRING * k + c))
        ((mem_dataReads L _).2 ⟨blk, hblk, k, hk, c, hc, Or.inl rfl⟩))
      (hdata (blk, L.RAW_SCAN_SIZE * (L.SCANS_PER_FIRING * k + c) + 1)
        ((mem_dataReads L _).2 ⟨blk, hblk, k, hk, c, hc, Or.inr (Or.inl rfl)⟩))
      (hdata (blk, L.RAW_SCAN_SIZE * (L.SCANS_PER_FIRING * k + c) + 2)
        ((mem_dataReads L _).2 ⟨blk, hblk, k, hk, c, hc, Or.inr (Or.inr rfl)⟩))
  rw [hfir]

/-- C8 as stated fails: with the spec's `FIRINGS_PER_BLOCK = 2`, in the valid
packet `demoPacket` block 0 reports 0.00° and block 1 reports 1.00°.  Firing 1
belongs to block `1 div 2 = 0`, yet `decodePacket` gives it the azimuth read at
block 1, which is not the azimuth of block 0. -/
theorem firing_azimuth_is_not_from_block_f_div_2 :
    checkPacketValidity demoParams demoPacket = true ∧
    FIRINGS_PER_BLOCK = 2 ∧
    1 < FIRINGS_PER_PACKET ∧
    (decodePacket demoParams demoPacket (fun _ => zeroFiring) 1).firing_azimuth =
      rawAzimuthToDouble demoParams (demoPacket.blocks 1).rotation ∧
    (decodePacket demoParams demoPacket (fun _ => zeroFiring) 1).firing_azimuth ≠
      ((demoPacket.blocks (1 / 2)).rotation : ℚ) / 100 * (demoParams.M_PI / 180) := by
  refine ⟨by decide, rfl, by decide, ?_, ?_⟩
  · exact decodePacket_firing_azimuth _ _ _ 1 (by decide)
  · rw [decodePacket_firing_azimuth _ _ _ 1 (by decide),
      show (demoPacket.blocks 1).rotation = 100 from by decide,
      show (demoPacket.blocks (1 / 2)).rotation = 0 from by decide]
    norm_num [rawAzimuthToDouble, DEG_TO_RAD, demoParams]

/-- C8, amended: whatever the layout constants of the missing header, after
`decodePacket` every firing index `f` below `FIRINGS_PER_PACKET` has
`firing_azimuth[f]` equal to the raw 16-bit azimuth of the block with index `f`,
the firing index itself, divided by 100 and multiplied by `π/180`.  That block
is block `f div FIRINGS_PER_BLOCK` when there is one firing per block, and is
another block for every `f > 0` when there are more.  `decodePacket` with the
spec's constants is one case. -/
theorem firing_azimuth_is_read_at_the_firing_index (L : Layout) (P : Params F)
    (packet : RawPacket) (firings : Nat → Firing F) (f : Nat)
    (hf : f < L.FIRINGS_PER_PACKET) :
    (decodePacketWith L P packet firings f).firing_azimuth =
      ((packet.blocks f).rotation : F) / 100 * (P.M_PI / 180) ∧
    (L.FIRINGS_PER_BLOCK = 1 → f / L.FIRINGS_PER_BLOCK = f) ∧
    (1 < L.FIRINGS_PER_BLOCK → 0 < f → f / L.FIRINGS_PER_BLOCK ≠ f) ∧
    decodePacket P packet firings = decodePacketWith specLayout P packet firings := by
  refine ⟨?_, ?_, ?_, rfl⟩
  · rw [decodePacketWith_firing_azimuth, if_pos hf]
    rfl
  · intro h1
    rw [h1, Nat.div_one]
  · intro h1 h0
    exact Nat.ne_of_lt (Nat.div_lt_self h0 h1)

/-- C8, amended, at a concrete input: with the spec's constants, firing 1 of
`demoPacket` gets the azimuth read at block 1, 1.00°. -/
theorem firing_azimuth_is_read_at_the_firing_index_witness :
    1 < specLayout.FIRINGS_PER_PACKET ∧
    (decodePacketWith specLayout demoParams demoPacket (fun _ => zeroFiring)
      1).firing_azimuth = 100 / 100 * (demoParams.M_PI / 180) := by
  have h := (firing_azimuth_is_read_at_the_firing_index specLayout demoParams demoPacket
    (fun _ => zeroFiring) 1 (by decide)).1
  rw [show (demoPacket.blocks 1).rotation = 100 from by decide] at h
  exact ⟨by decide, by rw [h]; norm_num⟩

theorem decodePacket_samples_aux (P : Params F) (packet : RawPacket)
    (firings : Nat → Firing F) (f c : Nat) (hf : f < FIRINGS_PER_PACKET)
    (hc : c < SCANS_PER_FIRING) :
    (decodePacket P packet firings f).distance c =
      (((packet.blocks (f / FIRINGS_PER_BLOCK)).data
          (RAW_SCAN_SIZE * (SCANS_PER_FIRING * (f % FIRINGS_PER_BLOCK) + c)) +
        256 * (packet.blocks (f / FIRINGS_PER_BLOCK)).data
          (RAW_SCAN_SIZE * (SCANS_PER_FIRING * (f % FIRINGS_PER_BLOCK) + c) + 1) : Nat) : F) *
        P.DISTANCE_RESOLUTION ∧
    (decodePacket P packet firings f).intensity c =
      (((packet.blocks (f / FIRINGS_PER_BLOCK)).data
          (RAW_SCAN_SIZE * (SCANS_PER_FIRING * (f % FIRINGS_PER_BLOCK) + c) + 2) : Nat) : F) := by
  rw [decodePacket_apply P packet firings f hf]
  have h := decodeFiring_fold_samples P (packet.blocks (f / FIRINGS_PER_BLOCK))
    (f % FIRINGS_PER_BLOCK)
    { firings f with firing_azimuth := rawAzimuthToDouble P (packet.blocks f).rotation }
    SCANS_PER_FIRING c hc
  exact ⟨h.2.1, h.2.2⟩

/-- C9: after `decodePacket`, for every firing `f` of the packet and every channel
`c`, the distance is the little-endian count `b0 + 256·b1` times
`DISTANCE_RESOLUTION` and the intensity is `b2`, the bytes being read from block
`f / FIRINGS_PER_BLOCK` at offset `3·(32·(f % FIRINGS_PER_BLOCK) + c)`; firings
past `FIRINGS_PER_PACKET` are not written. -/
theorem decodePacket_samples (P : Params F) (packet : RawPacket)
    (firings : Nat → Firing F) (f c : Nat) (hf : f < FIRINGS_PER_PACKET)
    (hc : c < 32) :
    (decodePacket P packet firings f).distance c =
      (((packet.blocks (f / FIRINGS_PER_BLOCK)).data (3 * (32 * (f % FIRINGS_PER_BLOCK) + c)) +
        256 * (packet.blocks (f / FIRINGS_PER_BLOCK)).data
          (3 * (32 * (f % FIRINGS_PER_BLOCK) + c) + 1) : Nat) : F) *
        P.DISTANCE_RESOLUTION ∧
    (decodePacket P packet firings f).intensity c =
      (((packet.blocks (f / FIRINGS_PER_BLOCK)).data
          (3 * (32 * (f % FIRINGS_PER_BLOCK) + c) + 2) : Nat) : F) ∧
    (∀ g, FIRINGS_PER_PACKET ≤ g → decodePacket P packet firings g = firings g) := by
  have h := decodePacket_samples_aux P packet firings f c hf hc
  exact ⟨h.1, h.2, fun g hg => decodePacket_beyond P packet firings g hg⟩

/-- C9 at a concrete input: firing 3 is the second firing of block 1 of
`demoPacket`; its channel 5 is read at offset 111 from the data area of block 1,
where the three bytes are 1, so the distance is `(1 + 256·1)/100` and the
intensity is 1. -/
theorem decodePacket_samples_witness :
    3 < FIRINGS_PER_PACKET ∧ 5 < 32 ∧
    (decodePacket demoParams demoPacket (fun _ => zeroFiring) 3).distance 5 = 257 / 100 ∧
    (decodePacket demoParams demoPacket (fun _ => zeroFiring) 3).intensity 5 = 1 := by
  have h := decodePacket_samples demoParams demoPacket (fun _ => zeroFiring) 3 5
    (by decide) (by decide)
  refine ⟨by decide, by decide, ?_, ?_⟩
  · rw [h.1,
      show (demoPacket.blocks (3 / FIRINGS_PER_BLOCK)).data
        (3 * (32 * (3 % FIRINGS_PER_BLOCK) + 5)) = 1 from by decide,
      show (demoPacket.blocks (3 / FIRINGS_PER_BLOCK)).data
        (3 * (32 * (3 % FIRINGS_PER_BLOCK) + 5) + 1) = 1 from by decide]
    norm_num [demoParams]
  · rw [h.2.1,
      show (demoPacket.blocks (3 / FIRINGS_PER_BLOCK)).data
        (3 * (32 * (3 % FIRINGS_PER_BLOCK) + 5) + 2) = 1 from by decide]
    norm_num

/-! ### The search for the start of a new revolution -/

theorem sweepScan_fst_le (P : Params F) (firings : Nat → Firing F) (fuel : Nat) :
    ∀ (idx : Nat) (last : F), idx < FIRINGS_PER_PACKET →
      (sweepScan P firings fuel idx last).1 ≤ FIRINGS_PER_PACKET := by
  induction fuel with
  | zero =>
    intro idx last h
    simp only [sweepScan]
    omega
  | succ fuel ih =>
    intro idx last h
    simp only [sweepScan]
    split_ifs with h1 h2
    · exact Nat.le_of_lt h
    · exact ih _ _ h2
    · exact h

theorem sweepScan_break (P : Params F) (firings : Nat → Firing F) (fuel idx : Nat)
    (last : F) (h : |(firings idx).firing_azimuth - last| > P.M_PI) :
    sweepScan P firings (fuel + 1) idx last = (idx, last) := by
  simp only [sweepScan, h, if_true]

/-- When no firing from `idx` on jumps by more than `M_PI`, the loop runs to the
end of the packet and leaves the azimuth of the last firing in `last_azimuth`. -/
theorem sweepScan_no_boundary (P : Params F) (firings : Nat → Firing F) (n : Nat) :
    ∀ (fuel idx : Nat) (last : F), n + 1 ≤ fuel → idx + (n + 1) = FIRINGS_PER_PACKET →
      List.Chain (fun a b => |b - a| ≤ P.M_PI) last
        ((List.range' idx (n + 1)).map (fun f => (firings f).firing_azimuth)) →
      sweepScan P firings fuel idx last =
        (FIRINGS_PER_PACKET, (firings (FIRINGS_PER_PACKET - 1)).firing_azimuth) := by
  induction n with
  | zero =>
    intro fuel idx last hfuel hidx hchain
    obtain ⟨fuel, rfl⟩ : ∃ k, fuel = k + 1 := ⟨fuel - 1, by omega⟩
    simp only [List.range'_succ, List.range'_zero, List.map_cons, List.map_nil,
      List.chain_cons] at hchain
    have h1 : ¬ |(firings idx).firing_azimuth - last| > P.M_PI := not_lt.2 hchain.1
    have h2 : ¬ idx + 1 < FIRINGS_PER_PACKET := by omega
    have h3 : FIRINGS_PER_PACKET - 1 = idx := by omega
    simp only [sweepScan, h1, h2, if_false, h3]
    rw [← hidx]
  | succ n ih =>
    intro fuel idx last hfuel hidx hchain
    obtain ⟨fuel, rfl⟩ : ∃ k, fuel = k + 1 := ⟨fuel - 1, by omega⟩
    rw [List.range'_succ, List.map_cons, List.chain_cons] at hchain
    have h1 : ¬ |(firings idx).firing_azimuth - last| > P.M_PI := not_lt.2 hchain.1
    have h2 : idx + 1 < FIRINGS_PER_PACKET := by omega
    simp only [sweepScan, h1, h2, if_false, if_true]
    exact ih fuel (idx + 1) _ (by omega) (by omega) hchain.2

theorem firingAzimuths_eq_decoded (P : Params F) (packet : RawPacket)
    (firings : Nat → Firing F) :
    (List.range' 0 (23 + 1)).map (fun f => (decodePacket P packet firings f).firing_azimuth) =
      firingAzimuths P packet := by
  unfold firingAzimuths
  rw [List.range_eq_range']
  apply List.map_congr_left
  intro f hf
  rw [List.mem_range'] at hf
  obtain ⟨i, hi, rfl⟩ := hf
  exact decodePacket_firing_azimuth P packet firings _ (by
    unfold FIRINGS_PER_PACKET FIRINGS_PER_BLOCK BLOCKS_PER_PACKET; omega)

theorem firingAzimuths_split (P : Params F) (packet : RawPacket) :
    firingAzimuths P packet =
      (List.range 23).map (fun f => rawAzimuthToDouble P (packet.blocks f).rotation) ++
        [rawAzimuthToDouble P (packet.blocks 23).rotation] := by
  unfold firingAzimuths
  rw [show FIRINGS_PER_PACKET = 23 + 1 from rfl, List.range_succ, List.map_append]
  rfl

theorem fresh_in_range (P : Params F) :
    ∀ b p, p ∈ ((LslidarC32Sweep.fresh : LslidarC32Sweep F).scans b).points →
      P.min_range ≤ p.distance ∧ p.distance ≤ P.max_range := by
  intro b p hp
  simp [LslidarC32Sweep.fresh] at hp

theorem newSweepStart_le (P : Params F) (st : Decoder F) (msg : LslidarC32Packet F) :
    newSweepStart P st msg ≤ FIRINGS_PER_PACKET :=
  sweepScan_fst_le P _ _ 0 _ (by decide)

/-- A packet without a jump: the loop ends at `FIRINGS_PER_PACKET` with the last
firing's azimuth in `last_azimuth`. -/
theorem sweepScan_of_chain (P : Params F) (st : Decoder F) (msg : LslidarC32Packet F)
    (h : List.Chain (fun a b => |b - a| ≤ P.M_PI) st.last_azimuth
      (firingAzimuths P msg.data)) :
    sweepScan P (decodePacket P msg.data st.firings) FIRINGS_PER_PACKET 0 st.last_azimuth =
      (FIRINGS_PER_PACKET, rawAzimuthToDouble P (msg.data.blocks 23).rotation) := by
  rw [← firingAzimuths_eq_decoded P msg.data st.firings] at h
  rw [sweepScan_no_boundary P _ 23 FIRINGS_PER_PACKET 0 st.last_azimuth (by decide)
    (by decide) h]
  rw [decodePacket_firing_azimuth P _ _ _ (by decide)]
  rfl

theorem init_points (P : Params F) (layer_num : Int) (firings : Nat → Firing F) (b : Nat) :
    ((Decoder.init P layer_num firings).sweep_data.scans b).points = [] := by
  unfold Decoder.init
  simp only [fillAltitude_points]
  rfl

/-! ### The new-sweep index -/

theorem sweepScan_spec (P : Params F) (firings : Nat → Firing F) (fuel : Nat) :
    ∀ (idx : Nat) (last : F), idx < FIRINGS_PER_PACKET → FIRINGS_PER_PACKET - idx ≤ fuel →
      idx ≤ (sweepScan P firings fuel idx last).1 ∧
      (sweepScan P firings fuel idx last).1 ≤ FIRINGS_PER_PACKET ∧
      (∀ j, idx ≤ j → j < (sweepScan P firings fuel idx last).1 →
        |(firings j).firing_azimuth -
          (if j = idx then last else (firings (j - 1)).firing_azimuth)| ≤ P.M_PI) ∧
      ((sweepScan P firings fuel idx last).1 < FIRINGS_PER_PACKET →
        |(firings (sweepScan P firings fuel idx last).1).firing_azimuth -
          (if (sweepScan P firings fuel idx last).1 = idx then last
           else (firings ((sweepScan P firings fuel idx last).1 - 1)).firing_azimuth)| >
          P.M_PI) ∧
      (sweepScan P firings fuel idx last).2 =
        (if (sweepScan P firings fuel idx last).1 = idx then last
         else (firings ((sweepScan P firings fuel idx last).1 - 1)).firing_azimuth) := by
  induction fuel with
  | zero =>
    intro idx last h1 h2
    omega
  | succ fuel ih =>
    intro idx last h1 h2
    by_cases hj : |(firings idx).firing_azimuth - last| > P.M_PI
    · rw [sweepScan_break P firings fuel idx last hj]
      refine ⟨le_refl _, Nat.le_of_lt h1, ?_, ?_, ?_⟩
      · intro j h3 h4
        exact absurd h4 (by simpa using h3)
      · intro _
        simpa using hj
      · simp
    · by_cases hn : idx + 1 < FIRINGS_PER_PACKET
      · have e : sweepScan P firings (fuel + 1) idx last =
            sweepScan P firings fuel (idx + 1) (firings idx).firing_azimuth := by
          simp only [sweepScan, hj, hn, if_false, if_true]
        rw [e]
        obtain ⟨a1, a2, a3, a4, a5⟩ := ih (idx + 1) (firings idx).firing_azimuth hn (by omega)
        have hne : (sweepScan P firings fuel (idx + 1) (firings idx).firing_azimuth).1 ≠ idx := by
          omega
        refine ⟨by omega, a2, ?_, ?_, ?_⟩
        · intro j h3 h4
          by_cases hji : j = idx
          · subst hji
            simp only [if_true]
            exact not_lt.1 hj
          · have h5 := a3 j (by omega) h4
            by_cases hj1 : j = idx + 1
            · subst hj1
              simpa using h5
            · simpa [hji, hj1] using h5
        · intro h3
          have h5 := a4 h3
          by_cases hs1 : (sweepScan P firings fuel (idx + 1) (firings idx).firing_azimuth).1
              = idx + 1
          · rw [hs1] at h5 ⊢
            simpa using h5
          · simpa [hne, hs1] using h5
        · rw [a5]
          by_cases hs1 : (sweepScan P firings fuel (idx + 1) (firings idx).firing_azimuth).1
              = idx + 1
          · rw [hs1]
            simp
          · simp [hne, hs1]
      · have e : sweepScan P firings (fuel + 1) idx last =
            (idx + 1, (firings idx).firing_azimuth) := by
          simp only [sweepScan, hj, hn, if_false]
        rw [e]
        refine ⟨by simp, by simpa using h1, ?_, ?_, ?_⟩
        · intro j h3 h4
          have hji : j = idx := by
            have h5 : j < idx + 1 := h4
            omega
          subst hji
          simp only [if_true]
          exact not_lt.1 hj
        · intro h3
          exact absurd h3 hn
        · simp

/-- C17: for the firings decoded from a packet and the entry value `L` of
`last_azimuth`, the new-sweep index `s` found by `packetCallback` is at most
`FIRINGS_PER_PACKET`, no firing before `s` differs from its predecessor
(`L` for firing 0) by more than `M_PI`, firing `s` does when
`s < FIRINGS_PER_PACKET`, and the loop stops with `last_azimuth` equal to the
azimuth of firing `s - 1`, or still `L` when `s = 0`. -/
theorem newSweepStart_is_first_jump (P : Params F) (st : Decoder F)
    (msg : LslidarC32Packet F) :
    newSweepStart P st msg ≤ FIRINGS_PER_PACKET ∧
    (∀ j, j < newSweepStart P st msg →
      |(decodePacket P msg.data st.firings j).firing_azimuth -
        prevAzimuth (decodePacket P msg.data st.firings) st.last_azimuth j| ≤ P.M_PI) ∧
    (newSweepStart P st msg < FIRINGS_PER_PACKET →
      |(decodePacket P msg.data st.firings (newSweepStart P st msg)).firing_azimuth -
        prevAzimuth (decodePacket P msg.data st.firings) st.last_azimuth
          (newSweepStart P st msg)| > P.M_PI) ∧
    (sweepScan P (decodePacket P msg.data st.firings) FIRINGS_PER_PACKET 0
        st.last_azimuth).2 =
      prevAzimuth (decodePacket P msg.data st.firings) st.last_azimuth
        (newSweepStart P st msg) ∧
    (0 < newSweepStart P st msg →
      (sweepScan P (decodePacket P msg.data st.firings) FIRINGS_PER_PACKET 0
          st.last_azimuth).2 =
        (decodePacket P msg.data st.firings (newSweepStart P st msg - 1)).firing_azimuth) ∧
    (newSweepStart P st msg = 0 →
      (sweepScan P (decodePacket P msg.data st.firings) FIRINGS_PER_PACKET 0
          st.last_azimuth).2 = st.last_azimuth) := by
  obtain ⟨_, a2, a3, a4, a5⟩ := sweepScan_spec P (decodePacket P msg.data st.firings)
    FIRINGS_PER_PACKET 0 st.last_azimuth (by decide) (by simp)
  unfold newSweepStart prevAzimuth
  refine ⟨a2, ?_, a4, a5, ?_, ?_⟩
  · intro j hj
    exact a3 j (Nat.zero_le _) hj
  · intro h
    rw [a5, if_neg (by omega)]
  · intro h
    rw [a5, if_pos h]

theorem sweepScan_step (P : Params F) (firings : Nat → Firing F) (fuel idx : Nat) (last : F)
    (h : |(firings idx).firing_azimuth - last| ≤ P.M_PI)
    (hn : idx + 1 < FIRINGS_PER_PACKET) :
    sweepScan P firings (fuel + 1) idx last =
      sweepScan P firings fuel (idx + 1) (firings idx).firing_azimuth := by
  have hj : ¬ |(firings idx).firing_azimuth - last| > P.M_PI := not_lt.2 h
  simp only [sweepScan, hj, hn, if_false, if_true]

theorem rawAzimuth_bounds (P : Params F) (hpi0 : 0 ≤ P.M_PI) (hpi : P.M_PI ≤ 315 / 100)
    (r : Nat) (hr : r ≤ 65535) :
    0 ≤ rawAzimuthToDouble P r ∧ 0 ≤ DEG_TO_RAD P ∧
      (rawAzimuthToDouble P r + 4 * DEG_TO_RAD P) * 1000 + 1 / 2 < 12580 := by
  have hx0 : 0 ≤ DEG_TO_RAD P := by
    unfold DEG_TO_RAD
    positivity
  have hx1 : DEG_TO_RAD P ≤ 175 / 10000 := by
    unfold DEG_TO_RAD
    rw [div_le_iff₀ (by norm_num)]
    linarith
  have hr0 : (0 : F) ≤ (r : F) / 100 := by positivity
  have hr1 : (r : F) / 100 ≤ 65535 / 100 := by
    have : (r : F) ≤ 65535 := by exact_mod_cast hr
    linarith
  have hprod : (r : F) / 100 * DEG_TO_RAD P ≤ 65535 / 100 * (175 / 10000) :=
    mul_le_mul hr1 hx1 hx0 (by norm_num)
  refine ⟨?_, hx0, ?_⟩
  · unfold rawAzimuthToDouble
    exact mul_nonneg hr0 hx0
  · unfold rawAzimuthToDouble
    linarith

theorem cloudScan_fold (C : PublishParams F) (t : F) (i n : Nat)
    (points : List (LslidarC32Point F)) (js : List Nat) :
    ∀ cl : VPointCloud F,
      (js.foldl
        (fun cl j =>
          match points[j]? with
          | some p =>
            { cl with points := cl.points ++ [cloudPoint C t i n j p],
                      width := cl.width + 1 }
          | none => cl)
        cl) =
      { cl with
        points := cl.points ++ js.filterMap (fun j => (points[j]?).map (cloudPoint C t i n j)),
        width := cl.width +
          (js.filterMap (fun j => (points[j]?).map (cloudPoint C t i n j))).length } := by
  induction js with
  | nil => intro cl; simp
  | cons j js ih =>
    intro cl
    rw [List.foldl_cons, ih]
    cases h : points[j]? with
    | none => simp [h]
    | some p =>
      simp only [h, List.filterMap_cons, Option.map_some', List.append_assoc,
        List.singleton_append, List.length_cons]
      congr 1
      omega

theorem cloudScan_eq (C : PublishParams F) (t : F) (i : Nat)
    (points : List (LslidarC32Point F)) (cl : VPointCloud F) :
    cloudScan C t i points cl =
      { cl with points := cl.points ++ beamCloud C t i points,
                width := cl.width + (points.length - 2) } := by
  unfold cloudScan
  rw [cloudScan_fold]
  have hidx : (List.range' 1 (points.length - 1 - 1)).filterMap
      (fun j => (points[j]?).map (cloudPoint C t i points.length j)) =
      beamCloud C t i points := by
    unfold beamCloud
    rw [filterMap_index_eq_enum (cloudPoint C t i points.length) points
      (points.length - 1 - 1) 1 (by omega), List.dropLast_eq_take]
    simp only [List.length_drop]
  rw [hidx]
  have hlen : (beamCloud C t i points).length = points.length - 2 := by
    unfold beamCloud
    simp only [List.length_map, List.enumFrom_length, List.length_dropLast, List.length_drop]
    omega
  rw [hlen]

theorem maskPass_getElem? (C : PublishParams F) (r : List (WithTop F)) (i : Nat) :
    (maskPass C r)[i]? =
      if i < C.point_num.toNat ∧ masked C i = true then (r[i]?).map (fun _ => ⊤)
      else r[i]? := by
  unfold maskPass
  rw [foldl_mask_getElem?]
  simp only [List.mem_reverse, List.mem_range, masked, Bool.and_eq_true, decide_eq_true_eq]

theorem maskPass_length (C : PublishParams F) (r : List (WithTop F)) :
    (maskPass C r).length = r.length := by
  unfold maskPass
  exact foldl_mask_length _ _ _ _

theorem maskPass_of_max_neg (C : PublishParams F) (hmax : C.angle_disable_max < 0)
    (r : List (WithTop F)) : maskPass C r = r := by
  apply List.ext_getElem?
  intro i
  rw [maskPass_getElem?]
  have hno : ¬ (i < C.point_num.toNat ∧ masked C i = true) := by
    rintro ⟨hi, hm⟩
    simp only [masked, Bool.and_eq_true, decide_eq_true_eq] at hm
    have hpn : (0 : F) < (C.point_num : F) := by
      have : 0 < C.point_num := by omega
      exact_mod_cast this
    have hneg : C.angle_disable_max * (C.point_num : F) / 360 < 0 := by
      apply div_neg_of_neg_of_pos _ (by norm_num)
      exact mul_neg_of_neg_of_pos hmax hpn
    have hi0 : (0 : F) ≤ (i : F) := Nat.cast_nonneg i
    linarith [hm.2]
  rw [if_neg hno]

theorem sweepScan_zero_of_jump (P : Params F) (st : Decoder F) (msg : LslidarC32Packet F)
    (hj : |rawAzimuthToDouble P (msg.data.blocks 0).rotation - st.last_azimuth| > P.M_PI) :
    sweepScan P (decodePacket P msg.data st.firings) FIRINGS_PER_PACKET 0 st.last_azimuth =
      (0, st.last_azimuth) := by
  rw [← decodePacket_firing_azimuth P msg.data st.firings 0 (by decide)] at hj
  rw [show FIRINGS_PER_PACKET = 23 + 1 from rfl, sweepScan_break _ _ _ _ _ hj]

theorem tailBytes_agree (i : Nat) (hi : i < 1206) :
    tailBytes i = demoBytes (fun k => 100 * k) i := by
  unfold tailBytes
  rw [if_neg (by omega), if_neg (by omega)]

/-- C22 as stated fails: with the spec's layout constants the first loop of
`decodePacket` reads a rotation at block index 23 and the second loop reads the
data byte at offset 191 of block 11, past the 12 blocks and the 96 data bytes of
the layout.  The message `tailBytes` has the same 1206 bytes as `demoPacket` and
differs only in the memory behind them, yet firing 23 decodes to another azimuth
and, on channel 31, to another distance. -/
theorem decodePacket_reads_outside_the_packet :
    checkPacketValidity demoParams demoPacket = true ∧
    (specLayout.BLOCKS_PER_PACKET = 12 ∧ specLayout.FIRINGS_PER_BLOCK = 2 ∧
      specLayout.FIRINGS_PER_PACKET = 24 ∧ specLayout.SCANS_PER_FIRING = 32 ∧
      specLayout.RAW_SCAN_SIZE = 3) ∧
    (23 ∈ rotationReads specLayout ∧ ¬ 23 < 12) ∧
    ((11, 191) ∈ dataReads specLayout ∧ ¬ 191 < 96) ∧
    (∀ i, i < 1206 → tailBytes i = demoBytes (fun k => 100 * k) i) ∧
    (decodePacket demoParams tailPacket (fun _ => zeroFiring) 23).firing_azimuth ≠
      (decodePacket demoParams demoPacket (fun _ => zeroFiring) 23).firing_azimuth ∧
    (decodePacket demoParams tailPacket (fun _ => zeroFiring) 23).distance 31 ≠
      (decodePacket demoParams demoPacket (fun _ => zeroFiring) 23).distance 31 := by
  refine ⟨by decide, ⟨rfl, rfl, rfl, rfl, rfl⟩, ⟨by decide, by decide⟩, ⟨?_, by decide⟩,
    tailBytes_agree, ?_, ?_⟩
  · rw [mem_dataReads]
    exact ⟨11, by decide, 1, by decide, 31, by decide, Or.inr (Or.inr rfl)⟩
  · rw [decodePacket_firing_azimuth _ _ _ 23 (by decide),
      decodePacket_firing_azimuth _ _ _ 23 (by decide),
      show (tailPacket.blocks 23).rotation = 80 from by decide,
      show (demoPacket.blocks 23).rotation = 0 from by decide]
    norm_num [rawAzimuthToDouble, DEG_TO_RAD, demoParams]
  · rw [(decodePacket_samples_aux demoParams tailPacket _ 23 31 (by decide) (by decide)).1,
      (decodePacket_samples_aux demoParams demoPacket _ 23 31 (by decide) (by decide)).1,
      show (tailPacket.blocks (23 / FIRINGS_PER_BLOCK)).data
        (RAW_SCAN_SIZE * (SCANS_PER_FIRING * (23 % FIRINGS_PER_BLOCK) + 31)) = 5 from by decide,
      show (tailPacket.blocks (23 / FIRINGS_PER_BLOCK)).data
        (RAW_SCAN_SIZE * (SCANS_PER_FIRING * (23 % FIRINGS_PER_BLOCK) + 31) + 1) = 0
        from by decide,
      show (demoPacket.blocks (23 / FIRINGS_PER_BLOCK)).data
        (RAW_SCAN_SIZE * (SCANS_PER_FIRING * (23 % FIRINGS_PER_BLOCK) + 31)) = 0 from by decide,
      show (demoPacket.blocks (23 / FIRINGS_PER_BLOCK)).data
        (RAW_SCAN_SIZE * (SCANS_PER_FIRING * (23 % FIRINGS_PER_BLOCK) + 31) + 1) = 0
        from by decide]
    norm_num [demoParams]

/-- C22, amended: whatever the other layout constants, for a packet of 12 blocks,
32 channels per firing and 3-byte channel slots, `decodePacket` reads a rotation
at exactly the block indices below `FIRINGS_PER_PACKET`, and reads data at block
indices below 12 and byte offsets below `96·FIRINGS_PER_BLOCK`; its result
depends on the packet through these reads only.  The reads stay inside the
packet structure (every block index below 12, every data offset below 96)
exactly when `FIRINGS_PER_PACKET ≤ 12` and `FIRINGS_PER_BLOCK ≤ 1`: with one
firing per block, not with the spec's two firings per block and 24 firings per
packet. -/
theorem decodePacket_reads_stay_inside_iff (L : Layout) (hB : L.BLOCKS_PER_PACKET = 12)
    (hS : L.SCANS_PER_FIRING = 32) (hR : L.RAW_SCAN_SIZE = 3) :
    (∀ b, b ∈ rotationReads L ↔ b < L.FIRINGS_PER_PACKET) ∧
    (∀ r, r ∈ dataReads L → r.1 < 12 ∧ r.2 < 96 * L.FIRINGS_PER_BLOCK) ∧
    (((∀ b, b ∈ rotationReads L → b < 12) ∧
        (∀ r, r ∈ dataReads L → r.1 < 12 ∧ r.2 < 96)) ↔
      (L.FIRINGS_PER_PACKET ≤ 12 ∧ L.FIRINGS_PER_BLOCK ≤ 1)) ∧
    (∀ (P : Params F) (p1 p2 : RawPacket) (firings : Nat → Firing F),
      (∀ b, b ∈ rotationReads L → (p1.blocks b).rotation = (p2.blocks b).rotation) →
      (∀ r, r ∈ dataReads L → (p1.blocks r.1).data r.2 = (p2.blocks r.1).data r.2) →
      decodePacketWith L P p1 firings = decodePacketWith L P p2 firings) := by
  have hrot : ∀ b, b ∈ rotationReads L ↔ b < L.FIRINGS_PER_PACKET := by
    intro b
    unfold rotationReads
    exact List.mem_range
  have hdat : ∀ r, r ∈ dataReads L → r.1 < 12 ∧ r.2 < 96 * L.FIRINGS_PER_BLOCK := by
    intro r hr
    rw [mem_dataReads, hB, hS, hR] at hr
    obtain ⟨b, hb, k, hk, c, hc, h⟩ := hr
    have hk2 : 96 * (k + 1) ≤ 96 * L.FIRINGS_PER_BLOCK := Nat.mul_le_mul_left 96 hk
    rcases h with h | h | h
    all_goals subst h
    all_goals refine ⟨hb, ?_⟩
    all_goals dsimp only
    all_goals omega
  refine ⟨hrot, hdat, ⟨?_, ?_⟩, fun P p1 p2 firings => decodePacketWith_reads L P p1 p2 firings⟩
  · intro h
    obtain ⟨h1, h2⟩ := h
    constructor
    · by_contra hcon
      have := h1 12 ((hrot 12).2 (by omega))
      omega
    · by_contra hcon
      have hmem : ((0, 191) : Nat × Nat) ∈ dataReads L := by
        rw [mem_dataReads, hB, hS, hR]
        exact ⟨0, by decide, 1, by omega, 31, by decide, Or.inr (Or.inr rfl)⟩
      have := (h2 _ hmem).2
      omega
  · intro h
    obtain ⟨h1, h2⟩ := h
    constructor
    · intro b hb
      have := (hrot b).1 hb
      omega
    · intro r hr
      have := hdat r hr
      have h3 : 96 * L.FIRINGS_PER_BLOCK ≤ 96 * 1 := Nat.mul_le_mul_left 96 h2
      omega

/-- C22, amended, at a concrete layout: with one firing per block, 12 firings of
32 three-byte channels, every read of `decodePacket` is inside the 12 blocks and
the 96 data bytes of a block. -/
theorem decodePacket_reads_stay_inside_iff_witness :
    oneFiringLayout.BLOCKS_PER_PACKET = 12 ∧ oneFiringLayout.SCANS_PER_FIRING = 32 ∧
    oneFiringLayout.RAW_SCAN_SIZE = 3 ∧
    (∀ b, b ∈ rotationReads oneFiringLayout → b < 12) ∧
    (∀ r, r ∈ dataReads oneFiringLayout → r.1 < 12 ∧ r.2 < 96) :=
  ⟨rfl, rfl, rfl,
   ((decodePacket_reads_stay_inside_iff (F := ℚ) oneFiringLayout rfl rfl rfl).2.2.1.2
     ⟨by decide, by decide⟩).1,
   ((decodePacket_reads_stay_inside_iff (F := ℚ) oneFiringLayout rfl rfl rfl).2.2.1.2
     ⟨by decide, by decide⟩).2⟩

end Field

section Proofs

variable {F : Type} [LinearOrderedField F] [FloorRing F]

/-! ### Appending points -/

theorem appendScan_points (P : Params F) (fir : Firing F) (t : F) (k : Nat)
    (sw : LslidarC32Sweep F) (c b : Nat) :
    ((appendScan P fir t k sw c).scans b).points =
      (sw.scans b).points ++
        ((([c] : List Nat).filter
          (fun c => decide (remap c = b) && isPointInRange P (fir.distance c))).map
          (makePoint P fir t k)) := by
  unfold appendScan
  by_cases h : isPointInRange P (fir.distance c) = true
  · by_cases hb : remap c = b
    · subst hb
      simp [h, pushPoint_points]
    · have hb2 : ¬ b = remap c := fun e => hb e.symm
      simp [h, pushPoint_points, hb, hb2]
  · simp [h]

theorem appendFiring_fold_points (P : Params F) (fir : Firing F) (t : F) (k : Nat)
    (sw : LslidarC32Sweep F) (b n : Nat) :
    (((List.range n).foldl (appendScan P fir t k) sw).scans b).points =
      (sw.scans b).points ++
        (((List.range n).filter
          (fun c => decide (remap c = b) && isPointInRange P (fir.distance c))).map
          (makePoint P fir t k)) := by
  induction n with
  | zero => simp
  | succ n ih =>
    rw [List.range_succ, List.foldl_append]
    simp only [List.foldl_cons, List.foldl_nil]
    rw [appendScan_points, ih, List.filter_append, List.map_append, List.append_assoc]

theorem appendFiring_points (P : Params F) (fir : Firing F) (t : F) (k : Nat)
    (sw : LslidarC32Sweep F) (b : Nat) :
    ((appendFiring P fir t k sw).scans b).points =
      (sw.scans b).points ++ firingPoints P fir t k b :=
  appendFiring_fold_points P fir t k sw b SCANS_PER_FIRING

theorem appendFirings_fold_points (P : Params F) (firings : Nat → Firing F) (t : F)
    (sub lo : Nat) (sw : LslidarC32Sweep F) (b n : Nat) :
    (((List.range' lo n).foldl
        (fun s fir_idx => appendFiring P (firings fir_idx) t (fir_idx - sub) s) sw).scans
      b).points =
      (sw.scans b).points ++
        (List.range' lo n).flatMap (fun f => firingPoints P (firings f) t (f - sub) b) := by
  induction n with
  | zero => simp
  | succ n ih =>
    rw [List.range'_concat, List.foldl_append]
    simp only [List.foldl_cons, List.foldl_nil]
    rw [appendFiring_points, ih, List.flatMap_append, List.append_assoc]
    simp

theorem appendFirings_points (P : Params F) (firings : Nat → Firing F) (t : F)
    (sub lo hi : Nat) (sw : LslidarC32Sweep F) (b : Nat) :
    ((appendFirings P firings t sub lo hi sw).scans b).points =
      (sw.scans b).points ++ sweepPoints P firings t sub lo hi b :=
  appendFirings_fold_points P firings t sub lo sw b (hi - lo)

theorem makePoint_distance (P : Params F) (fir : Firing F) (t : F) (k c : Nat) :
    (makePoint P fir t k c).distance = fir.distance c := rfl

theorem firingPoints_in_range (P : Params F) (fir : Firing F) (t : F) (k b : Nat)
    (p : LslidarC32Point F) (hp : p ∈ firingPoints P fir t k b) :
    P.min_range ≤ p.distance ∧ p.distance ≤ P.max_range := by
  unfold firingPoints at hp
  rw [List.mem_map] at hp
  obtain ⟨c, hc, rfl⟩ := hp
  rw [List.mem_filter] at hc
  have h := hc.2
  simp only [Bool.and_eq_true, decide_eq_true_eq, isPointInRange] at h
  rw [makePoint_distance]
  exact h.2

theorem sweepPoints_in_range (P : Params F) (firings : Nat → Firing F) (t : F)
    (sub lo hi b : Nat) (p : LslidarC32Point F)
    (hp : p ∈ sweepPoints P firings t sub lo hi b) :
    P.min_range ≤ p.distance ∧ p.distance ≤ P.max_range := by
  unfold sweepPoints at hp
  rw [List.mem_flatMap] at hp
  obtain ⟨f, _, hf⟩ := hp
  exact firingPoints_in_range P _ t _ b p hf

/-- One firing gives the beam of channel `c` exactly the sample of channel `c`,
when it is in range. -/
theorem firingPoints_remap (P : Params F) (fir : Firing F) (t : F) (k c : Nat)
    (hc : c < 32) :
    firingPoints P fir t k (remap c) =
      if isPointInRange P (fir.distance c) = true then [makePoint P fir t k c] else [] := by
  unfold firingPoints
  have hcongr : (List.range SCANS_PER_FIRING).filter
      (fun d => decide (remap d = remap c) && isPointInRange P (fir.distance d)) =
      (List.range SCANS_PER_FIRING).filter
      (fun d => decide (d = c) && isPointInRange P (fir.distance d)) := by
    apply List.filter_congr
    intro d hd
    rw [List.mem_range] at hd
    have : decide (remap d = remap c) = decide (d = c) := by
      apply decide_eq_decide.2
      constructor
      · intro h; exact remap_inj d c hd hc h
      · intro h; rw [h]
    rw [this]
  rw [hcongr, filter_eq_single]
  have h32 : c < SCANS_PER_FIRING := hc
  by_cases hr : isPointInRange P (fir.distance c) = true
  · simp [hr, h32]
  · simp [hr]

/-- A beam index past the 32 beams receives no point. -/
theorem firingPoints_beyond (P : Params F) (fir : Firing F) (t : F) (k b : Nat)
    (hb : 32 ≤ b) : firingPoints P fir t k b = [] := by
  unfold firingPoints
  rw [List.map_eq_nil_iff, List.filter_eq_nil_iff]
  intro d hd
  rw [List.mem_range] at hd
  have := remap_lt d hd
  have hne : remap d ≠ b := by omega
  simp [hne]

/-! ### The number of points a packet adds to a beam -/

theorem remap_remapInv (b : Nat) (hb : b < 32) : remap (remapInv b) = b ∧ remapInv b < 32 := by
  unfold remap remapInv
  by_cases h : b < 16
  · rw [if_pos h, if_pos (by omega)]
    omega
  · rw [if_neg h, if_neg (by omega)]
    omega

theorem firingPoints_length_le (P : Params F) (fir : Firing F) (t : F) (k b : Nat) :
    (firingPoints P fir t k b).length ≤ 1 := by
  by_cases hb : b < 32
  · obtain ⟨h1, h2⟩ := remap_remapInv b hb
    rw [← h1, firingPoints_remap P fir t k _ h2]
    by_cases hr : isPointInRange P (fir.distance (remapInv b)) = true
    · rw [if_pos hr]; rfl
    · rw [if_neg hr]; exact Nat.zero_le _
  · rw [firingPoints_beyond P fir t k b (by omega)]
    exact Nat.zero_le _

theorem sweepPoints_length_le (P : Params F) (firings : Nat → Firing F) (t : F)
    (sub lo hi b : Nat) : (sweepPoints P firings t sub lo hi b).length ≤ hi - lo := by
  unfold sweepPoints
  have h : ∀ l : List Nat,
      (l.flatMap (fun f => firingPoints P (firings f) t (f - sub) b)).length ≤ l.length := by
    intro l
    induction l with
    | nil => exact Nat.le_refl _
    | cons f l ih =>
      rw [List.flatMap_cons, List.length_append, List.length_cons]
      have := firingPoints_length_le P (firings f) t (f - sub) b
      omega
  have h2 := h (List.range' lo (hi - lo))
  rw [List.length_range'] at h2
  exact h2

theorem appendFirings_length_le (P : Params F) (firings : Nat → Firing F) (t : F)
    (sub lo hi : Nat) (sw : LslidarC32Sweep F) (b : Nat) :
    ((appendFirings P firings t sub lo hi sw).scans b).points.length ≤
      (sw.scans b).points.length + (hi - lo) := by
  rw [appendFirings_points, List.length_append]
  have := sweepPoints_length_le P firings t sub lo hi b
  omega

/-- The sweep handed to the publishers holds, on each beam, at most
`new_sweep_start` points more than the sweep in flight. -/
theorem atPublish_length_le (P : Params F) (st : Decoder F) (msg : LslidarC32Packet F)
    (b : Nat) :
    (((atPublish P st msg).sweep_data.scans b).points).length ≤
      (st.sweep_data.scans b).points.length + newSweepStart P st msg := by
  have h := appendFirings_length_le P (decodePacket P msg.data st.firings)
    st.packet_start_time 0 0 (newSweepStart P st msg) st.sweep_data b
  exact h

/-! ### The cases of `packetCallback` -/

theorem packetCallback_invalid (P : Params F) (st : Decoder F) (msg : LslidarC32Packet F)
    (h : checkPacketValidity P msg.data = false) :
    packetCallback P st msg = { state := st, sweeps := [], returns := true } := by
  simp only [packetCallback, h, if_true]

theorem packetCallback_first_discard (P : Params F) (st : Decoder F)
    (msg : LslidarC32Packet F) (hv : checkPacketValidity P msg.data = true)
    (hf : st.is_first_sweep = true) (hs : newSweepStart P st msg = FIRINGS_PER_PACKET) :
    packetCallback P st msg =
      { state :=
          { st with
            firings := decodePacket P msg.data st.firings,
            point_time := msg.stamp,
            last_azimuth :=
              (sweepScan P (decodePacket P msg.data st.firings) FIRINGS_PER_PACKET 0
                st.last_azimuth).2 },
        sweeps := [], returns := true } := by
  unfold newSweepStart at hs
  simp only [packetCallback, hv, hf, hs, Bool.true_eq_false, if_false, and_self, if_true]

theorem packetCallback_first_boundary (P : Params F) (st : Decoder F)
    (msg : LslidarC32Packet F) (hv : checkPacketValidity P msg.data = true)
    (hf : st.is_first_sweep = true) (hs : newSweepStart P st msg ≠ FIRINGS_PER_PACKET) :
    packetCallback P st msg =
      { state :=
          { is_first_sweep := false,
            last_azimuth :=
              (sweepScan P (decodePacket P msg.data st.firings) FIRINGS_PER_PACKET 0
                st.last_azimuth).2,
            sweep_start_time :=
              msg.stamp + P.FIRING_TOFFSET *
                ((FIRINGS_PER_PACKET - newSweepStart P st msg : Nat) : F) * (1 / 1000000),
            packet_start_time :=
              st.packet_start_time + P.FIRING_TOFFSET *
                ((FIRINGS_PER_PACKET - newSweepStart P st msg : Nat) : F),
            point_time := msg.stamp,
            layer_num := st.layer_num,
            sweep_data :=
              appendFirings P (decodePacket P msg.data st.firings) st.packet_start_time 0
                (newSweepStart P st msg) FIRINGS_PER_PACKET st.sweep_data,
            firings := decodePacket P msg.data st.firings },
        sweeps := [], returns := true } := by
  unfold newSweepStart at *
  simp only [packetCallback, hv, hf, hs, Bool.true_eq_false, if_false, and_false, if_true,
    ne_eq, not_true_eq_false]

theorem packetCallback_steady_append (P : Params F) (st : Decoder F)
    (msg : LslidarC32Packet F) (hv : checkPacketValidity P msg.data = true)
    (hf : st.is_first_sweep = false) (hs : newSweepStart P st msg = FIRINGS_PER_PACKET) :
    packetCallback P st msg =
      { state :=
          { is_first_sweep := false,
            last_azimuth :=
              (sweepScan P (decodePacket P msg.data st.firings) FIRINGS_PER_PACKET 0
                st.last_azimuth).2,
            sweep_start_time := st.sweep_start_time,
            packet_start_time :=
              st.packet_start_time + P.FIRING_TOFFSET * ((FIRINGS_PER_PACKET - 0 : Nat) : F),
            point_time := msg.stamp,
            layer_num := st.layer_num,
            sweep_data :=
              appendFirings P (decodePacket P msg.data st.firings) st.packet_start_time 0
                0 FIRINGS_PER_PACKET st.sweep_data,
            firings := decodePacket P msg.data st.firings },
        sweeps := [], returns := true } := by
  unfold newSweepStart at *
  simp only [packetCallback, hv, hf, hs, Bool.true_eq_false, Bool.false_eq_true, if_false,
    false_and, if_true, ne_eq, not_true_eq_false]

/-- A steady-state packet with a boundary, when the calls that follow the
publication of the sweep return. -/
theorem packetCallback_steady_boundary (P : Params F) (st : Decoder F)
    (msg : LslidarC32Packet F) (hv : checkPacketValidity P msg.data = true)
    (hf : st.is_first_sweep = false) (hs : newSweepStart P st msg ≠ FIRINGS_PER_PACKET)
    (hret : publishCallsReturn P (atPublish P st msg) = true) :
    packetCallback P st msg =
      { state :=
          { is_first_sweep := false,
            last_azimuth :=
              (decodePacket P msg.data st.firings (FIRINGS_PER_PACKET - 1)).firing_azimuth,
            sweep_start_time :=
              msg.stamp + P.FIRING_TOFFSET *
                ((newSweepStart P st msg - 0 : Nat) : F) * (1 / 1000000),
            packet_start_time :=
              0 + P.FIRING_TOFFSET * ((FIRINGS_PER_PACKET - newSweepStart P st msg : Nat) : F),
            point_time := msg.stamp,
            layer_num := st.layer_num,
            sweep_data :=
              appendFirings P (decodePacket P msg.data st.firings) 0 (newSweepStart P st msg)
                (newSweepStart P st msg) FIRINGS_PER_PACKET LslidarC32Sweep.fresh,
            firings := decodePacket P msg.data st.firings },
        sweeps := [(atPublish P st msg).sweep_data], returns := true } := by
  unfold atPublish at hret
  unfold newSweepStart at *
  simp only [packetCallback, atPublish, hv, hf, hs, hret, Bool.true_eq_false,
    Bool.false_eq_true, if_false, false_and, if_true, ne_eq, not_false_eq_true]

/-- A steady-state packet with a boundary, when a call that follows the
publication of the sweep does not return: the sweep has been published and the
members stay as they were at the publication. -/
theorem packetCallback_steady_stuck (P : Params F) (st : Decoder F)
    (msg : LslidarC32Packet F) (hv : checkPacketValidity P msg.data = true)
    (hf : st.is_first_sweep = false) (hs : newSweepStart P st msg ≠ FIRINGS_PER_PACKET)
    (hret : publishCallsReturn P (atPublish P st msg) = false) :
    packetCallback P st msg =
      { state := atPublish P st msg, sweeps := [(atPublish P st msg).sweep_data],
        returns := false } := by
  unfold atPublish at hret
  unfold newSweepStart at *
  simp only [packetCallback, atPublish, hv, hf, hs, hret, Bool.true_eq_false,
    Bool.false_eq_true, if_false, false_and, if_true, ne_eq, not_false_eq_true]

/-- A steady-state packet with a boundary publishes the sweep in flight with the
firings before the boundary appended, whether or not the call returns, and the
call returns exactly when the calls that follow the publication do. -/
theorem packetCallback_steady_published (P : Params F) (st : Decoder F)
    (msg : LslidarC32Packet F) (hv : checkPacketValidity P msg.data = true)
    (hf : st.is_first_sweep = false) (hs : newSweepStart P st msg ≠ FIRINGS_PER_PACKET) :
    (packetCallback P st msg).sweeps =
      [{ appendFirings P (decodePacket P msg.data st.firings) st.packet_start_time 0
            0 (newSweepStart P st msg) st.sweep_data with
         header := { frame_id := "sweep", stamp := st.sweep_start_time } }] ∧
    (packetCallback P st msg).returns = publishCallsReturn P (atPublish P st msg) := by
  cases hret : publishCallsReturn P (atPublish P st msg) with
  | true =>
    rw [packetCallback_steady_boundary P st msg hv hf hs hret]
    exact ⟨rfl, rfl⟩
  | false =>
    rw [packetCallback_steady_stuck P st msg hv hf hs hret]
    exact ⟨rfl, rfl⟩

/-- Outside the steady-state boundary case a call returns. -/
theorem packetCallback_returns (P : Params F) (st : Decoder F) (msg : LslidarC32Packet F)
    (h : checkPacketValidity P msg.data = false ∨ st.is_first_sweep = true ∨
      newSweepStart P st msg = FIRINGS_PER_PACKET) :
    (packetCallback P st msg).returns = true := by
  cases hv : checkPacketValidity P msg.data with
  | false => rw [packetCallback_invalid P st msg hv]
  | true =>
    cases hf : st.is_first_sweep with
    | true =>
      by_cases hs : newSweepStart P st msg = FIRINGS_PER_PACKET
      · rw [packetCallback_first_discard P st msg hv hf hs]
      · rw [packetCallback_first_boundary P st msg hv hf hs]
    | false =>
      have hs : newSweepStart P st msg = FIRINGS_PER_PACKET := by
        rcases h with h | h | h
        · rw [hv] at h; exact absurd h (by decide)
        · rw [hf] at h; exact absurd h (by decide)
        · exact h
      rw [packetCallback_steady_append P st msg hv hf hs]

/-- A call adds at most `FIRINGS_PER_PACKET` points to a beam of the sweep in
flight. -/
theorem packetCallback_length_le (P : Params F) (st : Decoder F) (msg : LslidarC32Packet F)
    (b : Nat) :
    (((packetCallback P st msg).1.sweep_data.scans b).points).length ≤
      (st.sweep_data.scans b).points.length + FIRINGS_PER_PACKET := by
  have hle := newSweepStart_le P st msg
  cases hv : checkPacketValidity P msg.data with
  | false =>
    rw [packetCallback_invalid P st msg hv]
    exact Nat.le_add_right _ _
  | true =>
    cases hf : st.is_first_sweep with
    | true =>
      by_cases hs : newSweepStart P st msg = FIRINGS_PER_PACKET
      · rw [packetCallback_first_discard P st msg hv hf hs]
        exact Nat.le_add_right _ _
      · rw [packetCallback_first_boundary P st msg hv hf hs]
        have := appendFirings_length_le P (decodePacket P msg.data st.firings)
          st.packet_start_time 0 (newSweepStart P st msg) FIRINGS_PER_PACKET st.sweep_data b
        exact le_trans this (by omega)
    | false =>
      by_cases hs : newSweepStart P st msg = FIRINGS_PER_PACKET
      · rw [packetCallback_steady_append P st msg hv hf hs]
        exact appendFirings_length_le P (decodePacket P msg.data st.firings)
          st.packet_start_time 0 0 FIRINGS_PER_PACKET st.sweep_data b
      · cases hret : publishCallsReturn P (atPublish P st msg) with
        | true =>
          rw [packetCallback_steady_boundary P st msg hv hf hs hret]
          have := appendFirings_length_le P (decodePacket P msg.data st.firings) 0
            (newSweepStart P st msg) (newSweepStart P st msg) FIRINGS_PER_PACKET
            LslidarC32Sweep.fresh b
          have h0 : ((LslidarC32Sweep.fresh : LslidarC32Sweep F).scans b).points.length = 0 :=
            rfl
          exact le_trans this (by omega)
        | false =>
          rw [packetCallback_steady_stuck P st msg hv hf hs hret]
          have := atPublish_length_le P st msg b
          exact le_trans this (by omega)

theorem run_nil (P : Params F) (st : Decoder F) :
    run P st [] = { state := st, sweeps := [], returns := true } := rfl

theorem run_cons (P : Params F) (st : Decoder F) (msg : LslidarC32Packet F)
    (rest : List (LslidarC32Packet F)) (h : (packetCallback P st msg).returns = true) :
    run P st (msg :: rest) =
      { state := (run P (packetCallback P st msg).1 rest).1,
        sweeps := (packetCallback P st msg).2 ++ (run P (packetCallback P st msg).1 rest).2,
        returns := (run P (packetCallback P st msg).1 rest).returns } := by
  rw [run]
  simp only [h, if_true]

theorem run_cons_stuck (P : Params F) (st : Decoder F) (msg : LslidarC32Packet F)
    (rest : List (LslidarC32Packet F)) (h : (packetCallback P st msg).returns = false) :
    run P st (msg :: rest) = packetCallback P st msg := by
  rw [run]
  simp only [h, Bool.false_eq_true, if_false]

theorem run_single (P : Params F) (st : Decoder F) (msg : LslidarC32Packet F) :
    run P st [msg] = packetCallback P st msg := by
  cases hr : (packetCallback P st msg).returns with
  | true =>
    rw [run_cons P st msg [] hr, run_nil]
    simp only [List.append_nil]
    rw [← hr]
  | false => exact run_cons_stuck P st msg [] hr

theorem run_filter_valid (P : Params F) (msgs : List (LslidarC32Packet F)) :
    ∀ st : Decoder F,
      run P st msgs = run P st (msgs.filter (fun m => checkPacketValidity P m.data)) := by
  induction msgs with
  | nil => intro st; rfl
  | cons m rest ih =>
    intro st
    cases hv : checkPacketValidity P m.data with
    | false =>
      rw [List.filter_cons_of_neg (by simp [hv]),
        run_cons P st m rest (packetCallback_returns P st m (Or.inl hv)),
        packetCallback_invalid P st m hv]
      simp only [List.nil_append]
      exact ih st
    | true =>
      rw [List.filter_cons_of_pos (by simp [hv])]
      cases hr : (packetCallback P st m).returns with
      | true => rw [run_cons P st m _ hr, run_cons P st m _ hr, ih]
      | false => rw [run_cons_stuck P st m _ hr, run_cons_stuck P st m _ hr]

/-- C2: a packet with a block header that differs from `UPPER_BANK` makes
`packetCallback` publish nothing and return with the decoder state as it was; hence
a stream gives the same published sweeps and the same final state as the
stream without its packets of that kind. -/
theorem packetCallback_ignores_invalid_packet (P : Params F) :
    (∀ (st : Decoder F) (msg : LslidarC32Packet F),
      (∃ blk_idx, blk_idx < BLOCKS_PER_PACKET ∧
        (msg.data.blocks blk_idx).header ≠ P.UPPER_BANK) →
      packetCallback P st msg = { state := st, sweeps := [], returns := true }) ∧
    (∀ (st : Decoder F) (msgs : List (LslidarC32Packet F)),
      run P st msgs =
        run P st (msgs.filter (fun m =>
          decide (∀ blk_idx, blk_idx < BLOCKS_PER_PACKET →
            (m.data.blocks blk_idx).header = P.UPPER_BANK)))) := by
  constructor
  · intro st msg h
    obtain ⟨blk_idx, hlt, hne⟩ := h
    apply packetCallback_invalid
    cases hv : checkPacketValidity P msg.data with
    | false => rfl
    | true =>
      exact absurd ((checkPacketValidity_eq_true_iff P msg.data).1 hv blk_idx hlt) hne
  · intro st msgs
    have hfun : (fun m : LslidarC32Packet F =>
        decide (∀ blk_idx, blk_idx < BLOCKS_PER_PACKET →
          (m.data.blocks blk_idx).header = P.UPPER_BANK)) =
        (fun m => checkPacketValidity P m.data) := by
      funext m
      rw [Bool.eq_iff_iff, decide_eq_true_eq]
      exact (checkPacketValidity_eq_true_iff P m.data).symm
    rw [hfun]
    exact run_filter_valid P msgs st

/-- C2 at the spec's scenario S4: the packet whose block 3 has header `0x0000`
leaves the start-up decoder untouched and publishes nothing, and the stream
"bad, good" behaves as the stream "good". -/
theorem packetCallback_ignores_invalid_packet_witness :
    (3 < BLOCKS_PER_PACKET ∧ (badPacket.blocks 3).header ≠ demoParams.UPPER_BANK) ∧
    packetCallback demoParams demoDecoder { stamp := 0, data := badPacket } =
      { state := demoDecoder, sweeps := [], returns := true } ∧
    run demoParams demoDecoder
        [{ stamp := 0, data := badPacket }, { stamp := 1, data := demoPacket }] =
      run demoParams demoDecoder [{ stamp := 1, data := demoPacket }] :=
  ⟨⟨by decide, by decide⟩,
   (packetCallback_ignores_invalid_packet demoParams).1 demoDecoder
     { stamp := 0, data := badPacket } ⟨3, by decide, by decide⟩,
   (packetCallback_ignores_invalid_packet demoParams).2 demoDecoder
     [{ stamp := 0, data := badPacket }, { stamp := 1, data := demoPacket }]⟩

/-! ### Publication -/

/-- C5: a call of `packetCallback` publishes zero or one sweep; it publishes one
exactly when the packet is valid, `is_first_sweep` was false on entry and the
new-sweep index is below `FIRINGS_PER_PACKET`.  So a packet with new-sweep index
`FIRINGS_PER_PACKET` publishes nothing, and neither does any packet received
while `is_first_sweep` is set, the one that clears the flag included. -/
theorem packetCallback_publishes_at_most_one (P : Params F) (st : Decoder F)
    (msg : LslidarC32Packet F) :
    (packetCallback P st msg).2.length ≤ 1 ∧
    ((packetCallback P st msg).2.length = 1 ↔
      (checkPacketValidity P msg.data = true ∧ st.is_first_sweep = false ∧
        newSweepStart P st msg < FIRINGS_PER_PACKET)) ∧
    (newSweepStart P st msg = FIRINGS_PER_PACKET → (packetCallback P st msg).2 = []) ∧
    (st.is_first_sweep = true → (packetCallback P st msg).2 = []) := by
  have hle := newSweepStart_le P st msg
  cases hv : checkPacketValidity P msg.data with
  | false =>
    rw [packetCallback_invalid P st msg hv]
    simp
  | true =>
    cases hf : st.is_first_sweep with
    | true =>
      by_cases hs : newSweepStart P st msg = FIRINGS_PER_PACKET
      · rw [packetCallback_first_discard P st msg hv hf hs]
        simp
      · rw [packetCallback_first_boundary P st msg hv hf hs]
        simp
    | false =>
      by_cases hs : newSweepStart P st msg = FIRINGS_PER_PACKET
      · rw [packetCallback_steady_append P st msg hv hf hs]
        simp [hs]
      · rw [(packetCallback_steady_published P st msg hv hf hs).1]
        have hlt : newSweepStart P st msg < FIRINGS_PER_PACKET := by omega
        simp [hs, hlt]

theorem steadyDecoder_newSweepStart : newSweepStart demoParams steadyDecoder demoMsg = 0 := by
  unfold newSweepStart
  have h : |(decodePacket demoParams demoMsg.data steadyDecoder.firings 0).firing_azimuth -
      steadyDecoder.last_azimuth| > demoParams.M_PI := by
    rw [decodePacket_firing_azimuth _ _ _ 0 (by decide),
      show (demoMsg.data.blocks 0).rotation = 0 from by decide]
    norm_num [rawAzimuthToDouble, DEG_TO_RAD, demoParams, steadyDecoder]
  rw [show FIRINGS_PER_PACKET = 23 + 1 from rfl, sweepScan_break _ _ _ _ _ h]

/-- C5 at concrete inputs: the steady-state decoder publishes one sweep on a packet
whose first firing wraps, and the start-up decoder publishes nothing on it. -/
theorem packetCallback_publishes_at_most_one_witness :
    (packetCallback demoParams steadyDecoder demoMsg).2.length = 1 ∧
    (packetCallback demoParams demoDecoder demoMsg).2 = [] :=
  ⟨(packetCallback_publishes_at_most_one demoParams steadyDecoder demoMsg).2.1.2
     ⟨by decide, rfl, by rw [steadyDecoder_newSweepStart]; decide⟩,
   (packetCallback_publishes_at_most_one demoParams demoDecoder demoMsg).2.2.2 rfl⟩

/-! ### The first sweep -/

theorem run_first_sweep_no_wrap (P : Params F) (msgs : List (LslidarC32Packet F)) :
    ∀ st : Decoder F, st.is_first_sweep = true →
      (∀ m, m ∈ msgs → checkPacketValidity P m.data = true) →
      List.Chain (fun a b => |b - a| ≤ P.M_PI) st.last_azimuth
        (msgs.flatMap (fun m => firingAzimuths P m.data)) →
      (run P st msgs).2 = [] ∧ (run P st msgs).1.sweep_data = st.sweep_data ∧
        (run P st msgs).1.is_first_sweep = true ∧ (run P st msgs).returns = true := by
  induction msgs with
  | nil =>
    intro st hf _ _
    exact ⟨rfl, rfl, hf, rfl⟩
  | cons m rest ih =>
    intro st hf hv hchain
    rw [List.flatMap_cons] at hchain
    have hscan := sweepScan_of_chain P st m (chain_append_left _ _ _ _ hchain)
    have hs : newSweepStart P st m = FIRINGS_PER_PACKET := by
      unfold newSweepStart
      rw [hscan]
    have hstep := packetCallback_first_discard P st m (hv m (List.mem_cons_self _ _)) hf hs
    rw [hscan] at hstep
    rw [firingAzimuths_split] at hchain
    have hrest := chain_append_right _ _ _ _ _ hchain
    have h := ih (packetCallback P st m).1 (by rw [hstep]; exact hf)
      (fun x hx => hv x (List.mem_cons_of_mem _ hx)) (by rw [hstep]; exact hrest)
    rw [run_cons P st m rest (by rw [hstep])]
    refine ⟨?_, ?_, h.2.2.1, h.2.2.2⟩
    · show (packetCallback P st m).2 ++ (run P (packetCallback P st m).1 rest).2 = []
      rw [h.1, hstep]
      rfl
    · show (run P (packetCallback P st m).1 rest).1.sweep_data = st.sweep_data
      rw [h.2.1, hstep]

/-- C4: while `is_first_sweep` is set, a valid packet without a boundary (new-sweep
index `FIRINGS_PER_PACKET`) publishes nothing, leaves the in-flight sweep as it
was and leaves `is_first_sweep`, `sweep_start_time` and `packet_start_time`
unchanged; the call returns.  Hence a start-up decoder fed valid packets whose
successive firing azimuths, starting from the initial `last_azimuth = 0`, never
differ by more than `M_PI` publishes nothing, every call returns, and every scan
of its in-flight sweep stays empty. -/
theorem packetCallback_discards_first_sweep (P : Params F) :
    (∀ (st : Decoder F) (msg : LslidarC32Packet F),
      st.is_first_sweep = true → checkPacketValidity P msg.data = true →
      newSweepStart P st msg = FIRINGS_PER_PACKET →
        (packetCallback P st msg).2 = [] ∧
        (packetCallback P st msg).1.sweep_data = st.sweep_data ∧
        (packetCallback P st msg).1.is_first_sweep = true ∧
        (packetCallback P st msg).1.sweep_start_time = st.sweep_start_time ∧
        (packetCallback P st msg).1.packet_start_time = st.packet_start_time ∧
        (packetCallback P st msg).returns = true) ∧
    (∀ (layer_num : Int) (firings : Nat → Firing F) (msgs : List (LslidarC32Packet F)),
      (∀ m, m ∈ msgs → checkPacketValidity P m.data = true) →
      List.Chain (fun a b => |b - a| ≤ P.M_PI) 0
        (msgs.flatMap (fun m => firingAzimuths P m.data)) →
        (run P (Decoder.init P layer_num firings) msgs).2 = [] ∧
        (run P (Decoder.init P layer_num firings) msgs).returns = true ∧
        ∀ b, ((run P (Decoder.init P layer_num firings) msgs).1.sweep_data.scans b).points
          = []) := by
  constructor
  · intro st msg hf hv hs
    rw [packetCallback_first_discard P st msg hv hf hs]
    exact ⟨rfl, rfl, hf, rfl, rfl, rfl⟩
  · intro layer_num firings msgs hv hchain
    have h := run_first_sweep_no_wrap P msgs (Decoder.init P layer_num firings) rfl hv hchain
    refine ⟨h.1, h.2.2.2, ?_⟩
    intro b
    rw [h.2.1]
    exact init_points P layer_num firings b

theorem demoMsg_chain :
    List.Chain (fun a b : ℚ => |b - a| ≤ demoParams.M_PI) 0
      (firingAzimuths demoParams demoMsg.data) := by
  have hrot : ∀ f, f < 24 →
      (demoMsg.data.blocks f).rotation = if f < 12 then 100 * f else 0 := by decide
  have hmap : firingAzimuths demoParams demoMsg.data =
      (List.range 24).map
        (fun f => rawAzimuthToDouble demoParams (if f < 12 then 100 * f else 0)) := by
    unfold firingAzimuths
    rw [show FIRINGS_PER_PACKET = 24 from rfl]
    apply List.map_congr_left
    intro f hf
    rw [hrot f (List.mem_range.1 hf)]
  rw [hmap]
  simp only [List.range_succ, List.range_zero, List.nil_append, List.cons_append,
    List.map_cons, List.map_nil, List.chain_cons, rawAzimuthToDouble, DEG_TO_RAD,
    demoParams]
  norm_num [abs_le]

/-- C4 at the spec's scenario S1: the start-up decoder gets the valid packet
`demoMsg`, whose firing azimuths 0°, 1°, …, 11°, 0°, …, 0° never jump by more
than `M_PI`; nothing is published and the in-flight sweep stays empty. -/
theorem packetCallback_discards_first_sweep_witness :
    demoDecoder.is_first_sweep = true ∧
    checkPacketValidity demoParams demoMsg.data = true ∧
    newSweepStart demoParams demoDecoder demoMsg = FIRINGS_PER_PACKET ∧
    (packetCallback demoParams demoDecoder demoMsg).2 = [] ∧
    (packetCallback demoParams demoDecoder demoMsg).1.sweep_data = demoDecoder.sweep_data ∧
    (run demoParams demoDecoder [demoMsg]).2 = [] ∧
    ((run demoParams demoDecoder [demoMsg]).1.sweep_data.scans 0).points = [] := by
  have hs : newSweepStart demoParams demoDecoder demoMsg = FIRINGS_PER_PACKET := by
    unfold newSweepStart
    rw [sweepScan_of_chain demoParams demoDecoder demoMsg demoMsg_chain]
  have h1 := (packetCallback_discards_first_sweep demoParams).1 demoDecoder demoMsg rfl
    (by decide) hs
  have h2 := (packetCallback_discards_first_sweep demoParams).2 8 (fun _ => zeroFiring)
    [demoMsg] (by intro m hm; rw [List.mem_singleton] at hm; rw [hm]; decide)
    (by simpa using demoMsg_chain)
  exact ⟨rfl, by decide, hs, h1.1, h1.2.1, h2.1, h2.2.2 0⟩

/-! ### Range of the stored points -/

theorem appendFirings_in_range (P : Params F) (firings : Nat → Firing F) (t : F)
    (sub lo hi : Nat) (sw : LslidarC32Sweep F)
    (h : ∀ b p, p ∈ (sw.scans b).points → P.min_range ≤ p.distance ∧ p.distance ≤ P.max_range) :
    ∀ b p, p ∈ ((appendFirings P firings t sub lo hi sw).scans b).points →
      P.min_range ≤ p.distance ∧ p.distance ≤ P.max_range := by
  intro b p hp
  rw [appendFirings_points, List.mem_append] at hp
  cases hp with
  | inl h1 => exact h b p h1
  | inr h2 => exact sweepPoints_in_range P firings t sub lo hi b p h2

theorem packetCallback_in_range (P : Params F) (st : Decoder F) (msg : LslidarC32Packet F)
    (h : ∀ b p, p ∈ (st.sweep_data.scans b).points →
      P.min_range ≤ p.distance ∧ p.distance ≤ P.max_range) :
    (∀ b p, p ∈ ((packetCallback P st msg).1.sweep_data.scans b).points →
      P.min_range ≤ p.distance ∧ p.distance ≤ P.max_range) ∧
    (∀ sw, sw ∈ (packetCallback P st msg).2 → ∀ b p, p ∈ (sw.scans b).points →
      P.min_range ≤ p.distance ∧ p.distance ≤ P.max_range) := by
  cases hv : checkPacketValidity P msg.data with
  | false =>
    rw [packetCallback_invalid P st msg hv]
    exact ⟨h, by intro sw hsw; simp at hsw⟩
  | true =>
    cases hf : st.is_first_sweep with
    | true =>
      by_cases hs : newSweepStart P st msg = FIRINGS_PER_PACKET
      · rw [packetCallback_first_discard P st msg hv hf hs]
        exact ⟨h, by intro sw hsw; simp at hsw⟩
      · rw [packetCallback_first_boundary P st msg hv hf hs]
        exact ⟨appendFirings_in_range P _ _ _ _ _ _ h, by intro sw hsw; simp at hsw⟩
    | false =>
      by_cases hs : newSweepStart P st msg = FIRINGS_PER_PACKET
      · rw [packetCallback_steady_append P st msg hv hf hs]
        exact ⟨appendFirings_in_range P _ _ _ _ _ _ h, by intro sw hsw; simp at hsw⟩
      · have hpub : ∀ b p, p ∈ ((atPublish P st msg).sweep_data.scans b).points →
            P.min_range ≤ p.distance ∧ p.distance ≤ P.max_range :=
          appendFirings_in_range P _ _ _ _ _ _ h
        cases hret : publishCallsReturn P (atPublish P st msg) with
        | true =>
          rw [packetCallback_steady_boundary P st msg hv hf hs hret]
          refine ⟨appendFirings_in_range P _ _ _ _ _ _ (fresh_in_range P), ?_⟩
          intro sw hsw
          rw [List.mem_singleton] at hsw
          subst hsw
          exact hpub
        | false =>
          rw [packetCallback_steady_stuck P st msg hv hf hs hret]
          refine ⟨hpub, ?_⟩
          intro sw hsw
          rw [List.mem_singleton] at hsw
          subst hsw
          exact hpub

theorem run_in_range (P : Params F) (msgs : List (LslidarC32Packet F)) :
    ∀ st : Decoder F,
      (∀ b p, p ∈ (st.sweep_data.scans b).points →
        P.min_range ≤ p.distance ∧ p.distance ≤ P.max_range) →
      (∀ b p, p ∈ ((run P st msgs).1.sweep_data.scans b).points →
        P.min_range ≤ p.distance ∧ p.distance ≤ P.max_range) ∧
      (∀ sw, sw ∈ (run P st msgs).2 → ∀ b p, p ∈ (sw.scans b).points →
        P.min_range ≤ p.distance ∧ p.distance ≤ P.max_range) := by
  induction msgs with
  | nil =>
    intro st h
    exact ⟨h, by intro sw hsw; simp [run] at hsw⟩
  | cons m rest ih =>
    intro st h
    have h1 := packetCallback_in_range P st m h
    have h2 := ih (packetCallback P st m).1 h1.1
    cases hr : (packetCallback P st m).returns with
    | true =>
      rw [run_cons P st m rest hr]
      refine ⟨h2.1, ?_⟩
      intro sw hsw
      rw [List.mem_append] at hsw
      cases hsw with
      | inl ha => exact h1.2 sw ha
      | inr hb => exact h2.2 sw hb
    | false =>
      rw [run_cons_stuck P st m rest hr]
      exact h1

/-- C6: whatever packets a start-up decoder is fed, every point of the in-flight
sweep and of every published sweep has `min_range ≤ distance ≤ max_range`; and an
appended firing drops no in-range sample: for each channel `c` the beam
`remap c` receives exactly the point of channel `c` when its distance is in
range and nothing otherwise, and no other beam index receives a point. -/
theorem stored_points_are_exactly_the_in_range_samples (P : Params F) :
    (∀ (layer_num : Int) (firings : Nat → Firing F) (msgs : List (LslidarC32Packet F))
      (sw : LslidarC32Sweep F),
      sw ∈ (run P (Decoder.init P layer_num firings) msgs).1.sweep_data ::
        (run P (Decoder.init P layer_num firings) msgs).2 →
      ∀ b p, p ∈ (sw.scans b).points →
        P.min_range ≤ p.distance ∧ p.distance ≤ P.max_range) ∧
    (∀ (fir : Firing F) (packet_start_time : F) (k : Nat) (sw : LslidarC32Sweep F) (c : Nat),
      c < 32 →
      ((appendFiring P fir packet_start_time k sw).scans (remap c)).points =
        (sw.scans (remap c)).points ++
          (if P.min_range ≤ fir.distance c ∧ fir.distance c ≤ P.max_range then
            [makePoint P fir packet_start_time k c] else []) ∧
      (makePoint P fir packet_start_time k c).distance = fir.distance c) ∧
    (∀ (fir : Firing F) (packet_start_time : F) (k : Nat) (sw : LslidarC32Sweep F) (b : Nat),
      32 ≤ b →
      ((appendFiring P fir packet_start_time k sw).scans b).points = (sw.scans b).points) := by
  refine ⟨?_, ?_, ?_⟩
  · intro layer_num firings msgs sw hsw
    have h := run_in_range P msgs (Decoder.init P layer_num firings) (by
      intro b p hp
      rw [init_points] at hp
      simp at hp)
    rw [List.mem_cons] at hsw
    cases hsw with
    | inl ha => rw [ha]; exact h.1
    | inr hb => exact h.2 sw hb
  · intro fir t k sw c hc
    refine ⟨?_, rfl⟩
    rw [appendFiring_points, firingPoints_remap P fir t k c hc]
    by_cases hr : P.min_range ≤ fir.distance c ∧ fir.distance c ≤ P.max_range
    · have hr2 : isPointInRange P (fir.distance c) = true := by
        simp [isPointInRange, hr.1, hr.2]
      simp [hr, hr2]
    · have hr2 : ¬ isPointInRange P (fir.distance c) = true := by
        simp only [isPointInRange, Bool.and_eq_true, decide_eq_true_eq]
        exact hr
      rw [if_neg hr2, if_neg hr]
  · intro fir t k sw b hb
    rw [appendFiring_points, firingPoints_beyond P fir t k b hb, List.append_nil]

theorem wrapMsg_newSweepStart : newSweepStart demoParams demoDecoder wrapMsg = 0 := by
  unfold newSweepStart
  have h : |(decodePacket demoParams wrapMsg.data demoDecoder.firings 0).firing_azimuth -
      demoDecoder.last_azimuth| > demoParams.M_PI := by
    rw [decodePacket_firing_azimuth _ _ _ 0 (by decide),
      show (wrapMsg.data.blocks 0).rotation = 30000 from by decide]
    norm_num [rawAzimuthToDouble, DEG_TO_RAD, demoParams, demoDecoder, Decoder.init,
      Decoder.new]
    rw [lt_abs]
    left
    norm_num
  rw [show FIRINGS_PER_PACKET = 23 + 1 from rfl, sweepScan_break _ _ _ _ _ h]

theorem wrapMsg_in_range :
    isPointInRange demoParams
      ((decodePacket demoParams wrapMsg.data demoDecoder.firings 0).distance 0) = true := by
  rw [(decodePacket_samples_aux demoParams wrapMsg.data demoDecoder.firings 0 0
    (by decide) (by decide)).1,
    show (wrapMsg.data.blocks (0 / FIRINGS_PER_BLOCK)).data
      (RAW_SCAN_SIZE * (SCANS_PER_FIRING * (0 % FIRINGS_PER_BLOCK) + 0)) = 1 from by decide,
    show (wrapMsg.data.blocks (0 / FIRINGS_PER_BLOCK)).data
      (RAW_SCAN_SIZE * (SCANS_PER_FIRING * (0 % FIRINGS_PER_BLOCK) + 0) + 1) = 1
      from by decide]
  norm_num [isPointInRange, demoParams]

theorem wrapMsg_point_stored :
    makePoint demoParams (decodePacket demoParams wrapMsg.data demoDecoder.firings 0) 0 0 0 ∈
      ((run demoParams demoDecoder [wrapMsg]).1.sweep_data.scans 0).points := by
  have hne : newSweepStart demoParams demoDecoder wrapMsg ≠ FIRINGS_PER_PACKET := by
    rw [wrapMsg_newSweepStart]; decide
  rw [run_cons _ _ _ _ (packetCallback_returns _ _ _ (Or.inr (Or.inl rfl))), run_nil,
    packetCallback_first_boundary demoParams demoDecoder wrapMsg (by decide) rfl hne,
    wrapMsg_newSweepStart]
  simp only []
  rw [appendFirings_points]
  apply List.mem_append_right
  unfold sweepPoints
  rw [List.mem_flatMap]
  refine ⟨0, by decide, ?_⟩
  have h := firingPoints_remap demoParams
    (decodePacket demoParams wrapMsg.data demoDecoder.firings 0)
    demoDecoder.packet_start_time (0 - 0) 0 (by decide)
  rw [if_pos wrapMsg_in_range] at h
  show _ ∈ firingPoints demoParams _ demoDecoder.packet_start_time (0 - 0) (remap 0)
  rw [h]
  exact List.mem_singleton.2 rfl

/-- C6 at a concrete run: the start-up decoder gets a valid packet at 300°, which
starts its first kept sweep; the point of firing 0, channel 0 is stored on beam 0
and its distance lies in `[min_range, max_range]`; and channel 5 of a zero firing,
out of range, adds nothing to beam `remap 5`. -/
theorem stored_points_are_exactly_the_in_range_samples_witness :
    makePoint demoParams (decodePacket demoParams wrapMsg.data demoDecoder.firings 0) 0 0 0 ∈
      ((run demoParams demoDecoder [wrapMsg]).1.sweep_data.scans 0).points ∧
    (demoParams.min_range ≤
      (makePoint demoParams (decodePacket demoParams wrapMsg.data demoDecoder.firings 0)
        0 0 0).distance ∧
     (makePoint demoParams (decodePacket demoParams wrapMsg.data demoDecoder.firings 0)
        0 0 0).distance ≤ demoParams.max_range) ∧
    ((appendFiring demoParams zeroFiring 0 0 LslidarC32Sweep.fresh).scans (remap 5)).points
      = [] :=
  ⟨wrapMsg_point_stored,
   (stored_points_are_exactly_the_in_range_samples demoParams).1 8 (fun _ => zeroFiring)
     [wrapMsg] _ (List.mem_cons_self _ _) 0 _ wrapMsg_point_stored,
   by
     rw [((stored_points_are_exactly_the_in_range_samples demoParams).2.1 zeroFiring 0 0
       LslidarC32Sweep.fresh 5 (by decide)).1]
     norm_num [demoParams, zeroFiring, LslidarC32Sweep.fresh]⟩

/-- C17 at a concrete input: the steady-state decoder, last seen at 4 rad, gets
`demoMsg`, whose firing 0 is at 0 rad: the new-sweep index is 0, firing 0 jumps
by more than `M_PI` from the entry value, and `last_azimuth` is still 4. -/
theorem newSweepStart_is_first_jump_witness :
    newSweepStart demoParams steadyDecoder demoMsg = 0 ∧
    |(decodePacket demoParams demoMsg.data steadyDecoder.firings
        (newSweepStart demoParams steadyDecoder demoMsg)).firing_azimuth -
      prevAzimuth (decodePacket demoParams demoMsg.data steadyDecoder.firings)
        steadyDecoder.last_azimuth (newSweepStart demoParams steadyDecoder demoMsg)| >
      demoParams.M_PI ∧
    (sweepScan demoParams (decodePacket demoParams demoMsg.data steadyDecoder.firings)
      FIRINGS_PER_PACKET 0 steadyDecoder.last_azimuth).2 = 4 :=
  ⟨steadyDecoder_newSweepStart,
   (newSweepStart_is_first_jump demoParams steadyDecoder demoMsg).2.2.1
     (by rw [steadyDecoder_newSweepStart]; decide),
   (newSweepStart_is_first_jump demoParams steadyDecoder demoMsg).2.2.2.2.2
     steadyDecoder_newSweepStart⟩

/-! ### The azimuth kept for the next packet -/

theorem lateWrapMsg_sweepScan :
    sweepScan demoParams (decodePacket demoParams lateWrapMsg.data demoDecoder.firings)
      FIRINGS_PER_PACKET 0 demoDecoder.last_azimuth =
      (2, rawAzimuthToDouble demoParams 1000) := by
  have a0 : (decodePacket demoParams lateWrapMsg.data demoDecoder.firings 0).firing_azimuth =
      rawAzimuthToDouble demoParams 1000 := by
    rw [decodePacket_firing_azimuth _ _ _ 0 (by decide),
      show (lateWrapMsg.data.blocks 0).rotation = 1000 from by decide]
  have a1 : (decodePacket demoParams lateWrapMsg.data demoDecoder.firings 1).firing_azimuth =
      rawAzimuthToDouble demoParams 1000 := by
    rw [decodePacket_firing_azimuth _ _ _ 1 (by decide),
      show (lateWrapMsg.data.blocks 1).rotation = 1000 from by decide]
  have a2 : (decodePacket demoParams lateWrapMsg.data demoDecoder.firings 2).firing_azimuth =
      rawAzimuthToDouble demoParams 30000 := by
    rw [decodePacket_firing_azimuth _ _ _ 2 (by decide),
      show (lateWrapMsg.data.blocks 2).rotation = 30000 from by decide]
  have h0 : |(decodePacket demoParams lateWrapMsg.data demoDecoder.firings 0).firing_azimuth -
      demoDecoder.last_azimuth| ≤ demoParams.M_PI := by
    rw [a0]
    norm_num [rawAzimuthToDouble, DEG_TO_RAD, demoParams, demoDecoder, Decoder.init,
      Decoder.new, abs_le]
  have h1 : |(decodePacket demoParams lateWrapMsg.data demoDecoder.firings 1).firing_azimuth -
      (decodePacket demoParams lateWrapMsg.data demoDecoder.firings 0).firing_azimuth| ≤
      demoParams.M_PI := by
    rw [a0, a1]
    norm_num [demoParams]
  have h2 : |(decodePacket demoParams lateWrapMsg.data demoDecoder.firings 2).firing_azimuth -
      (decodePacket demoParams lateWrapMsg.data demoDecoder.firings 1).firing_azimuth| >
      demoParams.M_PI := by
    rw [a1, a2]
    norm_num [rawAzimuthToDouble, DEG_TO_RAD, demoParams]
    rw [lt_abs]
    left
    norm_num
  rw [show FIRINGS_PER_PACKET = 21 + 1 + 1 + 1 from rfl,
    sweepScan_step _ _ _ _ _ h0 (by decide), sweepScan_step _ _ _ _ _ h1 (by decide),
    sweepScan_break _ _ _ _ _ h2, a1]

theorem lateWrapMsg_newSweepStart :
    newSweepStart demoParams demoDecoder lateWrapMsg = 2 := by
  unfold newSweepStart
  rw [lateWrapMsg_sweepScan]

/-- C20, the code at a failing input: the start-up decoder gets the valid packet
`lateWrapMsg`, whose firings 0 and 1 are at 10° and whose firing 2 is at 300°.
The first-sweep flag is cleared at new-sweep index 2, and `last_azimuth` is left
at the azimuth of firing 1 (10°), which is not the azimuth of firing 23. -/
theorem first_boundary_keeps_stale_last_azimuth :
    demoDecoder.is_first_sweep = true ∧
    checkPacketValidity demoParams lateWrapMsg.data = true ∧
    newSweepStart demoParams demoDecoder lateWrapMsg = 2 ∧
    (packetCallback demoParams demoDecoder lateWrapMsg).1.is_first_sweep = false ∧
    (packetCallback demoParams demoDecoder lateWrapMsg).1.last_azimuth =
      (decodePacket demoParams lateWrapMsg.data demoDecoder.firings 1).firing_azimuth ∧
    (packetCallback demoParams demoDecoder lateWrapMsg).1.last_azimuth ≠
      (decodePacket demoParams lateWrapMsg.data demoDecoder.firings
        (FIRINGS_PER_PACKET - 1)).firing_azimuth := by
  have hne : newSweepStart demoParams demoDecoder lateWrapMsg ≠ FIRINGS_PER_PACKET := by
    rw [lateWrapMsg_newSweepStart]; decide
  have a1 : (decodePacket demoParams lateWrapMsg.data demoDecoder.firings 1).firing_azimuth =
      rawAzimuthToDouble demoParams 1000 := by
    rw [decodePacket_firing_azimuth _ _ _ 1 (by decide),
      show (lateWrapMsg.data.blocks 1).rotation = 1000 from by decide]
  have a23 : (decodePacket demoParams lateWrapMsg.data demoDecoder.firings
      (FIRINGS_PER_PACKET - 1)).firing_azimuth = rawAzimuthToDouble demoParams 0 := by
    rw [decodePacket_firing_azimuth _ _ _ _ (by decide),
      show (lateWrapMsg.data.blocks (FIRINGS_PER_PACKET - 1)).rotation = 0 from by decide]
  rw [packetCallback_first_boundary demoParams demoDecoder lateWrapMsg (by decide) rfl hne,
    lateWrapMsg_sweepScan, a1, a23]
  refine ⟨rfl, by decide, lateWrapMsg_newSweepStart, rfl, rfl, ?_⟩
  norm_num [rawAzimuthToDouble, DEG_TO_RAD, demoParams]

/-! ### The projector -/

theorem makePoint_coords (P : Params F) (fir : Firing F) (t : F) (k c : Nat) :
    (makePoint P fir t k c).x =
      fir.distance c * P.cos_scan_altitude c *
        P.cos_azimuth_table (tableIdx (fir.azimuth c)) ∧
    (makePoint P fir t k c).y =
      -(fir.distance c * P.cos_scan_altitude c *
        P.sin_azimuth_table (tableIdx (fir.azimuth c))) ∧
    (makePoint P fir t k c).z = fir.distance c * P.sin_scan_altitude c ∧
    (makePoint P fir t k c).distance = fir.distance c :=
  ⟨rfl, rfl, rfl, rfl⟩

theorem makePoint_norm_sq (P : Params F) (fir : Firing F) (t : F) (k c : Nat)
    (htab : P.cos_azimuth_table (tableIdx (fir.azimuth c)) ^ 2 +
      P.sin_azimuth_table (tableIdx (fir.azimuth c)) ^ 2 = 1)
    (halt : P.cos_scan_altitude c ^ 2 + P.sin_scan_altitude c ^ 2 = 1) :
    (makePoint P fir t k c).x ^ 2 + (makePoint P fir t k c).y ^ 2 +
      (makePoint P fir t k c).z ^ 2 = (makePoint P fir t k c).distance ^ 2 := by
  obtain ⟨hx, hy, hz, hd⟩ := makePoint_coords P fir t k c
  rw [hx, hy, hz, hd]
  linear_combination
    (fir.distance c ^ 2 * P.cos_scan_altitude c ^ 2) * htab + fir.distance c ^ 2 * halt

/-! ### The lookup index into the azimuth tables -/

theorem tableIdx_lt_of_lt (a : F) (h0 : 0 ≤ a) (h : a * 1000 + 1 / 2 < 12580) :
    tableIdx a < 6300 := by
  have hnn : (0 : F) ≤ a * 1000 + 1 / 2 := by positivity
  have hfl : Nat.floor (a * 1000 + 1 / 2) < 12580 := by
    rw [Nat.floor_lt hnn]
    exact_mod_cast h
  unfold tableIdx
  simp only []
  split_ifs <;> omega

/-- C18: with `0 ≤ M_PI ≤ 3.15` (true of π and of the constant `M_PI`), for every
16-bit raw azimuth `r` the table index of the azimuth `r/100·M_PI/180`, with or
without the `4·M_PI/180` of the even channels, is below the table length 6300;
hence every index that the append loops compute from a decoded packet whose
azimuth fields are 16-bit values is in bounds. -/
theorem tableIdx_in_bounds (P : Params F) (hpi0 : 0 ≤ P.M_PI) (hpi : P.M_PI ≤ 315 / 100) :
    (∀ r : Nat, r ≤ 65535 →
      tableIdx (rawAzimuthToDouble P r + 4 * DEG_TO_RAD P) < 6300 ∧
      tableIdx (rawAzimuthToDouble P r) < 6300) ∧
    (∀ (packet : RawPacket) (firings : Nat → Firing F) (f c : Nat),
      f < FIRINGS_PER_PACKET → c < SCANS_PER_FIRING →
      (packet.blocks f).rotation ≤ 65535 →
      (decodePacket P packet firings f).azimuth c =
        (if c % 2 = 0 then rawAzimuthToDouble P (packet.blocks f).rotation + 4 * DEG_TO_RAD P
         else rawAzimuthToDouble P (packet.blocks f).rotation) ∧
      tableIdx ((decodePacket P packet firings f).azimuth c) < 6300) := by
  have hraw : ∀ r : Nat, r ≤ 65535 →
      tableIdx (rawAzimuthToDouble P r + 4 * DEG_TO_RAD P) < 6300 ∧
      tableIdx (rawAzimuthToDouble P r) < 6300 := by
    intro r hr
    obtain ⟨h1, h2, h3⟩ := rawAzimuth_bounds P hpi0 hpi r hr
    constructor
    · exact tableIdx_lt_of_lt _ (by linarith) h3
    · exact tableIdx_lt_of_lt _ h1 (by linarith)
  refine ⟨hraw, ?_⟩
  intro packet firings f c hf hc hr
  have haz : (decodePacket P packet firings f).azimuth c =
      (if c % 2 = 0 then rawAzimuthToDouble P (packet.blocks f).rotation + 4 * DEG_TO_RAD P
       else rawAzimuthToDouble P (packet.blocks f).rotation) := by
    rw [decodePacket_apply P packet firings f hf]
    exact (decodeFiring_fold_samples P _ _ _ SCANS_PER_FIRING c hc).1
  refine ⟨haz, ?_⟩
  rw [haz]
  split_ifs
  · exact (hraw _ hr).1
  · exact (hraw _ hr).2

/-- C18 at a concrete input: with `M_PI = 355/113`, the raw azimuth 65535 and the
decoded firing 0, channel 0 of `wrapMsg` give indices below 6300. -/
theorem tableIdx_in_bounds_witness :
    (0 : ℚ) ≤ demoParams.M_PI ∧ demoParams.M_PI ≤ 315 / 100 ∧
    tableIdx (rawAzimuthToDouble demoParams 65535 + 4 * DEG_TO_RAD demoParams) < 6300 ∧
    tableIdx ((decodePacket demoParams wrapMsg.data demoDecoder.firings 0).azimuth 0) < 6300 :=
  ⟨by norm_num [demoParams], by norm_num [demoParams],
   ((tableIdx_in_bounds demoParams (by norm_num [demoParams])
      (by norm_num [demoParams])).1 65535 (le_refl _)).1,
   ((tableIdx_in_bounds demoParams (by norm_num [demoParams])
      (by norm_num [demoParams])).2 wrapMsg.data demoDecoder.firings 0 0
      (by decide) (by decide) (by decide)).2⟩

/-! ### The point cloud -/

theorem publishPointCloud_fold (C : PublishParams F) (st : Decoder F) (n : Nat) :
    ∀ cl : VPointCloud F,
      (((List.range n).foldl
        (fun cl i =>
          let scan := st.sweep_data.scans i
          let timestamp := st.point_time
          let cl1 : VPointCloud F := { cl with stamp := Nat.floor (timestamp * 1000000) }
          if scan.points.length = 0 then cl1
          else cloudScan C timestamp i scan.points cl1)
        cl).points =
        cl.points ++ (List.range n).flatMap
          (fun i => beamCloud C st.point_time i (st.sweep_data.scans i).points)) ∧
      (((List.range n).foldl
        (fun cl i =>
          let scan := st.sweep_data.scans i
          let timestamp := st.point_time
          let cl1 : VPointCloud F := { cl with stamp := Nat.floor (timestamp * 1000000) }
          if scan.points.length = 0 then cl1
          else cloudScan C timestamp i scan.points cl1)
        cl).width =
        cl.width + ((List.range n).map
          (fun i => (st.sweep_data.scans i).points.length - 2)).sum) := by
  induction n with
  | zero => intro cl; simp
  | succ n ih =>
    intro cl
    rw [List.range_succ, List.foldl_append, List.flatMap_append, List.map_append,
      List.sum_append]
    simp only [List.foldl_cons, List.foldl_nil, List.flatMap_cons, List.flatMap_nil,
      List.append_nil, List.map_cons, List.map_nil, List.sum_cons, List.sum_nil, add_zero]
    obtain ⟨h1, h2⟩ := ih cl
    by_cases h0 : (st.sweep_data.scans n).points.length = 0
    · have hnil : (st.sweep_data.scans n).points = [] := List.length_eq_zero.1 h0
      simp only [h0, if_true]
      rw [h1, h2, hnil]
      simp [beamCloud]
    · simp only [h0, if_false]
      rw [cloudScan_eq]
      simp only []
      rw [h1, h2]
      constructor
      · rw [List.append_assoc]
      · omega

/-- C19: the cloud built by `publishPointCloud` holds, for the beams 0..31 in
that order, exactly the points at the positions `1..n−2` of the beam's scan, in
scan order (the scan without its first and its last point; nothing from a scan
of fewer than 3 points), and its `width` is its number of points, the sum over
the beams of `n − 2` cut off at 0. -/
theorem publishPointCloud_skips_scan_ends (C : PublishParams F) (st : Decoder F) :
    (publishPointCloud C st).points =
      (List.range 32).flatMap
        (fun i => beamCloud C st.point_time i (st.sweep_data.scans i).points) ∧
    (publishPointCloud C st).points.map (fun v => (v.x, v.y, v.z, v.intensity, v.range, v.h_angle)) =
      (List.range 32).flatMap
        (fun i => (((st.sweep_data.scans i).points.drop 1).dropLast).map
          (fun p => (p.x, p.y, p.z, p.intensity, p.distance, p.azimuth))) ∧
    (publishPointCloud C st).width = (publishPointCloud C st).points.length ∧
    (publishPointCloud C st).width =
      ((List.range 32).map (fun i => (st.sweep_data.scans i).points.length - 2)).sum ∧
    (∀ i, (st.sweep_data.scans i).points.length < 3 →
      beamCloud C st.point_time i (st.sweep_data.scans i).points = []) := by
  obtain ⟨h1, h2⟩ := publishPointCloud_fold C st 32
    { stamp := 0, frame_id := C.child_frame_id, height := 1, width := 0, points := [] }
  have hp : (publishPointCloud C st).points =
      (List.range 32).flatMap
        (fun i => beamCloud C st.point_time i (st.sweep_data.scans i).points) := by
    unfold publishPointCloud
    rw [h1]
    simp
  have hw : (publishPointCloud C st).width =
      ((List.range 32).map (fun i => (st.sweep_data.scans i).points.length - 2)).sum := by
    unfold publishPointCloud
    rw [h2]
    simp
  have hlen : ∀ i, (beamCloud C st.point_time i (st.sweep_data.scans i).points).length =
      (st.sweep_data.scans i).points.length - 2 := by
    intro i
    unfold beamCloud
    simp only [List.length_map, List.enumFrom_length, List.length_dropLast, List.length_drop]
    omega
  refine ⟨hp, ?_, ?_, hw, ?_⟩
  · rw [hp, List.map_flatMap]
    congr 1
    funext i
    unfold beamCloud
    rw [List.map_map]
    have : ∀ (l : List (LslidarC32Point F)) (a n : Nat),
        (l.enumFrom a).map ((fun v : VPoint F => (v.x, v.y, v.z, v.intensity, v.range, v.h_angle)) ∘
          (fun jp => cloudPoint C st.point_time i n jp.1 jp.2)) =
        l.map (fun p => (p.x, p.y, p.z, p.intensity, p.distance, p.azimuth)) := by
      intro l
      induction l with
      | nil => intro a n; rfl
      | cons x xs ih =>
        intro a n
        rw [List.enumFrom_cons, List.map_cons, List.map_cons, ih]
        rfl
    exact this _ _ _
  · rw [hw, hp, List.length_flatMap]
    congr 1
    apply List.map_congr_left
    intro i _
    exact (hlen i).symm
  · intro i hi
    apply List.eq_nil_of_length_eq_zero
    rw [hlen]
    omega

/-! ### The 2-D scan -/

theorem binLoop_ends (P : Params F) (C : PublishParams F) (points : List (LslidarC32Point F))
    (hlen : points.length ≤ 65535) (fuel : Nat) :
    ∀ (i : Nat) (scan : LaserScan F), i ≤ points.length → points.length - i < fuel →
      binLoop P C points fuel i scan = some ((points.drop i).foldl (binPoint P C) scan) := by
  induction fuel with
  | zero => intro i scan _ h; omega
  | succ fuel ih =>
    intro i scan hi hfuel
    by_cases h : i < points.length
    · have hmod : (i + 1) % 65536 = i + 1 := Nat.mod_eq_of_lt (by omega)
      rw [binLoop, dif_pos h, hmod, ih (i + 1) _ (by omega) (by omega),
        List.drop_eq_getElem_cons h, List.foldl_cons]
    · have hi2 : i = points.length := by omega
      rw [binLoop, dif_neg h, hi2, List.drop_length, List.foldl_nil]

theorem binLoop_never_ends (P : Params F) (C : PublishParams F)
    (points : List (LslidarC32Point F)) (hlen : 65536 ≤ points.length) (fuel : Nat) :
    ∀ (i : Nat) (scan : LaserScan F), i < 65536 → binLoop P C points fuel i scan = none := by
  induction fuel with
  | zero => intro i scan _; rfl
  | succ fuel ih =>
    intro i scan hi
    have h : i < points.length := by omega
    rw [binLoop, dif_pos h]
    exact ih _ _ (Nat.mod_lt _ (by norm_num))

theorem binPoint_fold_ranges (P : Params F) (C : PublishParams F)
    (points : List (LslidarC32Point F)) :
    ∀ scan : LaserScan F,
      (points.foldl (binPoint P C) scan).ranges =
        points.foldl (fun r p => r.set (scanSlot P C p) (p.distance : WithTop F))
          scan.ranges := by
  induction points with
  | nil => intro scan; rfl
  | cons p ps ih =>
    intro scan
    rw [List.foldl_cons, List.foldl_cons, ih]
    rfl

/-- The scan that `buildScan` returns for a beam of at most 65535 points. -/
theorem buildScan_ranges (P : Params F) (C : PublishParams F) (st : Decoder F) (beam : Nat)
    (fuel : Nat) (hlen : (st.sweep_data.scans beam).points.length ≤ 65535)
    (hfuel : (st.sweep_data.scans beam).points.length < fuel) :
    ∃ scan, buildScan P C st beam fuel = some scan ∧
      scan.ranges.length = C.point_num.toNat ∧
      ∀ i, i < C.point_num.toNat →
        scan.ranges[i]? =
          some (if masked C i = true then ⊤
            else match lastHit P C (st.sweep_data.scans beam).points i with
              | some p => (p.distance : WithTop F)
              | none => ⊤) := by
  unfold buildScan
  rw [binLoop_ends P C _ hlen fuel 0 _ (Nat.zero_le _) (by omega), List.drop_zero]
  refine ⟨_, rfl, ?_, ?_⟩
  · rw [maskPass_length, binPoint_fold_ranges, foldl_set_length]
    simp [emptyScan]
  · intro i hi
    simp only []
    rw [maskPass_getElem?, binPoint_fold_ranges, foldl_set_getElem?]
    have hlen0 : i < (emptyScan P C st).ranges.length := by simp [emptyScan, hi]
    have hget : (emptyScan P C st).ranges[i]? = some ⊤ := by
      simp [emptyScan, hi]
    unfold lastHit
    cases hlast : ((st.sweep_data.scans beam).points.filter
        (fun p => decide (scanSlot P C p = i))).getLast? with
    | none =>
      simp only [hget, Option.map_some']
      by_cases hm : masked C i = true
      · simp [hm, hi]
      · simp [hm]
    | some p =>
      simp only [hlen0, if_true, Option.map_some']
      by_cases hm : masked C i = true
      · simp [hm, hi]
      · simp [hm]

/-- What `publishScan` publishes when the selected beam holds between 2 and
65535 points: one scan of `point_num` bins; a masked bin is `+∞`, any other bin
holds the distance of the last point of the beam written to it, or `+∞` when
there is none. -/
theorem publishScan_ranges (P : Params F) (C : PublishParams F) (st : Decoder F)
    (fuel : Nat) (hmany : 1 < (st.sweep_data.scans st.layer_num.toNat).points.length)
    (hlen : (st.sweep_data.scans st.layer_num.toNat).points.length ≤ 65535)
    (hfuel : (st.sweep_data.scans st.layer_num.toNat).points.length < fuel) :
    ∃ scan, publishScan P C st fuel = some [scan] ∧
      scan.ranges.length = C.point_num.toNat ∧
      ∀ i, i < C.point_num.toNat →
        scan.ranges[i]? =
          some (if masked C i = true then ⊤
            else match lastHit P C (st.sweep_data.scans st.layer_num.toNat).points i with
              | some p => (p.distance : WithTop F)
              | none => ⊤) := by
  obtain ⟨scan, h1, h2, h3⟩ := buildScan_ranges P C st st.layer_num.toNat fuel hlen hfuel
  refine ⟨scan, ?_, h2, h3⟩
  unfold publishScan
  simp only []
  rw [if_neg (by omega), h1]
  rfl

theorem publishScan_never_returns (P : Params F) (C : PublishParams F) (st : Decoder F)
    (fuel : Nat) (hlen : 65536 ≤ (st.sweep_data.scans st.layer_num.toNat).points.length) :
    publishScan P C st fuel = none := by
  unfold publishScan buildScan
  simp only []
  rw [if_neg (by omega), binLoop_never_ends P C _ hlen fuel 0 _ (by norm_num)]
  rfl

/-! ### Whether the publications return -/

theorem binLoop_isSome (P : Params F) (C : PublishParams F)
    (points : List (LslidarC32Point F)) (scan : LaserScan F) (fuel : Nat) :
    ((binLoop P C points fuel 0 scan).isSome = true → points.length ≤ 65535) ∧
    (points.length ≤ 65535 → points.length < fuel →
      (binLoop P C points fuel 0 scan).isSome = true) := by
  constructor
  · intro h
    by_contra hlen
    rw [binLoop_never_ends P C points (by omega) fuel 0 scan (by norm_num)] at h
    exact (Bool.false_ne_true h).elim
  · intro hlen hfuel
    rw [binLoop_ends P C points hlen fuel 0 scan (Nat.zero_le _) (by omega)]
    rfl

theorem buildScan_isSome (P : Params F) (C : PublishParams F) (st : Decoder F)
    (beam fuel : Nat) :
    ((buildScan P C st beam fuel).isSome = true →
      (st.sweep_data.scans beam).points.length ≤ 65535) ∧
    ((st.sweep_data.scans beam).points.length ≤ 65535 →
      (st.sweep_data.scans beam).points.length < fuel →
      (buildScan P C st beam fuel).isSome = true) := by
  unfold buildScan
  rw [isSome_map]
  exact binLoop_isSome P C _ _ fuel

theorem publishScan_isSome (P : Params F) (C : PublishParams F) (st : Decoder F)
    (fuel : Nat) :
    ((publishScan P C st fuel).isSome = true →
      (st.sweep_data.scans st.layer_num.toNat).points.length ≤ 65535) ∧
    ((st.sweep_data.scans st.layer_num.toNat).points.length ≤ 65535 → 65536 ≤ fuel →
      (publishScan P C st fuel).isSome = true) := by
  unfold publishScan
  simp only []
  by_cases h1 : (st.sweep_data.scans st.layer_num.toNat).points.length ≤ 1
  · rw [if_pos h1]
    exact ⟨fun _ => by omega, fun _ _ => rfl⟩
  · rw [if_neg h1, isSome_map]
    exact ⟨(buildScan_isSome P C st _ fuel).1,
      fun hlen hfuel => (buildScan_isSome P C st _ fuel).2 hlen (by omega)⟩

theorem channelLoop_isSome (P : Params F) (C : PublishParams F) (st : Decoder F)
    (fuel : Nat) (js : List Nat) :
    ((channelLoop P C st fuel js).isSome = true →
      ∀ j, j ∈ js → (st.sweep_data.scans j).points.length ≤ 65535) ∧
    ((∀ j, j ∈ js → (st.sweep_data.scans j).points.length ≤ 65535) → 65536 ≤ fuel →
      (channelLoop P C st fuel js).isSome = true) := by
  induction js with
  | nil => exact ⟨fun _ j hj => by simp at hj, fun _ _ => rfl⟩
  | cons j js ih =>
    cases hb : buildScan P C st j fuel with
    | none =>
      have hnot : ¬ (st.sweep_data.scans j).points.length ≤ 65535 ∨ ¬ 65536 ≤ fuel := by
        by_contra hcon
        push_neg at hcon
        have := (buildScan_isSome P C st j fuel).2 hcon.1 (by omega)
        rw [hb] at this
        exact (Bool.false_ne_true this).elim
      constructor
      · intro h
        simp only [channelLoop, hb] at h
        exact (Bool.false_ne_true h).elim
      · intro hall hfuel
        rcases hnot with hn | hn
        · exact absurd (hall j (List.mem_cons_self _ _)) hn
        · exact absurd hfuel hn
    | some scan =>
      have hj : (st.sweep_data.scans j).points.length ≤ 65535 :=
        (buildScan_isSome P C st j fuel).1 (by rw [hb]; rfl)
      constructor
      · intro h k hk
        simp only [channelLoop, hb, isSome_map] at h
        rw [List.mem_cons] at hk
        cases hk with
        | inl e => rw [e]; exact hj
        | inr e => exact ih.1 h k e
      · intro hall hfuel
        simp only [channelLoop, hb, isSome_map]
        exact ih.2 (fun k hk => hall k (List.mem_cons_of_mem _ hk)) hfuel

theorem publishChannelScan_isSome (P : Params F) (C : PublishParams F) (st : Decoder F)
    (fuel : Nat) :
    ((publishChannelScan P C st fuel).isSome = true →
      (st.sweep_data.scans st.layer_num.toNat).points.length ≤ 1 ∨
        ∀ j, j < 32 → (st.sweep_data.scans j).points.length ≤ 65535) ∧
    (((st.sweep_data.scans st.layer_num.toNat).points.length ≤ 1 ∨
        ∀ j, j < 32 → (st.sweep_data.scans j).points.length ≤ 65535) → 65536 ≤ fuel →
      (publishChannelScan P C st fuel).isSome = true) := by
  unfold publishChannelScan
  simp only []
  by_cases h1 : (st.sweep_data.scans st.layer_num.toNat).points.length ≤ 1
  · rw [if_pos h1]
    exact ⟨fun _ => Or.inl h1, fun _ _ => rfl⟩
  · rw [if_neg h1]
    constructor
    · intro h
      exact Or.inr (fun j hj => (channelLoop_isSome P C st fuel _).1 h j (List.mem_range.2 hj))
    · intro h hfuel
      rcases h with h | h
      · exact absurd h h1
      · exact (channelLoop_isSome P C st fuel _).2
          (fun j hj => h j (List.mem_range.1 hj)) hfuel

/-- The calls that follow the publication of a sweep return exactly when every
binning loop they run is over at most 65535 points: the loop of the selected
beam for `publishScan`; for `publishChannelScan`, which returns at once when the
selected beam holds at most one point, the loops of all 32 beams. -/
theorem publishCallsReturn_lengths (P : Params F) (st : Decoder F) :
    publishCallsReturn P st = true ↔
      if P.publish.publish_channels = true then
        (st.sweep_data.scans st.layer_num.toNat).points.length ≤ 1 ∨
          ∀ j, j < 32 → (st.sweep_data.scans j).points.length ≤ 65535
      else (st.sweep_data.scans st.layer_num.toNat).points.length ≤ 65535 := by
  unfold publishCallsReturn publishCalls
  cases hc : P.publish.publish_channels with
  | true =>
    simp only [if_true, isSome_map]
    exact ⟨(publishChannelScan_isSome P _ st 65536).1,
      fun h => (publishChannelScan_isSome P _ st 65536).2 h (le_refl _)⟩
  | false =>
    simp only [Bool.false_eq_true, if_false, isSome_map]
    exact ⟨(publishScan_isSome P _ st 65536).1,
      fun h => (publishScan_isSome P _ st 65536).2 h (le_refl _)⟩

/-- The bound on the binning loops in `publishCallsReturn` loses nothing: the
calls are found to return exactly when some number of steps lets them return. -/
theorem publishCallsReturn_iff (P : Params F) (st : Decoder F) :
    publishCallsReturn P st = true ↔
      ∃ fuel,
        if P.publish.publish_channels = true then
          (publishChannelScan P P.publish st fuel).isSome = true
        else (publishScan P P.publish st fuel).isSome = true := by
  rw [publishCallsReturn_lengths]
  cases hc : P.publish.publish_channels with
  | true =>
    simp only [if_true]
    constructor
    · intro h
      exact ⟨65536, (publishChannelScan_isSome P _ st 65536).2 h (le_refl _)⟩
    · intro h
      obtain ⟨fuel, hf⟩ := h
      exact (publishChannelScan_isSome P _ st fuel).1 hf
  | false =>
    simp only [Bool.false_eq_true, if_false]
    constructor
    · intro h
      exact ⟨65536, (publishScan_isSome P _ st 65536).2 h (le_refl _)⟩
    · intro h
      obtain ⟨fuel, hf⟩ := h
      exact (publishScan_isSome P _ st fuel).1 hf

theorem publishCallsReturn_of_short (P : Params F) (st : Decoder F)
    (h : ∀ b, (st.sweep_data.scans b).points.length ≤ 65535) :
    publishCallsReturn P st = true := by
  rw [publishCallsReturn_lengths]
  split_ifs
  · exact Or.inr (fun j _ => h j)
  · exact h _

theorem bigDecoder_length :
    ((bigDecoder.sweep_data.scans bigDecoder.layer_num.toNat).points).length = 65536 :=
  List.length_replicate _ _

/-- C11, the code at a failing input: the selected beam 8 of `bigDecoder` holds
65536 points and `point_num` is 4; the 16-bit counter of the binning loop wraps
before it reaches the number of points, so whatever the number of steps allowed,
`publishScan` has not returned and no ranges array is published. -/
theorem publishScan_loops_forever_on_65536_points (fuel : Nat) :
    bigDecoder.layer_num = 8 ∧
    ((bigDecoder.sweep_data.scans 8).points).length = 65536 ∧
    (1 : Int) ≤ maskParams.point_num ∧
    publishScan demoParams maskParams bigDecoder fuel = none :=
  ⟨rfl, List.length_replicate _ _, by decide,
   publishScan_never_returns demoParams maskParams bigDecoder fuel
     (by rw [bigDecoder_length])⟩

theorem scanDecoder_slots :
    scanSlot demoParams maskParams (demoPoint 5 5) = 0 ∧
    scanSlot demoParams maskParams (demoPoint 0 6) = 3 := by
  constructor
  · norm_num [scanSlot, pointIdx, truncToInt, angle_base, demoParams, maskParams, demoPoint]
  · norm_num [scanSlot, pointIdx, truncToInt, angle_base, demoParams, maskParams, demoPoint]
    rfl

theorem scanDecoder_binned :
    (binLoop demoParams maskParams (scanDecoder.sweep_data.scans 8).points 3 0
      (emptyScan demoParams maskParams scanDecoder)).map (fun s => s.ranges) =
      some [5, ⊤, ⊤, 6] := by
  rw [binLoop_ends demoParams maskParams _ (by decide) 3 0 _ (Nat.zero_le _) (by decide)]
  rw [Option.map_some', List.drop_zero, binPoint_fold_ranges]
  show some (List.foldl _ _ [demoPoint 5 5, demoPoint 0 6]) = _
  simp only [List.foldl_cons, List.foldl_nil, scanDecoder_slots.1, scanDecoder_slots.2]
  simp [emptyScan, maskParams, demoPoint, List.replicate]

theorem maskParams_maskPass :
    maskPass maskParams [5, ⊤, ⊤, 6] = [⊤, ⊤, ⊤, 6] := by
  unfold maskPass
  have hr : (List.range maskParams.point_num.toNat).reverse = [3, 2, 1, 0] := by decide
  rw [hr]
  simp only [List.foldl_cons, List.foldl_nil]
  norm_num [maskParams]

/-- C12 as stated fails: with `angle_disable_min = -1 < 0`, `angle_disable_max =
180` and 4 bins, the binning pass of beam 8 of `scanDecoder` writes the distance
5 to bin 0, and the masking pass resets that bin to `+∞`. -/
theorem mask_applies_with_negative_min :
    maskParams.angle_disable_min < 0 ∧
    (binLoop demoParams maskParams (scanDecoder.sweep_data.scans 8).points 3 0
      (emptyScan demoParams maskParams scanDecoder)).map (fun s => s.ranges) =
      some [5, ⊤, ⊤, 6] ∧
    maskPass maskParams [5, ⊤, ⊤, 6] = [⊤, ⊤, ⊤, 6] ∧
    (maskPass maskParams [5, ⊤, ⊤, 6])[0]? ≠ ([5, ⊤, ⊤, 6] : List (WithTop ℚ))[0]? := by
  refine ⟨by norm_num [maskParams], scanDecoder_binned, maskParams_maskPass, ?_⟩
  rw [maskParams_maskPass]
  simp

/-- C12, amended: if `angle_disable_max < 0` (in particular when both bounds are
negative, the default) the angle mask is disabled: the masking pass of
`publishScan` and `publishChannelScan` returns the ranges exactly as the binning
pass left them, so every scan they build has the binned ranges.  (A negative
`angle_disable_min` alone does not disable the mask.) -/
theorem mask_disabled_when_max_negative (P : Params F) (C : PublishParams F)
    (hmax : C.angle_disable_max < 0) :
    (∀ ranges : List (WithTop F), maskPass C ranges = ranges) ∧
    (∀ (st : Decoder F) (beam fuel : Nat),
      (buildScan P C st beam fuel).map (fun s => s.ranges) =
        (binLoop P C (st.sweep_data.scans beam).points fuel 0 (emptyScan P C st)).map
          (fun s => s.ranges)) := by
  refine ⟨maskPass_of_max_neg C hmax, ?_⟩
  intro st beam fuel
  unfold buildScan
  cases binLoop P C (st.sweep_data.scans beam).points fuel 0 (emptyScan P C st) with
  | none => rfl
  | some s =>
    simp only [Option.map_some']
    rw [maskPass_of_max_neg C hmax]

/-- C12, amended, at a concrete input: with both bounds `-1` and 4 bins the
ranges `[5, +∞, +∞, 6]` pass the mask unchanged. -/
theorem mask_disabled_when_max_negative_witness :
    noMaskParams.angle_disable_max < 0 ∧
    maskPass noMaskParams [5, ⊤, ⊤, 6] = [5, ⊤, ⊤, 6] :=
  ⟨by norm_num [noMaskParams, maskParams],
   (mask_disabled_when_max_negative demoParams noMaskParams
     (by norm_num [noMaskParams, maskParams])).1 _⟩

/-- C19 at a concrete input: in `scanDecoder` beam 0 holds three points, beam 8
two and the other beams none; the cloud holds the middle point of beam 0 only,
and its width is 1. -/
theorem publishPointCloud_skips_scan_ends_witness :
    (publishPointCloud maskParams scanDecoder).width = 1 ∧
    (publishPointCloud maskParams scanDecoder).points.length = 1 ∧
    (publishPointCloud maskParams scanDecoder).points.map
        (fun v => (v.x, v.y, v.z, v.intensity, v.range, v.h_angle)) =
      [(0, 0, 0, 0, 2, 2)] := by
  have h := publishPointCloud_skips_scan_ends maskParams scanDecoder
  have hw : (publishPointCloud maskParams scanDecoder).width = 1 := by
    rw [h.2.2.2.1]
    decide
  refine ⟨hw, ?_, ?_⟩
  · rw [← h.2.2.1, hw]
  · rw [h.2.1]
    rfl

/-! ### Runs that publish sweeps -/

theorem appendFirings_empty (P : Params F) (firings : Nat → Firing F) (t : F)
    (sub lo : Nat) (sw : LslidarC32Sweep F) :
    appendFirings P firings t sub lo lo sw = sw := by
  simp [appendFirings]

theorem sweepPoints_cons (P : Params F) (firings : Nat → Firing F) (t : F)
    (sub lo hi b : Nat) (h : lo < hi) :
    sweepPoints P firings t sub lo hi b =
      firingPoints P (firings lo) t (lo - sub) b ++
        sweepPoints P firings t sub (lo + 1) hi b := by
  unfold sweepPoints
  rw [show hi - lo = (hi - (lo + 1)) + 1 from by omega, List.range'_succ, List.flatMap_cons]

/-- A call whose sweep in flight is short enough returns: the publications run
their binning loops over at most 65535 points. -/
theorem packetCallback_returns_of_short (P : Params F) (st : Decoder F)
    (msg : LslidarC32Packet F)
    (h : ∀ b, (st.sweep_data.scans b).points.length + FIRINGS_PER_PACKET ≤ 65535) :
    (packetCallback P st msg).returns = true := by
  by_cases hc : checkPacketValidity P msg.data = false ∨ st.is_first_sweep = true ∨
      newSweepStart P st msg = FIRINGS_PER_PACKET
  · exact packetCallback_returns P st msg hc
  · push_neg at hc
    obtain ⟨hv, hf, hs⟩ := hc
    rw [(packetCallback_steady_published P st msg (by simpa using hv) (by simpa using hf)
      hs).2]
    apply publishCallsReturn_of_short
    intro b
    have h1 := atPublish_length_le P st msg b
    have h2 := newSweepStart_le P st msg
    have h3 := h b
    omega

/-- A steady-state packet whose firing 0 jumps: the in-flight sweep is published
as it is and, when the call returns, the whole packet starts the new sweep. -/
theorem packetCallback_steady_zero (P : Params F) (st : Decoder F) (msg : LslidarC32Packet F)
    (hv : checkPacketValidity P msg.data = true) (hf : st.is_first_sweep = false)
    (hj : |rawAzimuthToDouble P (msg.data.blocks 0).rotation - st.last_azimuth| > P.M_PI) :
    (packetCallback P st msg).2 =
      [{ st.sweep_data with header := { frame_id := "sweep", stamp := st.sweep_start_time } }] ∧
    ((packetCallback P st msg).returns = true →
      (packetCallback P st msg).1.sweep_data =
        appendFirings P (decodePacket P msg.data st.firings) 0 0 0 FIRINGS_PER_PACKET
          LslidarC32Sweep.fresh ∧
      (packetCallback P st msg).1.is_first_sweep = false ∧
      (packetCallback P st msg).1.last_azimuth =
        rawAzimuthToDouble P (msg.data.blocks 23).rotation ∧
      (packetCallback P st msg).1.firings = decodePacket P msg.data st.firings) := by
  have hs : newSweepStart P st msg = 0 := by
    unfold newSweepStart
    rw [sweepScan_zero_of_jump P st msg hj]
  have hne : newSweepStart P st msg ≠ FIRINGS_PER_PACKET := by rw [hs]; decide
  constructor
  · rw [(packetCallback_steady_published P st msg hv hf hne).1, hs, appendFirings_empty]
  · intro hret
    rw [(packetCallback_steady_published P st msg hv hf hne).2] at hret
    rw [packetCallback_steady_boundary P st msg hv hf hne hret, hs]
    refine ⟨rfl, rfl, ?_, rfl⟩
    exact decodePacket_firing_azimuth P msg.data st.firings 23 (by decide)

/-- A first-sweep packet whose firing 0 jumps: nothing is published, the whole
packet is appended and `last_azimuth` keeps its entry value. -/
theorem packetCallback_first_zero (P : Params F) (st : Decoder F) (msg : LslidarC32Packet F)
    (hv : checkPacketValidity P msg.data = true) (hf : st.is_first_sweep = true)
    (hj : |rawAzimuthToDouble P (msg.data.blocks 0).rotation - st.last_azimuth| > P.M_PI) :
    (packetCallback P st msg).2 = [] ∧
    (packetCallback P st msg).1.sweep_data =
      appendFirings P (decodePacket P msg.data st.firings) st.packet_start_time 0 0
        FIRINGS_PER_PACKET st.sweep_data ∧
    (packetCallback P st msg).1.is_first_sweep = false ∧
    (packetCallback P st msg).1.last_azimuth = st.last_azimuth := by
  have hscan := sweepScan_zero_of_jump P st msg hj
  have hs : newSweepStart P st msg = 0 := by
    unfold newSweepStart
    rw [hscan]
  have hne : newSweepStart P st msg ≠ FIRINGS_PER_PACKET := by rw [hs]; decide
  rw [packetCallback_first_boundary P st msg hv hf hne, hs, hscan]
  exact ⟨rfl, rfl, rfl, rfl⟩

/-- The start-up decoder after the packet `lateWrapMsg`. -/
theorem lateWrapMsg_step :
    (packetCallback demoParams demoDecoder lateWrapMsg).2 = [] ∧
    (packetCallback demoParams demoDecoder lateWrapMsg).1.sweep_data =
      appendFirings demoParams (decodePacket demoParams lateWrapMsg.data demoDecoder.firings)
        0 0 2 FIRINGS_PER_PACKET demoDecoder.sweep_data ∧
    (packetCallback demoParams demoDecoder lateWrapMsg).1.is_first_sweep = false ∧
    (packetCallback demoParams demoDecoder lateWrapMsg).1.last_azimuth =
      rawAzimuthToDouble demoParams 1000 := by
  have hne : newSweepStart demoParams demoDecoder lateWrapMsg ≠ FIRINGS_PER_PACKET := by
    rw [lateWrapMsg_newSweepStart]; decide
  rw [packetCallback_first_boundary demoParams demoDecoder lateWrapMsg (by decide) rfl hne,
    lateWrapMsg_sweepScan, lateWrapMsg_newSweepStart]
  exact ⟨rfl, rfl, rfl, rfl⟩

theorem lateWrapMsg_in_range :
    isPointInRange demoParams
      ((decodePacket demoParams lateWrapMsg.data demoDecoder.firings 2).distance 0) = true := by
  rw [(decodePacket_samples_aux demoParams lateWrapMsg.data demoDecoder.firings 2 0
    (by decide) (by decide)).1,
    show (lateWrapMsg.data.blocks (2 / FIRINGS_PER_BLOCK)).data
      (RAW_SCAN_SIZE * (SCANS_PER_FIRING * (2 % FIRINGS_PER_BLOCK) + 0)) = 1 from by decide,
    show (lateWrapMsg.data.blocks (2 / FIRINGS_PER_BLOCK)).data
      (RAW_SCAN_SIZE * (SCANS_PER_FIRING * (2 % FIRINGS_PER_BLOCK) + 0) + 1) = 1
      from by decide]
  norm_num [isPointInRange, demoParams]

/-- C16, the code at a failing input: the start-up decoder gets `lateWrapMsg`
(first-sweep boundary at firing 2) and then `wrapMsg`, which publishes the sweep.
The first point of beam 0 in that sweep comes from firing 2, channel 0, the first
firing appended to the sweep, so no firing precedes it in the sweep; its time is
`FIRING_TOFFSET·2 = 32`, not `FIRING_TOFFSET·0 + DSR_TOFFSET·0 = 0`. -/
theorem first_sweep_times_count_from_packet_start :
    ∃ sw rest,
      (run demoParams demoDecoder [lateWrapMsg, wrapMsg]).2 = [sw] ∧
      (demoDecoder.sweep_data.scans 0).points = [] ∧
      (sw.scans 0).points =
        makePoint demoParams (decodePacket demoParams lateWrapMsg.data demoDecoder.firings 2)
          0 2 0 :: rest ∧
      (makePoint demoParams (decodePacket demoParams lateWrapMsg.data demoDecoder.firings 2)
          0 2 0).time = 32 ∧
      (32 : ℚ) ≠ demoParams.FIRING_TOFFSET * 0 + demoParams.DSR_TOFFSET * 0 := by
  obtain ⟨h1, h2, h3, h4⟩ := lateWrapMsg_step
  have hj : |rawAzimuthToDouble demoParams (wrapMsg.data.blocks 0).rotation -
      (packetCallback demoParams demoDecoder lateWrapMsg).1.last_azimuth| >
      demoParams.M_PI := by
    rw [h4, show (wrapMsg.data.blocks 0).rotation = 30000 from by decide]
    norm_num [rawAzimuthToDouble, DEG_TO_RAD, demoParams]
    rw [lt_abs]
    left
    norm_num
  obtain ⟨g1, _⟩ := packetCallback_steady_zero demoParams
    (packetCallback demoParams demoDecoder lateWrapMsg).1 wrapMsg (by decide) h3 hj
  have hpts : ((packetCallback demoParams demoDecoder lateWrapMsg).1.sweep_data.scans 0).points =
      makePoint demoParams (decodePacket demoParams lateWrapMsg.data demoDecoder.firings 2)
          0 2 0 ::
        sweepPoints demoParams (decodePacket demoParams lateWrapMsg.data demoDecoder.firings)
          0 0 3 FIRINGS_PER_PACKET 0 := by
    have hinit : (demoDecoder.sweep_data.scans 0).points = [] :=
      init_points demoParams 8 _ 0
    rw [h2, appendFirings_points, hinit, List.nil_append,
      sweepPoints_cons _ _ _ _ 2 _ _ (by decide)]
    have hfp := firingPoints_remap demoParams
      (decodePacket demoParams lateWrapMsg.data demoDecoder.firings 2) 0 (2 - 0) 0 (by decide)
    rw [if_pos lateWrapMsg_in_range] at hfp
    have hfp2 : firingPoints demoParams
        (decodePacket demoParams lateWrapMsg.data demoDecoder.firings 2) 0 (2 - 0) 0 =
        [makePoint demoParams
          (decodePacket demoParams lateWrapMsg.data demoDecoder.firings 2) 0 2 0] := hfp
    rw [hfp2]
    rfl
  refine ⟨{ header :=
              { stamp := (packetCallback demoParams demoDecoder lateWrapMsg).1.sweep_start_time,
                frame_id := "sweep" },
            scans := (packetCallback demoParams demoDecoder lateWrapMsg).1.sweep_data.scans },
    sweepPoints demoParams (decodePacket demoParams lateWrapMsg.data demoDecoder.firings)
      0 0 3 FIRINGS_PER_PACKET 0,
    ?_, init_points demoParams 8 _ 0, hpts, ?_, by norm_num [demoParams]⟩
  · rw [run_cons _ _ _ _ (packetCallback_returns _ _ _ (Or.inr (Or.inl rfl))), run_single]
    show (packetCallback demoParams demoDecoder lateWrapMsg).2 ++
      (packetCallback demoParams (packetCallback demoParams demoDecoder lateWrapMsg).1
        wrapMsg).2 = _
    rw [h1, g1]
    rfl
  · norm_num [makePoint, demoParams]

/-! ### The packet that holds a revolution boundary -/

/-- In steady state (`is_first_sweep = false`), a valid packet whose new-sweep
index `s` is below `FIRINGS_PER_PACKET` makes `packetCallback` publish exactly one
sweep; each beam's scan in it is the beam's in-flight scan from before the packet
followed by the points of the in-range samples of the firings `[0, s)` in firing
order.  The call returns exactly when the publications made from that sweep do,
and when it returns the new in-flight sweep holds exactly the points of the
in-range samples of the firings `[s, FIRINGS_PER_PACKET)`. -/
theorem packetCallback_boundary_split (P : Params F) (st : Decoder F)
    (msg : LslidarC32Packet F) (hfirst : st.is_first_sweep = false)
    (hvalid : checkPacketValidity P msg.data = true)
    (hs : newSweepStart P st msg < FIRINGS_PER_PACKET) :
    (∃ sw, (packetCallback P st msg).2 = [sw] ∧
      ∀ b, (sw.scans b).points =
        (st.sweep_data.scans b).points ++
          sweepPoints P (decodePacket P msg.data st.firings) st.packet_start_time 0
            0 (newSweepStart P st msg) b) ∧
    (packetCallback P st msg).returns = publishCallsReturn P (atPublish P st msg) ∧
    ((packetCallback P st msg).returns = true →
      ∀ b, ((packetCallback P st msg).1.sweep_data.scans b).points =
        sweepPoints P (decodePacket P msg.data st.firings) 0 (newSweepStart P st msg)
          (newSweepStart P st msg) FIRINGS_PER_PACKET b) := by
  have hne : newSweepStart P st msg ≠ FIRINGS_PER_PACKET := by omega
  obtain ⟨h1, h2⟩ := packetCallback_steady_published P st msg hvalid hfirst hne
  refine ⟨⟨_, h1, ?_⟩, h2, ?_⟩
  · intro b
    exact appendFirings_points P _ _ 0 0 _ st.sweep_data b
  · intro hret b
    rw [h2] at hret
    rw [packetCallback_steady_boundary P st msg hvalid hfirst hne hret]
    have h := appendFirings_points P (decodePacket P msg.data st.firings) 0
      (newSweepStart P st msg) (newSweepStart P st msg) FIRINGS_PER_PACKET
      LslidarC32Sweep.fresh b
    simpa [LslidarC32Sweep.fresh] using h

/-- The boundary case at a concrete input: the steady-state decoder `busyDecoder`,
whose in-flight sweep holds points, gets `lateWrapMsg` with new-sweep index 2.
The call returns; the published sweep holds, on beam 8, the two points in flight
followed by the points of the firings 0 and 1, and the new in-flight sweep holds
the points of the firings `[2, 24)`. -/
theorem packetCallback_boundary_split_example :
    busyDecoder.is_first_sweep = false ∧
    checkPacketValidity demoParams lateWrapMsg.data = true ∧
    newSweepStart demoParams busyDecoder lateWrapMsg = 2 ∧
    (packetCallback demoParams busyDecoder lateWrapMsg).returns = true ∧
    (∃ sw, (packetCallback demoParams busyDecoder lateWrapMsg).sweeps = [sw] ∧
      (sw.scans 8).points =
        [demoPoint 5 5, demoPoint 0 6] ++
          sweepPoints demoParams (decodePacket demoParams lateWrapMsg.data busyDecoder.firings)
            busyDecoder.packet_start_time 0 0 2 8) ∧
    (∀ b, ((packetCallback demoParams busyDecoder lateWrapMsg).state.sweep_data.scans
        b).points =
      sweepPoints demoParams (decodePacket demoParams lateWrapMsg.data busyDecoder.firings)
        0 2 2 FIRINGS_PER_PACKET b) := by
  have hs : newSweepStart demoParams busyDecoder lateWrapMsg = 2 := lateWrapMsg_newSweepStart
  have hret : (packetCallback demoParams busyDecoder lateWrapMsg).returns = true := by
    apply packetCallback_returns_of_short
    intro b
    have h : (busyDecoder.sweep_data.scans b).points =
        if b = 8 then [demoPoint 5 5, demoPoint 0 6]
        else if b = 0 then [demoPoint 1 1, demoPoint 2 2, demoPoint 3 3] else [] := rfl
    rw [h, show FIRINGS_PER_PACKET = 24 from rfl]
    split_ifs
    all_goals simp
  obtain ⟨⟨sw, h1, h2⟩, _, h3⟩ := packetCallback_boundary_split demoParams busyDecoder
    lateWrapMsg rfl (by decide) (by rw [hs]; decide)
  rw [hs] at h2 h3
  exact ⟨rfl, by decide, hs, hret, ⟨sw, h1, h2 8⟩, h3 hret⟩

/-! ### A sweep that grows until its publication cannot return -/

theorem run_append (P : Params F) (xs ys : List (LslidarC32Packet F)) :
    ∀ st : Decoder F, (run P st xs).returns = true →
      run P st (xs ++ ys) =
        { state := (run P (run P st xs).state ys).state,
          sweeps := (run P st xs).sweeps ++ (run P (run P st xs).state ys).sweeps,
          returns := (run P (run P st xs).state ys).returns } := by
  induction xs with
  | nil =>
    intro st _
    rw [run_nil, List.nil_append]
    rfl
  | cons m xs ih =>
    intro st h
    cases hr : (packetCallback P st m).returns with
    | false =>
      rw [run_cons_stuck P st m xs hr, hr] at h
      exact (Bool.false_ne_true h).elim
    | true =>
      rw [run_cons P st m xs hr] at h
      rw [List.cons_append, run_cons P st m (xs ++ ys) hr, run_cons P st m xs hr, ih _ h]
      simp only [List.append_assoc]

/-- The three components of a run whose first call returns. -/
theorem run_cons_parts (P : Params F) (st : Decoder F) (msg : LslidarC32Packet F)
    (rest : List (LslidarC32Packet F)) (h : (packetCallback P st msg).returns = true) :
    (run P st (msg :: rest)).returns = (run P (packetCallback P st msg).state rest).returns ∧
    (run P st (msg :: rest)).sweeps =
      (packetCallback P st msg).sweeps ++ (run P (packetCallback P st msg).state rest).sweeps ∧
    (run P st (msg :: rest)).state = (run P (packetCallback P st msg).state rest).state := by
  rw [run_cons P st msg rest h]
  exact ⟨rfl, rfl, rfl⟩

/-- The components of a run continued after a part that returns. -/
theorem run_append_parts (P : Params F) (xs ys : List (LslidarC32Packet F)) (st : Decoder F)
    (h : (run P st xs).returns = true) :
    (run P st (xs ++ ys)).returns = (run P (run P st xs).state ys).returns ∧
    (run P st (xs ++ ys)).sweeps = (run P st xs).sweeps ++ (run P (run P st xs).state ys).sweeps ∧
    (run P st (xs ++ ys)).state = (run P (run P st xs).state ys).state := by
  rw [run_append P xs ys st h]
  exact ⟨rfl, rfl, rfl⟩

/-- In steady state a valid packet without a jump, whose last firing is at the
azimuth `a` the decoder has in `last_azimuth`, and whose firing 0 has an in-range
sample on channel `c`: received `n` times in a row, every call returns, nothing is
published, the decoder is in steady state with `last_azimuth = a` again, and the
beam of channel `c` has grown by at least `n` points. -/
theorem run_replicate_grows (P : Params F) (msg : LslidarC32Packet F) (a : F) (c : Nat)
    (hc : c < 32) (hv : checkPacketValidity P msg.data = true)
    (hchain : List.Chain (fun x y => |y - x| ≤ P.M_PI) a (firingAzimuths P msg.data))
    (hlast : rawAzimuthToDouble P (msg.data.blocks 23).rotation = a)
    (hin : ∀ fs, isPointInRange P ((decodePacket P msg.data fs 0).distance c) = true) :
    ∀ (n : Nat) (st : Decoder F), st.is_first_sweep = false → st.last_azimuth = a →
      (run P st (List.replicate n msg)).returns = true ∧
      (run P st (List.replicate n msg)).sweeps = [] ∧
      (run P st (List.replicate n msg)).state.is_first_sweep = false ∧
      (run P st (List.replicate n msg)).state.last_azimuth = a ∧
      (run P st (List.replicate n msg)).state.layer_num = st.layer_num ∧
      (st.sweep_data.scans (remap c)).points.length + n ≤
        ((run P st (List.replicate n msg)).state.sweep_data.scans (remap c)).points.length := by
  intro n
  induction n with
  | zero =>
    intro st hf ha
    rw [List.replicate_zero, run_nil]
    exact ⟨rfl, rfl, hf, ha, rfl, Nat.le_refl _⟩
  | succ n ih =>
    intro st hf ha
    have hscan := sweepScan_of_chain P st msg (by rw [ha]; exact hchain)
    have hs : newSweepStart P st msg = FIRINGS_PER_PACKET := by
      unfold newSweepStart
      rw [hscan]
    have hstep := packetCallback_steady_append P st msg hv hf hs
    have hret : (packetCallback P st msg).returns = true := by rw [hstep]
    have hf1 : (packetCallback P st msg).state.is_first_sweep = false := by rw [hstep]
    have ha1 : (packetCallback P st msg).state.last_azimuth = a := by
      rw [hstep]
      show (sweepScan P (decodePacket P msg.data st.firings) FIRINGS_PER_PACKET 0
        st.last_azimuth).2 = a
      rw [hscan]
      exact hlast
    have hl1 : (packetCallback P st msg).state.layer_num = st.layer_num := by rw [hstep]
    have hlen : (st.sweep_data.scans (remap c)).points.length + 1 ≤
        ((packetCallback P st msg).state.sweep_data.scans (remap c)).points.length := by
      rw [hstep]
      show (st.sweep_data.scans (remap c)).points.length + 1 ≤
        ((appendFirings P (decodePacket P msg.data st.firings) st.packet_start_time 0 0
          FIRINGS_PER_PACKET st.sweep_data).scans (remap c)).points.length
      rw [appendFirings_points, List.length_append,
        sweepPoints_cons P _ _ 0 0 FIRINGS_PER_PACKET (remap c) (by decide),
        firingPoints_remap P _ _ _ c hc, if_pos (hin st.firings), List.length_append]
      simp only [List.length_cons, List.length_nil]
      omega
    obtain ⟨i1, i2, i3, i4, i5, i6⟩ := ih (packetCallback P st msg).state hf1 ha1
    rw [List.replicate_succ, run_cons P st msg _ hret]
    refine ⟨i1, ?_, i3, i4, ?_, ?_⟩
    · show (packetCallback P st msg).sweeps ++ _ = []
      rw [i2, hstep]
      rfl
    · show (run P (packetCallback P st msg).state (List.replicate n msg)).state.layer_num =
        st.layer_num
      rw [i5, hl1]
    · show (st.sweep_data.scans (remap c)).points.length + (n + 1) ≤
        ((run P (packetCallback P st msg).state (List.replicate n msg)).state.sweep_data.scans
          (remap c)).points.length
      omega

theorem demoMsg_in_range (fs : Nat → Firing ℚ) :
    isPointInRange demoParams ((decodePacket demoParams demoMsg.data fs 0).distance 16) =
      true := by
  rw [(decodePacket_samples_aux demoParams demoMsg.data fs 0 16 (by decide) (by decide)).1,
    show (demoMsg.data.blocks (0 / FIRINGS_PER_BLOCK)).data
      (RAW_SCAN_SIZE * (SCANS_PER_FIRING * (0 % FIRINGS_PER_BLOCK) + 16)) = 1 from by decide,
    show (demoMsg.data.blocks (0 / FIRINGS_PER_BLOCK)).data
      (RAW_SCAN_SIZE * (SCANS_PER_FIRING * (0 % FIRINGS_PER_BLOCK) + 16) + 1) = 1
      from by decide]
  norm_num [isPointInRange, demoParams]

/-- The boundary test on `lateWrapMsg` from `last_azimuth = 0`, whatever the
firings array held before: the firings 0 and 1 pass and firing 2 jumps. -/
theorem lateWrapMsg_sweepScan_from_zero (fs : Nat → Firing ℚ) :
    sweepScan demoParams (decodePacket demoParams lateWrapMsg.data fs)
      FIRINGS_PER_PACKET 0 0 = (2, rawAzimuthToDouble demoParams 1000) := by
  have a0 : (decodePacket demoParams lateWrapMsg.data fs 0).firing_azimuth =
      rawAzimuthToDouble demoParams 1000 := by
    rw [decodePacket_firing_azimuth _ _ _ 0 (by decide),
      show (lateWrapMsg.data.blocks 0).rotation = 1000 from by decide]
  have a1 : (decodePacket demoParams lateWrapMsg.data fs 1).firing_azimuth =
      rawAzimuthToDouble demoParams 1000 := by
    rw [decodePacket_firing_azimuth _ _ _ 1 (by decide),
      show (lateWrapMsg.data.blocks 1).rotation = 1000 from by decide]
  have a2 : (decodePacket demoParams lateWrapMsg.data fs 2).firing_azimuth =
      rawAzimuthToDouble demoParams 30000 := by
    rw [decodePacket_firing_azimuth _ _ _ 2 (by decide),
      show (lateWrapMsg.data.blocks 2).rotation = 30000 from by decide]
  have h0 : |(decodePacket demoParams lateWrapMsg.data fs 0).firing_azimuth - 0| ≤
      demoParams.M_PI := by
    rw [a0]
    norm_num [rawAzimuthToDouble, DEG_TO_RAD, demoParams, abs_le]
  have h1 : |(decodePacket demoParams lateWrapMsg.data fs 1).firing_azimuth -
      (decodePacket demoParams lateWrapMsg.data fs 0).firing_azimuth| ≤ demoParams.M_PI := by
    rw [a0, a1]
    norm_num [demoParams]
  have h2 : |(decodePacket demoParams lateWrapMsg.data fs 2).firing_azimuth -
      (decodePacket demoParams lateWrapMsg.data fs 1).firing_azimuth| > demoParams.M_PI := by
    rw [a1, a2]
    norm_num [rawAzimuthToDouble, DEG_TO_RAD, demoParams]
    rw [lt_abs]
    left
    norm_num
  rw [show FIRINGS_PER_PACKET = 21 + 1 + 1 + 1 from rfl,
    sweepScan_step _ _ _ _ _ h0 (by decide), sweepScan_step _ _ _ _ _ h1 (by decide),
    sweepScan_break _ _ _ _ _ h2, a1]

theorem newSweepStart_lateWrapMsg (st : Decoder ℚ) (msg : LslidarC32Packet ℚ)
    (hd : msg.data = lateWrapMsg.data) (h0 : st.last_azimuth = 0) :
    newSweepStart demoParams st msg = 2 := by
  unfold newSweepStart
  rw [hd, h0, lateWrapMsg_sweepScan_from_zero]

/-- The start-up decoder after `wrapMsg`: the call returns, nothing is published,
the decoder is in steady state with `last_azimuth` at 0 and the selected beam 8,
and no beam holds more than 24 points. -/
theorem afterWrap_facts :
    (packetCallback demoParams demoDecoder wrapMsg).returns = true ∧
    (packetCallback demoParams demoDecoder wrapMsg).sweeps = [] ∧
    (packetCallback demoParams demoDecoder wrapMsg).state.is_first_sweep = false ∧
    (packetCallback demoParams demoDecoder wrapMsg).state.last_azimuth = 0 ∧
    (packetCallback demoParams demoDecoder wrapMsg).state.layer_num = 8 ∧
    (∀ b, ((packetCallback demoParams demoDecoder wrapMsg).state.sweep_data.scans
      b).points.length ≤ 24) := by
  have r1 : (packetCallback demoParams demoDecoder wrapMsg).returns = true :=
    packetCallback_returns _ _ _ (Or.inr (Or.inl rfl))
  have hj1 : |rawAzimuthToDouble demoParams (wrapMsg.data.blocks 0).rotation -
      demoDecoder.last_azimuth| > demoParams.M_PI := by
    rw [show (wrapMsg.data.blocks 0).rotation = 30000 from by decide]
    norm_num [rawAzimuthToDouble, DEG_TO_RAD, demoParams, demoDecoder, Decoder.init,
      Decoder.new]
    rw [lt_abs]
    left
    norm_num
  obtain ⟨a1, _, a3, a4⟩ := packetCallback_first_zero demoParams demoDecoder wrapMsg
    (by decide) rfl hj1
  have hne : newSweepStart demoParams demoDecoder wrapMsg ≠ FIRINGS_PER_PACKET := by
    rw [wrapMsg_newSweepStart]; decide
  have a5 : (packetCallback demoParams demoDecoder wrapMsg).state.layer_num = 8 := by
    rw [packetCallback_first_boundary demoParams demoDecoder wrapMsg (by decide) rfl hne]
    rfl
  refine ⟨r1, a1, a3, a4, a5, ?_⟩
  intro b
  have h1 := packetCallback_length_le demoParams demoDecoder wrapMsg b
  have h2 : (demoDecoder.sweep_data.scans b).points = [] := init_points demoParams 8 _ b
  rw [h2] at h1
  have h3 : FIRINGS_PER_PACKET = 24 := rfl
  rw [h3] at h1
  simp only [List.length_nil] at h1
  omega

/-- The start-up decoder after `wrapMsg` and 65536 times `demoMsg`, whose firings
never jump: every call has returned, nothing has been published, and the selected
beam 8 of the sweep in flight holds at least 65536 points. -/
theorem stalledRun_facts :
    (run demoParams demoDecoder (wrapMsg :: List.replicate 65536 demoMsg)).returns = true ∧
    (run demoParams demoDecoder (wrapMsg :: List.replicate 65536 demoMsg)).sweeps = [] ∧
    (run demoParams demoDecoder
      (wrapMsg :: List.replicate 65536 demoMsg)).state.is_first_sweep = false ∧
    (run demoParams demoDecoder
      (wrapMsg :: List.replicate 65536 demoMsg)).state.last_azimuth = 0 ∧
    (run demoParams demoDecoder
      (wrapMsg :: List.replicate 65536 demoMsg)).state.layer_num = 8 ∧
    65536 ≤ ((run demoParams demoDecoder
      (wrapMsg :: List.replicate 65536 demoMsg)).state.sweep_data.scans 8).points.length := by
  obtain ⟨r1, a1, a3, a4, a5, _⟩ := afterWrap_facts
  have hlast : rawAzimuthToDouble demoParams (demoMsg.data.blocks 23).rotation = 0 := by
    rw [show (demoMsg.data.blocks 23).rotation = 0 from by decide]
    norm_num [rawAzimuthToDouble]
  obtain ⟨g1, g2, g3, g4, g5, g6⟩ := run_replicate_grows demoParams demoMsg 0 16 (by decide)
    (by decide) demoMsg_chain hlast demoMsg_in_range 65536
    (packetCallback demoParams demoDecoder wrapMsg).state a3 a4
  rw [show remap 16 = 8 from by decide] at g6
  obtain ⟨c1, c2, c3⟩ := run_cons_parts demoParams demoDecoder wrapMsg
    (List.replicate 65536 demoMsg) r1
  rw [c1, c2, c3, a1, g2, g5]
  exact ⟨g1, rfl, g3, g4, a5, by omega⟩

/-- A steady-state decoder with `last_azimuth` at 0 and the selected beam 8 holding
at least 65536 points gets `lateWrapMsg`: the sweep is published, `publishScan`
does not return, and neither does `packetCallback`. -/
theorem lateWrapMsg_stuck (st : Decoder ℚ) (g3 : st.is_first_sweep = false)
    (g4 : st.last_azimuth = 0) (g5 : st.layer_num = 8)
    (g6 : 65536 ≤ ((st.sweep_data.scans 8).points).length) :
    (st.is_first_sweep = false ∧
      checkPacketValidity demoParams lateWrapMsg.data = true ∧
      newSweepStart demoParams st lateWrapMsg = 2 ∧
      st.layer_num = 8 ∧
      demoParams.publish.publish_channels = false ∧
      (packetCallback demoParams st lateWrapMsg).sweeps =
        [(atPublish demoParams st lateWrapMsg).sweep_data] ∧
      65536 ≤ (((atPublish demoParams st lateWrapMsg).sweep_data.scans 8).points).length ∧
      (∀ fuel, publishScan demoParams demoParams.publish
        (atPublish demoParams st lateWrapMsg) fuel = none) ∧
      (packetCallback demoParams st lateWrapMsg).returns = false ∧
      (packetCallback demoParams st lateWrapMsg).state = atPublish demoParams st lateWrapMsg ∧
      (packetCallback demoParams st lateWrapMsg).state.sweep_data =
        (atPublish demoParams st lateWrapMsg).sweep_data) ∧
    (run demoParams st [lateWrapMsg, demoMsg]).returns = false ∧
    (run demoParams st [lateWrapMsg, demoMsg]).sweeps.length = 1 := by
  have hs : newSweepStart demoParams st lateWrapMsg = 2 :=
    newSweepStart_lateWrapMsg st lateWrapMsg rfl g4
  have hne : newSweepStart demoParams st lateWrapMsg ≠ FIRINGS_PER_PACKET := by
    rw [hs]; decide
  have hlen : 65536 ≤
      (((atPublish demoParams st lateWrapMsg).sweep_data.scans 8).points).length := by
    have h2 : ((atPublish demoParams st lateWrapMsg).sweep_data.scans 8).points =
        (st.sweep_data.scans 8).points ++
          sweepPoints demoParams (decodePacket demoParams lateWrapMsg.data st.firings)
            st.packet_start_time 0 0 (newSweepStart demoParams st lateWrapMsg) 8 :=
      appendFirings_points demoParams
        (decodePacket demoParams lateWrapMsg.data st.firings) st.packet_start_time 0 0
        (newSweepStart demoParams st lateWrapMsg) st.sweep_data 8
    rw [h2, List.length_append]
    omega
  have h8 : (atPublish demoParams st lateWrapMsg).layer_num = 8 := g5
  have hlen8 : 65536 ≤ ((atPublish demoParams st lateWrapMsg).sweep_data.scans
      (atPublish demoParams st lateWrapMsg).layer_num.toNat).points.length := by
    rw [h8]
    exact hlen
  have hnone : ∀ fuel, publishScan demoParams demoParams.publish
      (atPublish demoParams st lateWrapMsg) fuel = none := by
    intro fuel
    exact publishScan_never_returns demoParams _ _ fuel hlen8
  have hret : publishCallsReturn demoParams (atPublish demoParams st lateWrapMsg) = false := by
    cases h : publishCallsReturn demoParams (atPublish demoParams st lateWrapMsg) with
    | false => rfl
    | true =>
      have h2 := (publishCallsReturn_lengths demoParams _).1 h
      rw [if_neg (by decide)] at h2
      omega
  have hstep := packetCallback_steady_stuck demoParams st lateWrapMsg (by decide) g3 hne hret
  have hrun : run demoParams st [lateWrapMsg, demoMsg] =
      packetCallback demoParams st lateWrapMsg :=
    run_cons_stuck _ _ _ _ (by rw [hstep])
  refine ⟨⟨g3, by decide, hs, g5, rfl, ?_, hlen, hnone, ?_, ?_, ?_⟩, ?_, ?_⟩
  · rw [hstep]
  · rw [hstep]
  · rw [hstep]
  · rw [hstep]
  · rw [hrun, hstep]
  · rw [hrun, hstep]
    rfl

/-- C3, the code at a failing input: the start-up decoder receives the valid
packets `wrapMsg`, which ends the first sweep, and 65536 times `demoMsg`, whose
firings never jump, so that the selected beam 8 of the sweep in flight holds at
least 65536 points; every call has returned.  Then it gets the valid packet
`lateWrapMsg`, whose new-sweep index is 2.  The sweep is handed to
`sweep_pub.publish`; then `publishScan` runs its binning loop over the points of
beam 8 with a 16-bit counter and has not returned after any number of steps.  So
`packetCallback` does not return: the members stay as they were at the
publication, the in-flight sweep is still the published one, no new sweep
receives the firings `[2, 24)`, and a later packet is never handled. -/
theorem packetCallback_never_starts_the_new_sweep :
    (run demoParams demoDecoder (wrapMsg :: List.replicate 65536 demoMsg)).returns = true ∧
    (∃ st : Decoder ℚ,
      st = (run demoParams demoDecoder (wrapMsg :: List.replicate 65536 demoMsg)).state ∧
      st.is_first_sweep = false ∧
      checkPacketValidity demoParams lateWrapMsg.data = true ∧
      newSweepStart demoParams st lateWrapMsg = 2 ∧
      st.layer_num = 8 ∧
      demoParams.publish.publish_channels = false ∧
      (packetCallback demoParams st lateWrapMsg).sweeps =
        [(atPublish demoParams st lateWrapMsg).sweep_data] ∧
      65536 ≤ (((atPublish demoParams st lateWrapMsg).sweep_data.scans 8).points).length ∧
      (∀ fuel, publishScan demoParams demoParams.publish
        (atPublish demoParams st lateWrapMsg) fuel = none) ∧
      (packetCallback demoParams st lateWrapMsg).returns = false ∧
      (packetCallback demoParams st lateWrapMsg).state = atPublish demoParams st lateWrapMsg ∧
      (packetCallback demoParams st lateWrapMsg).state.sweep_data =
        (atPublish demoParams st lateWrapMsg).sweep_data) ∧
    (run demoParams demoDecoder
      ((wrapMsg :: List.replicate 65536 demoMsg) ++ [lateWrapMsg, demoMsg])).returns = false ∧
    (run demoParams demoDecoder
      ((wrapMsg :: List.replicate 65536 demoMsg) ++ [lateWrapMsg, demoMsg])).sweeps.length =
      1 := by
  obtain ⟨g1, g2, g3, g4, g5, g6⟩ := stalledRun_facts
  obtain ⟨c1, c2, _⟩ := run_append_parts demoParams (wrapMsg :: List.replicate 65536 demoMsg)
    [lateWrapMsg, demoMsg] demoDecoder g1
  obtain ⟨h1, h2, h3⟩ := lateWrapMsg_stuck
    (run demoParams demoDecoder (wrapMsg :: List.replicate 65536 demoMsg)).state g3 g4 g5 g6
  have h4 : ((run demoParams demoDecoder (wrapMsg :: List.replicate 65536 demoMsg)).sweeps ++
      (run demoParams
        (run demoParams demoDecoder (wrapMsg :: List.replicate 65536 demoMsg)).state
        [lateWrapMsg, demoMsg]).sweeps).length = 1 := by
    rw [g2, List.nil_append]
    exact h3
  exact ⟨g1, ⟨_, rfl, h1⟩, c1.trans h2, (congrArg List.length c2).trans h4⟩

/-! ### The start time of a new sweep -/

/-- In steady state, a call that holds a boundary at firing index
`s < FIRINGS_PER_PACKET` and returns leaves `sweep_start_time` at
`T + FIRING_TOFFSET·s·10⁻⁶`, with `T` the time stamp of the packet. -/
theorem steady_boundary_sweep_start_time (P : Params F) (st : Decoder F)
    (msg : LslidarC32Packet F) (hfirst : st.is_first_sweep = false)
    (hvalid : checkPacketValidity P msg.data = true)
    (hs : newSweepStart P st msg < FIRINGS_PER_PACKET)
    (hret : (packetCallback P st msg).returns = true) :
    (packetCallback P st msg).1.sweep_start_time =
      msg.stamp + P.FIRING_TOFFSET * ((newSweepStart P st msg : Nat) : F) * (1 / 1000000) := by
  have hne : newSweepStart P st msg ≠ FIRINGS_PER_PACKET := by omega
  rw [(packetCallback_steady_published P st msg hvalid hfirst hne).2] at hret
  rw [packetCallback_steady_boundary P st msg hvalid hfirst hne hret]
  simp

/-- While `is_first_sweep` is set, a packet with a boundary at firing index `s`
leaves `sweep_start_time` at `T + FIRING_TOFFSET·(FIRINGS_PER_PACKET − s)·10⁻⁶`. -/
theorem first_boundary_sweep_start_time (P : Params F) (st : Decoder F)
    (msg : LslidarC32Packet F) (hfirst : st.is_first_sweep = true)
    (hvalid : checkPacketValidity P msg.data = true)
    (hs : newSweepStart P st msg < FIRINGS_PER_PACKET) :
    (packetCallback P st msg).1.sweep_start_time =
      msg.stamp + P.FIRING_TOFFSET *
        ((FIRINGS_PER_PACKET - newSweepStart P st msg : Nat) : F) * (1 / 1000000) := by
  have hne : newSweepStart P st msg ≠ FIRINGS_PER_PACKET := by omega
  rw [packetCallback_first_boundary P st msg hvalid hfirst hne]

/-- C15, the code at a failing input: the start-up decoder receives the valid
packet `wrapMsg`, which ends the first sweep, and then, at time 7 s, a valid
packet with its boundary at firing 2.  Both calls return, and the
`sweep_start_time` stored for the new sweep is `7 + FIRING_TOFFSET·2·10⁻⁶`,
counted from the firings before the boundary, not
`7 + FIRING_TOFFSET·(24 − 2)·10⁻⁶`.  The branch that clears `is_first_sweep`
evaluates the same expression after it has moved the two indices: on the same
packet the start-up decoder stores `7 + FIRING_TOFFSET·(24 − 2)·10⁻⁶`. -/
theorem steady_sweep_start_time_counts_the_firings_before_the_boundary :
    (run demoParams demoDecoder [wrapMsg]).returns = true ∧
    (∃ st : Decoder ℚ,
      st = (run demoParams demoDecoder [wrapMsg]).state ∧
      st.is_first_sweep = false ∧
      checkPacketValidity demoParams stampedLateWrapMsg.data = true ∧
      stampedLateWrapMsg.stamp = 7 ∧
      newSweepStart demoParams st stampedLateWrapMsg = 2 ∧
      (packetCallback demoParams st stampedLateWrapMsg).returns = true ∧
      (packetCallback demoParams st stampedLateWrapMsg).sweeps.length = 1 ∧
      (packetCallback demoParams st stampedLateWrapMsg).state.sweep_start_time =
        7 + demoParams.FIRING_TOFFSET * 2 * (1 / 1000000) ∧
      (packetCallback demoParams st stampedLateWrapMsg).state.sweep_start_time ≠
        7 + demoParams.FIRING_TOFFSET * ((FIRINGS_PER_PACKET - 2 : Nat) : ℚ) *
          (1 / 1000000)) ∧
    demoDecoder.is_first_sweep = true ∧
    newSweepStart demoParams demoDecoder stampedLateWrapMsg = 2 ∧
    (packetCallback demoParams demoDecoder stampedLateWrapMsg).state.sweep_start_time =
      7 + demoParams.FIRING_TOFFSET * ((FIRINGS_PER_PACKET - 2 : Nat) : ℚ) * (1 / 1000000) := by
  obtain ⟨r1, _, a3, a4, _, a6⟩ := afterWrap_facts
  rw [run_single]
  refine ⟨r1, ?_, rfl, lateWrapMsg_newSweepStart, ?_⟩
  · generalize (packetCallback demoParams demoDecoder wrapMsg).state = st at a3 a4 a6 ⊢
    have hs : newSweepStart demoParams st stampedLateWrapMsg = 2 :=
      newSweepStart_lateWrapMsg st stampedLateWrapMsg rfl a4
    have hret : (packetCallback demoParams st stampedLateWrapMsg).returns = true := by
      apply packetCallback_returns_of_short
      intro b
      have h := a6 b
      rw [show FIRINGS_PER_PACKET = 24 from rfl]
      omega
    have h1 := steady_boundary_sweep_start_time demoParams st stampedLateWrapMsg a3
      (by decide) (by rw [hs]; decide) hret
    rw [hs] at h1
    have hpub := (packetCallback_steady_published demoParams st stampedLateWrapMsg
      (by decide) a3 (by rw [hs]; decide)).1
    refine ⟨st, rfl, a3, by decide, rfl, hs, hret, ?_, ?_, ?_⟩
    · rw [hpub]
      rfl
    · rw [h1]
      norm_num [stampedLateWrapMsg]
    · rw [h1]
      norm_num [stampedLateWrapMsg, demoParams, FIRINGS_PER_PACKET, FIRINGS_PER_BLOCK,
        BLOCKS_PER_PACKET]
  · have h2 := first_boundary_sweep_start_time demoParams demoDecoder stampedLateWrapMsg rfl
      (by decide) (by rw [show newSweepStart demoParams demoDecoder stampedLateWrapMsg = 2 from
        lateWrapMsg_newSweepStart]; decide)
    rw [show newSweepStart demoParams demoDecoder stampedLateWrapMsg = 2 from
      lateWrapMsg_newSweepStart] at h2
    rw [h2]
    norm_num [stampedLateWrapMsg]

/-! ### Azimuths inside a sweep -/

/-- In the three other paths of a valid packet (first-sweep discard, steady state
without and with a boundary) a call that returns leaves `last_azimuth` at the
azimuth of the last firing of the packet. -/
theorem packetCallback_last_azimuth_other_paths (P : Params F) (st : Decoder F)
    (msg : LslidarC32Packet F) (hv : checkPacketValidity P msg.data = true)
    (h : st.is_first_sweep = false ∨ newSweepStart P st msg = FIRINGS_PER_PACKET)
    (hret : (packetCallback P st msg).returns = true) :
    (packetCallback P st msg).1.last_azimuth =
      (decodePacket P msg.data st.firings (FIRINGS_PER_PACKET - 1)).firing_azimuth := by
  obtain ⟨_, _, _, _, a5⟩ := sweepScan_spec P (decodePacket P msg.data st.firings)
    FIRINGS_PER_PACKET 0 st.last_azimuth (by decide) (by simp)
  have hfull : newSweepStart P st msg = FIRINGS_PER_PACKET →
      (sweepScan P (decodePacket P msg.data st.firings) FIRINGS_PER_PACKET 0
        st.last_azimuth).2 =
      (decodePacket P msg.data st.firings (FIRINGS_PER_PACKET - 1)).firing_azimuth := by
    intro hs
    unfold newSweepStart at hs
    rw [a5, hs, if_neg (by decide)]
  by_cases hs : newSweepStart P st msg = FIRINGS_PER_PACKET
  · cases hf : st.is_first_sweep with
    | true =>
      rw [packetCallback_first_discard P st msg hv hf hs]
      exact hfull hs
    | false =>
      rw [packetCallback_steady_append P st msg hv hf hs]
      exact hfull hs
  · have hf : st.is_first_sweep = false := by
      cases h with
      | inl h1 => exact h1
      | inr h2 => exact absurd h2 hs
    rw [(packetCallback_steady_published P st msg hv hf hs).2] at hret
    rw [packetCallback_steady_boundary P st msg hv hf hs hret]

/-! ### The index written by the 2-D scan -/

theorem pointIdx_bounds (P : Params F) (C : PublishParams F) (hpn : 1 ≤ C.point_num)
    (p : LslidarC32Point F) :
    0 ≤ pointIdx P C p ∧ pointIdx P C p ≤ C.point_num - 1 := by
  unfold pointIdx
  simp only []
  split_ifs <;> omega

/-- C21: for `point_num ≥ 1` and any point, whatever its azimuth, the bin after
the two clamps lies in `[0, point_num − 1]`, so the index
`point_num − 1 − point_idx` written by `publishScan` and `publishChannelScan`
lies in `[0, point_num − 1]`; it is below the length `point_num` that `ranges`
and `intensities` have before the binning loop and keep after every write. -/
theorem scan_write_index_in_bounds (P : Params F) (C : PublishParams F)
    (hpn : 1 ≤ C.point_num) (p : LslidarC32Point F) :
    (0 ≤ C.point_num - 1 - pointIdx P C p ∧
      C.point_num - 1 - pointIdx P C p ≤ C.point_num - 1) ∧
    ((scanSlot P C p : Int) = C.point_num - 1 - pointIdx P C p) ∧
    (∀ st : Decoder F,
      (emptyScan P C st).ranges.length = C.point_num.toNat ∧
      (emptyScan P C st).intensities.length = C.point_num.toNat ∧
      scanSlot P C p < (emptyScan P C st).ranges.length ∧
      scanSlot P C p < (emptyScan P C st).intensities.length) ∧
    (∀ scan : LaserScan F,
      (binPoint P C scan p).ranges.length = scan.ranges.length ∧
      (binPoint P C scan p).intensities.length = scan.intensities.length) := by
  obtain ⟨h0, h1⟩ := pointIdx_bounds P C hpn p
  have hslot : (scanSlot P C p : Int) = C.point_num - 1 - pointIdx P C p := by
    unfold scanSlot
    exact Int.toNat_of_nonneg (by omega)
  have hlt : scanSlot P C p < C.point_num.toNat := by
    omega
  refine ⟨⟨by omega, by omega⟩, hslot, ?_, ?_⟩
  · intro st
    have e1 : (emptyScan P C st).ranges.length = C.point_num.toNat := by
      simp [emptyScan]
    have e2 : (emptyScan P C st).intensities.length = C.point_num.toNat := by
      simp [emptyScan]
    exact ⟨e1, e2, by rw [e1]; exact hlt, by rw [e2]; exact hlt⟩
  · intro scan
    exact ⟨List.length_set _ _ _, List.length_set _ _ _⟩

/-- C21 at concrete inputs: with 4 bins, a point at 7 rad (above 2π) is written
at index 3 and a point at −2 rad at index 0. -/
theorem scan_write_index_in_bounds_witness :
    (1 : Int) ≤ maskParams.point_num ∧
    scanSlot demoParams maskParams (demoPoint 7 1) = 3 ∧
    scanSlot demoParams maskParams (demoPoint (-2) 1) = 0 ∧
    scanSlot demoParams maskParams (demoPoint 7 1) <
      (emptyScan demoParams maskParams scanDecoder).ranges.length ∧
    scanSlot demoParams maskParams (demoPoint (-2) 1) <
      (emptyScan demoParams maskParams scanDecoder).ranges.length := by
  refine ⟨by decide, ?_, ?_,
    ((scan_write_index_in_bounds demoParams maskParams (by decide)
      (demoPoint 7 1)).2.2.1 scanDecoder).2.2.1,
    ((scan_write_index_in_bounds demoParams maskParams (by decide)
      (demoPoint (-2) 1)).2.2.1 scanDecoder).2.2.1⟩
  · norm_num [scanSlot, pointIdx, truncToInt, angle_base, demoParams, maskParams, demoPoint]
    rfl
  · have hc : ⌈(-(452 / 355) : ℚ)⌉ = -1 := by
      rw [Int.ceil_eq_iff]
      norm_num
    norm_num [scanSlot, pointIdx, truncToInt, angle_base, demoParams, maskParams, demoPoint,
      hc]

end Proofs

/-! ## Exact real arithmetic -/

section Reals

/-- C14: over the reals, with table entries `cos(t/1000)` and `sin(t/1000)` and a
calibration with `cos_scan_altitude[c]² + sin_scan_altitude[c]² = 1`, every point
built by the projector has `x² + y² + z² = distance²`, its coordinates being
`d·cos_scan_altitude[c]·cos_azimuth_table[t]`,
`−d·cos_scan_altitude[c]·sin_azimuth_table[t]` and `d·sin_scan_altitude[c]`. -/
theorem makePoint_on_sphere (P : Params ℝ)
    (hcos : ∀ t : Nat, P.cos_azimuth_table t = Real.cos ((t : ℝ) / 1000))
    (hsin : ∀ t : Nat, P.sin_azimuth_table t = Real.sin ((t : ℝ) / 1000))
    (halt : ∀ c : Nat, P.cos_scan_altitude c ^ 2 + P.sin_scan_altitude c ^ 2 = 1)
    (fir : Firing ℝ) (packet_start_time : ℝ) (k c : Nat) :
    (makePoint P fir packet_start_time k c).x ^ 2 +
      (makePoint P fir packet_start_time k c).y ^ 2 +
      (makePoint P fir packet_start_time k c).z ^ 2 =
      (makePoint P fir packet_start_time k c).distance ^ 2 ∧
    (makePoint P fir packet_start_time k c).x =
      fir.distance c * P.cos_scan_altitude c *
        P.cos_azimuth_table (tableIdx (fir.azimuth c)) ∧
    (makePoint P fir packet_start_time k c).y =
      -(fir.distance c * P.cos_scan_altitude c *
        P.sin_azimuth_table (tableIdx (fir.azimuth c))) ∧
    (makePoint P fir packet_start_time k c).z = fir.distance c * P.sin_scan_altitude c := by
  obtain ⟨hx, hy, hz, _⟩ := makePoint_coords P fir packet_start_time k c
  refine ⟨makePoint_norm_sq P fir packet_start_time k c ?_ (halt c), hx, hy, hz⟩
  rw [hcos, hsin]
  exact Real.cos_sq_add_sin_sq _

/-- C14 at a concrete input: real tables `cos(t/1000)`, `sin(t/1000)`, a level
beam (`cos_scan_altitude = 1`, `sin_scan_altitude = 0`) and a sample at distance
10 with azimuth `1/2`. -/
theorem makePoint_on_sphere_witness :
    let P : Params ℝ :=
      { UPPER_BANK := 61183, DISTANCE_RESOLUTION := 1 / 100, FIRING_TOFFSET := 16,
        DSR_TOFFSET := 1, M_PI := Real.pi, min_range := 1 / 2, max_range := 100,
        scan_altitude := fun _ => 0, cos_scan_altitude := fun _ => 1,
        sin_scan_altitude := fun _ => 0,
        cos_azimuth_table := fun t => Real.cos ((t : ℝ) / 1000),
        sin_azimuth_table := fun t => Real.sin ((t : ℝ) / 1000),
        publish :=
          { point_num := 4, angle_disable_min := -1, angle_disable_max := -1,
            child_frame_id := "lslidar", layer_altitude := fun _ => 0,
            layer_id := fun i => (i : Int), publish_point_cloud := true,
            publish_channels := false } }
    let fir : Firing ℝ :=
      { firing_azimuth := 1 / 2, azimuth := fun _ => 1 / 2, distance := fun _ => 10,
        intensity := fun _ => 0 }
    (makePoint P fir 0 0 0).x ^ 2 + (makePoint P fir 0 0 0).y ^ 2 +
      (makePoint P fir 0 0 0).z ^ 2 = 10 ^ 2 := by
  intro P fir
  exact (makePoint_on_sphere P (fun _ => rfl) (fun _ => rfl) (fun _ => by norm_num)
    fir 0 0 0).1

end Reals

section RealIndex

/-- The index bound of C18 over the reals with `M_PI = π`. -/
theorem tableIdx_in_bounds_real (P : Params ℝ) (hpi : P.M_PI = Real.pi) (r : Nat)
    (hr : r ≤ 65535) :
    tableIdx (rawAzimuthToDouble P r + 4 * DEG_TO_RAD P) < 6300 ∧
    tableIdx (rawAzimuthToDouble P r) < 6300 := by
  have h0 : 0 ≤ P.M_PI := by rw [hpi]; exact Real.pi_pos.le
  have h1 : P.M_PI ≤ 315 / 100 := by
    rw [hpi]
    have := Real.pi_lt_d2
    norm_num at this ⊢
    linarith
  obtain ⟨a1, a2, a3⟩ := rawAzimuth_bounds P h0 h1 r hr
  exact ⟨tableIdx_lt_of_lt _ (by linarith) a3, tableIdx_lt_of_lt _ a1 (by linarith)⟩

end RealIndex

end LslidarC32
